import Mathlib

/-!
# Nutrition and growth analytics of gizi-app-Be

A shallow embedding of `src/utils/calculations.js`, of the derivation hook of
`src/models/GrowthRecord.js`, of the age getter of `src/models/Child.js`, of the create
and update handlers of `src/routes/growth.js`, of the needs endpoint of
`src/routes/food.js` and of the computations of the dashboard (`src/routes/dashboard.js`)
and of the reports (`src/routes/reports.js`), with the properties of the written
specification stated over it.

Conventions of the embedding.

* A JavaScript `Number` is the rational value (`ℚ`) of a double. Comparisons, `Math.floor`,
  `Math.round` and the digit selection of `toFixed` are exact on a double. The arithmetic
  operations round their exact result to the nearest double, which is `fl64` (round to
  nearest, ties to even; the exponent range is not bounded, the values of the program stay
  far inside the normal range). `fl64` is written out in the BMI, in the comparisons of the
  dashboard trend, in the changes of the monthly report, in the sums, quotients and
  percentages of the dashboard compliance, in the average of `getOverallStatus` and in the
  daily averages and the compliance rate of the monthly report. The quotients under
  `Math.floor` (the age, the days since the last record), the products of the infant needs,
  the derived needs, the N-day compliance report and the export summary are kept as exact
  rationals. Where a division can have a zero divisor the result is a `JSNumber`, which adds
  the infinities and `NaN`.
* A `Date` is its time value, an integer number of milliseconds since the epoch (`ℤ`). The
  clock read by `new Date()` is an explicit argument.
* The string enumeration of nutrition statuses is an inductive type.
-/

namespace GiziApp

/-! ## Primitives of the JavaScript runtime -/

/-- The function `Math.floor` on a finite number. -/
def mathFloor (x : ℚ) : ℤ := ⌊x⌋

/-- The function `Math.round` on a finite number: the integer nearest to `x`, a tie going
towards plus infinity, which is `floor (x + 0.5)`. -/
def mathRound (x : ℚ) : ℤ := ⌊x + 1 / 2⌋

/-- The integer nearest to `x`, a tie going to the even neighbour. -/
def roundHalfEven (x : ℚ) : ℤ :=
  let f := ⌊x⌋
  if x - f < 1 / 2 then f
  else if 1 / 2 < x - f then f + 1
  else if f % 2 = 0 then f else f + 1

/-- The double nearest to the rational `x` (round to nearest, ties to even): `x` is rounded
to 53 significant bits in the binade `2 ^ e ≤ |x| < 2 ^ (e + 1)`. It is the result of an
arithmetic operation whose exact result is `x`, and the value of a decimal literal or of a
decimal string read by `parseFloat` or by the unary `+`. -/
def fl64 (x : ℚ) : ℚ :=
  if x = 0 then 0
  else
    let e := Int.log 2 |x|
    let ulp : ℚ := 2 ^ (e - 52)
    roundHalfEven (x / ulp) * ulp

/-- The decimal number that the string `x.toFixed(2)` spells: `toFixed` picks the integer
`n` for which `n / 100 - x` is closest to zero, the larger `n` on a tie, after moving the
sign of a negative `x` to the front. (From `10 ^ 21` on `toFixed` prints the number itself; a
double of that size is an integer, so the value is the same.) -/
def toFixed2 (x : ℚ) : ℚ :=
  if x < 0 then -((⌊-x * 100 + 1 / 2⌋ : ℤ) : ℚ) / 100
  else ((⌊x * 100 + 1 / 2⌋ : ℤ) : ℚ) / 100

/-- The day number of a calendar date counted from 1 January 1970 in the proleptic Gregorian
calendar, as the runtime computes it for `Date.UTC(y, m - 1, d)` (`m` from 1 to 12). -/
def daysFromCivil (y m d : ℤ) : ℤ :=
  let yr := if m ≤ 2 then y - 1 else y
  let era := yr / 400
  let yoe := yr - era * 400
  let mp := (m + 9) % 12
  let doy := (153 * mp + 2) / 5 + d - 1
  let doe := yoe * 365 + yoe / 4 - yoe / 100 + doy
  era * 146097 + doe - 719468

/-- The number of milliseconds in a day. -/
def msPerDay : ℤ := 86400000

/-- The time value of the calendar date `y-m-d` at `ms` milliseconds after midnight, UTC. -/
def dateUTC (y m d ms : ℤ) : ℤ := daysFromCivil y m d * msPerDay + ms

/-! ## `src/utils/calculations.js` -/

/-- The five values of the `nutritionStatus` enumeration. -/
inductive NutritionStatus where
  | severely_underweight
  | underweight
  | normal
  | overweight
  | obese
  deriving DecidableEq, Repr

/-- The divisor `1000 * 60 * 60 * 24 * 30.44` of the age computations. -/
def msPerMonth : ℚ := 1000 * 60 * 60 * 24 * (3044 / 100)

/-- Source `calculateAge`: `today` is the value of `new Date()`, `birthDate` the time value
of `new Date(birthDate)`. -/
def calculateAge (birthDate today : ℤ) : ℤ :=
  let ageInMs : ℤ := today - birthDate
  let ageInMonths := mathFloor ((ageInMs : ℚ) / msPerMonth)
  ageInMonths

/-- Source `calculateBMI`: the division `height / 100`, the product and the quotient are
each rounded to a double, `toFixed(2)` selects the digits of the quotient and `parseFloat`
reads them back. The arguments are the values of the doubles passed in. -/
def calculateBMI (weight height : ℚ) : ℚ :=
  let heightInM := fl64 (height / 100)
  fl64 (toFixed2 (fl64 (weight / fl64 (heightInM * heightInM))))

/-- The BMI in the words of the specification: the exact quotient `weight / (height/100)^2`
rounded to 2 decimal places, a half going away from zero. -/
def bmiSpec (weight height : ℚ) : ℚ :=
  toFixed2 (weight / (height / 100) ^ 2)

/-- Source `calculateCalorieNeeds`; `gender` is the string the caller passes. -/
def calculateCalorieNeeds (ageInMonths : ℚ) (gender : String) (weight : ℚ) : ℚ :=
  if ageInMonths < 6 then mathRound (108 * weight)
  else if ageInMonths < 12 then mathRound (98 * weight)
  else if ageInMonths < 24 then 1125
  else if ageInMonths < 36 then 1250
  else if ageInMonths < 60 then (if gender = "male" then 1400 else 1300)
  else if ageInMonths < 120 then (if gender = "male" then 1650 else 1550)
  else (if gender = "male" then 2000 else 1800)

/-- Source `calculateProteinNeeds`. -/
def calculateProteinNeeds (ageInMonths weight : ℚ) : ℚ :=
  if ageInMonths < 6 then mathRound (22 / 10 * weight)
  else if ageInMonths < 12 then mathRound (16 / 10 * weight)
  else if ageInMonths < 24 then 20
  else if ageInMonths < 36 then 25
  else if ageInMonths < 60 then 35
  else if ageInMonths < 120 then 40
  else 50

/-- Source `getNutritionStatus`. -/
def getNutritionStatus (bmi ageInMonths : ℚ) : NutritionStatus :=
  if ageInMonths < 24 then
    if bmi < 14 then .severely_underweight
    else if bmi < 16 then .underweight
    else if bmi < 19 then .normal
    else if bmi < 21 then .overweight
    else .obese
  else
    if bmi < 15 then .severely_underweight
    else if bmi < 17 then .underweight
    else if bmi < 25 then .normal
    else if bmi < 30 then .overweight
    else .obese

/-- The severity order of the statuses:
`severely_underweight < underweight < normal < overweight < obese`. -/
def severityRank : NutritionStatus → ℕ
  | .severely_underweight => 0
  | .underweight => 1
  | .normal => 2
  | .overweight => 3
  | .obese => 4

/-! ## `src/models/Child.js` -/

/-- The getter of the virtual `ageInMonths` of the child schema. -/
def Child.ageInMonths (birthDate today : ℤ) : ℤ :=
  let ageInMs : ℤ := today - birthDate
  mathFloor ((ageInMs : ℚ) / (1000 * 60 * 60 * 24 * (3044 / 100)))

/-! ## `src/models/GrowthRecord.js` -/

/-- A document of the growth-record schema. `weight`, `height` and `ageInMonths` are
required numbers; `bmi` and `nutritionStatus` are absent until the first save; `notes` is a
string. -/
structure GrowthRecord where
  childId : ℕ
  weight : ℚ
  height : ℚ
  ageInMonths : ℚ
  bmi : Option ℚ
  nutritionStatus : Option NutritionStatus
  headCircumference : Option ℚ
  notes : Option String
  recordDate : ℤ
  deriving DecidableEq

/-- The property `length` of a JavaScript string: the number of UTF-16 code units, two for
a character outside the basic plane. -/
def utf16Length (s : String) : ℕ :=
  (s.toList.map (fun c => if c.toNat < 65536 then 1 else 2)).sum

/-- The messages of the range validators of `weight`. -/
def GrowthRecord.weightErrors (weight : ℚ) : List String :=
  (if weight < 1 / 2 then ["Weight must be at least 0.5 kg"] else []) ++
  (if 200 < weight then ["Weight cannot exceed 200 kg"] else [])

/-- The messages of the range validators of `height`. -/
def GrowthRecord.heightErrors (height : ℚ) : List String :=
  (if height < 30 then ["Height must be at least 30 cm"] else []) ++
  (if 250 < height then ["Height cannot exceed 250 cm"] else [])

/-- The messages of the validators of the optional fields `headCircumference` and `notes`;
an absent field is not validated. -/
def GrowthRecord.optionalErrors (headCircumference : Option ℚ) (notes : Option String) :
    List String :=
  (match headCircumference with
    | some c =>
      (if c < 25 then ["Head circumference must be at least 25 cm"] else []) ++
      (if 70 < c then ["Head circumference cannot exceed 70 cm"] else [])
    | none => []) ++
  (match notes with
    | some n =>
      if 300 < utf16Length n then ["Notes cannot be more than 300 characters"] else []
    | none => [])

/-- The messages of the range and length validators of the schema that reject the document,
in schema order. -/
def GrowthRecord.validationErrors (r : GrowthRecord) : List String :=
  GrowthRecord.weightErrors r.weight ++ GrowthRecord.heightErrors r.height ++
    GrowthRecord.optionalErrors r.headCircumference r.notes

/-- The status chain of the save hook (lines 54 to 64), a function of the stored BMI alone. -/
def GrowthRecord.preSaveStatus (bmi : ℚ) : NutritionStatus :=
  if bmi < 16 then .severely_underweight
  else if bmi < 17 then .underweight
  else if bmi < 25 then .normal
  else if bmi < 30 then .overweight
  else .obese

/-- The hook `growthRecordSchema.pre('save')`: derive `bmi`, with the binary64 steps of
`calculateBMI`, and `nutritionStatus`. -/
def GrowthRecord.preSave (r : GrowthRecord) : GrowthRecord :=
  let heightInM := fl64 (r.height / 100)
  let bmi := fl64 (toFixed2 (fl64 (r.weight / fl64 (heightInM * heightInM))))
  { r with bmi := some bmi, nutritionStatus := some (GrowthRecord.preSaveStatus bmi) }

/-- The call `record.save()`: validation runs first and rejects the save with its messages;
otherwise the hook runs and the derived document is what is stored and returned. (All
fields are validated; for a stored document, whose fields have passed validation at their
own save, this agrees with the validation of the modified fields.) -/
def GrowthRecord.save (r : GrowthRecord) : Except (List String) GrowthRecord :=
  if r.validationErrors = [] then .ok r.preSave else .error r.validationErrors

/-! ## `src/routes/growth.js` -/

/-- The handler `POST /` once the child is found: `birthDate` is the birth date of the child,
`now` the clock (read for the age and for the default of `recordDate`), the other arguments
the fields of the request body, `none` for a field that is not sent. A missing required
field is rejected by validation with its `required` message, next to the messages of the
validators that the fields that were sent fail. -/
def createGrowthRecord (birthDate now : ℤ) (childId : ℕ) (weight height : Option ℚ)
    (headCircumference : Option ℚ) (notes : Option String) :
    Except (List String) GrowthRecord :=
  let ageInMonths := calculateAge birthDate now
  match weight, height with
  | some w, some h =>
    GrowthRecord.save
      { childId := childId, weight := w, height := h, ageInMonths := ageInMonths,
        bmi := none, nutritionStatus := none, headCircumference := headCircumference,
        notes := notes, recordDate := now }
  | _, _ =>
    .error
      ((match weight with
        | some w => GrowthRecord.weightErrors w
        | none => ["Weight is required"]) ++
       (match height with
        | some h => GrowthRecord.heightErrors h
        | none => ["Height is required"]) ++
       GrowthRecord.optionalErrors headCircumference notes)

/-- The handler `PUT /:recordId` once the record is found and owned: every field of the body
that is not `undefined` overwrites the field of the record, then the record is saved. -/
def updateGrowthRecord (record : GrowthRecord) (weight height : Option ℚ)
    (headCircumference : Option ℚ) (notes : Option String) :
    Except (List String) GrowthRecord :=
  let r1 := match weight with
    | some w => { record with weight := w }
    | none => record
  let r2 := match height with
    | some h => { r1 with height := h }
    | none => r1
  let r3 := match headCircumference with
    | some c => { r2 with headCircumference := some c }
    | none => r2
  let r4 := match notes with
    | some n => { r3 with notes := some n }
    | none => r3
  GrowthRecord.save r4

/-! ## Numbers that may be infinite or `NaN`

Where the source divides by a value that can be zero, or reads a field that can be absent,
the result is one of these values instead of a rational. The zero has no sign. -/

/-- A JavaScript number: a finite value, `Infinity`, `-Infinity` or `NaN`. -/
inductive JSNumber where
  | fin (q : ℚ)
  | posInf
  | negInf
  | nan
  deriving DecidableEq

/-- The operator `+`. -/
def JSNumber.add : JSNumber → JSNumber → JSNumber
  | .fin a, .fin b => .fin (a + b)
  | .nan, _ => .nan
  | _, .nan => .nan
  | .posInf, .negInf => .nan
  | .negInf, .posInf => .nan
  | .posInf, _ => .posInf
  | _, .posInf => .posInf
  | .negInf, _ => .negInf
  | _, .negInf => .negInf

/-- The operator `*`. -/
def JSNumber.mul : JSNumber → JSNumber → JSNumber
  | .fin a, .fin b => .fin (a * b)
  | .nan, _ => .nan
  | _, .nan => .nan
  | .posInf, .posInf => .posInf
  | .negInf, .negInf => .posInf
  | .posInf, .negInf => .negInf
  | .negInf, .posInf => .negInf
  | .posInf, .fin b => if b = 0 then .nan else if 0 < b then .posInf else .negInf
  | .negInf, .fin b => if b = 0 then .nan else if 0 < b then .negInf else .posInf
  | .fin a, .posInf => if a = 0 then .nan else if 0 < a then .posInf else .negInf
  | .fin a, .negInf => if a = 0 then .nan else if 0 < a then .negInf else .posInf

/-- The operator `/`: a finite dividend over zero is `NaN` when it is zero itself and an
infinity of its own sign otherwise. -/
def JSNumber.div : JSNumber → JSNumber → JSNumber
  | .fin a, .fin b =>
    if b = 0 then (if a = 0 then .nan else if 0 < a then .posInf else .negInf)
    else .fin (a / b)
  | .nan, _ => .nan
  | _, .nan => .nan
  | .fin _, .posInf => .fin 0
  | .fin _, .negInf => .fin 0
  | .posInf, .fin b => if 0 ≤ b then .posInf else .negInf
  | .negInf, .fin b => if 0 ≤ b then .negInf else .posInf
  | .posInf, .posInf => .nan
  | .posInf, .negInf => .nan
  | .negInf, .posInf => .nan
  | .negInf, .negInf => .nan

/-- The function `Math.min` of two arguments: `NaN` when either is `NaN`. -/
def JSNumber.min : JSNumber → JSNumber → JSNumber
  | .nan, _ => .nan
  | _, .nan => .nan
  | .negInf, _ => .negInf
  | _, .negInf => .negInf
  | .posInf, y => y
  | x, .posInf => x
  | .fin a, .fin b => .fin (Min.min a b)

/-- The expression `x || 0` on a number: `NaN` and zero are falsy and give `0`. -/
def JSNumber.orZero : JSNumber → JSNumber
  | .nan => .fin 0
  | .fin a => if a = 0 then .fin 0 else .fin a
  | x => x

/-- The expression `field || 0` on an optional numeric field of a document: an absent field
and a zero give `0`. -/
def fieldOrZero (field : Option ℚ) : ℚ :=
  match field with
  | some v => if v = 0 then 0 else v
  | none => 0

/-- An element access `xs[i]` whose result is dereferenced: reading a property of
`undefined` throws a `TypeError`. -/
def elementAt {α : Type} (xs : List α) (i : ℕ) : Except String α :=
  match xs[i]? with
  | some x => .ok x
  | none => .error "TypeError: Cannot read properties of undefined"

/-! ## `src/models/FoodLog.js`, `src/models/Reminder.js` -/

/-- A document of the food-log schema: the meal time, the seven optional nutrient fields and
the log date. The text fields (`foodName`, `portion`, `photo`, `notes`) are not read by any
computation and are left out. -/
structure FoodLog where
  childId : ℕ
  mealTime : String
  calories : Option ℚ
  protein : Option ℚ
  carbs : Option ℚ
  fat : Option ℚ
  fiber : Option ℚ
  sugar : Option ℚ
  sodium : Option ℚ
  logDate : ℤ
  deriving DecidableEq

/-- A document of the reminder schema, with the fields that the dashboard reads; `time` is
the string that the schema validates against `HH:MM`. -/
structure Reminder where
  id : ℕ
  title : String
  time : String
  type : String
  deriving DecidableEq

/-- The pieces of a string between its colons, as `split(':')` returns them. -/
def splitOnColon : List Char → List (List Char)
  | [] => [[]]
  | c :: cs =>
    if c = ':' then [] :: splitOnColon cs
    else
      match splitOnColon cs with
      | [] => [[c]]
      | p :: ps => (c :: p) :: ps

/-- The function `parseInt` on a piece of a time string: the number that its leading decimal
digits spell, `none` (for `NaN`) when it does not start with a digit. Leading white space,
a sign and the marker of a hexadecimal number, which `parseInt` accepts, do not occur in a
time that the schema has validated and are not modelled. -/
def parseIntDigits (cs : List Char) : Option ℕ :=
  let ds := cs.takeWhile Char.isDigit
  if ds = [] then none else some (ds.foldl (fun n c => 10 * n + (c.toNat - 48)) 0)

/-- The minute of the day of a reminder:
`parseInt(hours) * 60 + parseInt(minutes)` of the two pieces of `time.split(':')`; `none`
stands for `NaN`, which every comparison rejects. -/
def reminderTime (time : String) : Option ℕ :=
  match splitOnColon time.toList with
  | hours :: minutes :: _ =>
    match parseIntDigits hours, parseIntDigits minutes with
    | some h, some m => some (h * 60 + m)
    | _, _ => none
  | _ => none

/-! ## `src/routes/dashboard.js` -/

/-- The accumulator of the reduction over the food logs of today. -/
structure TodayNutrition where
  calories : ℚ
  protein : ℚ
  carbs : ℚ
  fat : ℚ
  deriving DecidableEq

/-- The reduction `todayFoodLogs.reduce(...)` of the stats handler; each `+=` rounds the
sum to a double. -/
def todayNutrition (todayFoodLogs : List FoodLog) : TodayNutrition :=
  todayFoodLogs.foldl
    (fun acc log =>
      { calories := fl64 (acc.calories + fieldOrZero log.calories)
        protein := fl64 (acc.protein + fieldOrZero log.protein)
        carbs := fl64 (acc.carbs + fieldOrZero log.carbs)
        fat := fl64 (acc.fat + fieldOrZero log.fat) })
    { calories := 0, protein := 0, carbs := 0, fat := 0 }

/-- The constant `calorieCompliance` of the stats handler; the quotient and the product are
each rounded to a double. -/
def calorieCompliance (todayFoodLogs : List FoodLog) (targetCalories : ℚ) : ℚ :=
  if targetCalories > 0 then
    min (fl64 (fl64 ((todayNutrition todayFoodLogs).calories / targetCalories) * 100)) 100
  else 0

/-- The constant `proteinCompliance` of the stats handler; the quotient and the product are
each rounded to a double. -/
def proteinCompliance (todayFoodLogs : List FoodLog) (targetProtein : ℚ) : ℚ :=
  if targetProtein > 0 then
    min (fl64 (fl64 ((todayNutrition todayFoodLogs).protein / targetProtein) * 100)) 100
  else 0

/-- The three values of a trend. -/
inductive Trend where
  | increasing
  | decreasing
  | stable
  deriving DecidableEq, Repr

/-- The query `recentGrowthRecords` of the stats handler over the growth records of the
child: the records dated within the last 90 days, newest first, at most 10. (Records of
equal date keep the order in which they are stored.) -/
def recentGrowthRecords (records : List GrowthRecord) (now : ℤ) : List GrowthRecord :=
  ((records.filter (fun r => now - 90 * 24 * 60 * 60 * 1000 ≤ r.recordDate)).insertionSort
    (fun a b => b.recordDate ≤ a.recordDate)).take 10

/-- The variable `growthTrend` of the stats handler, computed from the result of the query
`recentGrowthRecords`. The literal `0.2` is the double `fl64 (2 / 10)`, and the sum and the
difference are rounded to a double before the comparison. -/
def growthTrend (recentGrowthRecords : List GrowthRecord) : Except String Trend :=
  if recentGrowthRecords.length ≥ 2 then do
    let latest ← elementAt recentGrowthRecords 0
    let previous ← elementAt recentGrowthRecords 1
    if latest.weight > fl64 (previous.weight + fl64 (2 / 10)) then pure .increasing
    else if latest.weight < fl64 (previous.weight - fl64 (2 / 10)) then pure .decreasing
    else pure .stable
  else pure .stable

/-- The filter `upcomingReminders` of the stats handler; `currentTime` is
`today.getHours() * 60 + today.getMinutes()`. -/
def upcomingReminders (activeReminders : List Reminder) (currentTime : ℕ) : List Reminder :=
  activeReminders.filter (fun reminder =>
    match reminderTime reminder.time with
    | some t => decide (t > currentTime ∧ t ≤ currentTime + 120)
    | none => false)

/-- The values of `status` that `getOverallStatus` returns. -/
inductive OverallStatusLabel where
  | needs_attention
  | excellent
  | good
  | needs_improvement
  deriving DecidableEq, Repr

/-- The values of `priority` that `getOverallStatus` returns. -/
inductive Priority where
  | high
  | medium
  | low
  deriving DecidableEq, Repr

/-- The object that `getOverallStatus` returns. -/
structure OverallStatus where
  status : OverallStatusLabel
  message : String
  priority : Priority
  deriving DecidableEq

/-- Source `getOverallStatus`; `daysSinceLastGrowth` is `none` for `null`, which the
comparison `> 60` takes as 0. The sum of the two compliance values and its half are each
rounded to a double. -/
def getOverallStatus (calorieCompliance proteinCompliance trackingConsistency : ℚ)
    (daysSinceLastGrowth : Option ℚ) : OverallStatus :=
  let avgCompliance := fl64 (fl64 (calorieCompliance + proteinCompliance) / 2)
  if (match daysSinceLastGrowth with
      | some d => d
      | none => 0) > 60 then
    { status := .needs_attention, message := "Perlu update data pertumbuhan",
      priority := .high }
  else if avgCompliance ≥ 80 ∧ trackingConsistency ≥ 80 then
    { status := .excellent, message := "Tracking dan gizi sangat baik!", priority := .low }
  else if avgCompliance ≥ 60 ∧ trackingConsistency ≥ 60 then
    { status := .good, message := "Tracking dan gizi cukup baik", priority := .low }
  else
    { status := .needs_improvement, message := "Perlu lebih konsisten dalam tracking",
      priority := .medium }

/-! ## `src/routes/reports.js` -/

/-- The object `growthAnalysis` of the monthly report. -/
structure GrowthAnalysis where
  recordsCount : ℕ
  weightChange : ℚ
  heightChange : ℚ
  bmiChange : JSNumber
  deriving DecidableEq

/-- The object `growthAnalysis` of the monthly report, computed from the growth records of
the month in ascending date order: each difference is rounded to a double, `toFixed(2)`
selects its digits and the unary `+` reads them back. A record without `bmi` makes the
difference `NaN`. -/
def growthAnalysis (growthRecords : List GrowthRecord) : Except String GrowthAnalysis :=
  if growthRecords.length ≥ 2 then do
    let first ← elementAt growthRecords 0
    let last ← elementAt growthRecords (growthRecords.length - 1)
    pure
      { recordsCount := growthRecords.length
        weightChange := fl64 (toFixed2 (fl64 (last.weight - first.weight)))
        heightChange := fl64 (toFixed2 (fl64 (last.height - first.height)))
        bmiChange :=
          match last.bmi, first.bmi with
          | some l, some f => .fin (fl64 (toFixed2 (fl64 (l - f))))
          | _, _ => .nan }
  else
    pure { recordsCount := growthRecords.length, weightChange := 0, heightChange := 0,
           bmiChange := .fin 0 }

/-- The comparison `a > b` on a field that may be absent: `undefined` compares false. -/
def gtField (a b : Option ℚ) : Bool :=
  match a, b with
  | some x, some y => decide (x > y)
  | _, _ => false

/-- The three `trend` fields of the growth-trend report. -/
structure GrowthTrends where
  weight : Trend
  height : Trend
  bmi : Trend
  deriving DecidableEq

/-- The trends of the growth-trend report, computed from the growth records of the period
in ascending date order (the `data` series of the response are left out). -/
def growthTrends (growthRecords : List GrowthRecord) : Except String GrowthTrends :=
  if growthRecords.length ≥ 2 then do
    let first ← elementAt growthRecords 0
    let last ← elementAt growthRecords (growthRecords.length - 1)
    pure
      { weight :=
          if last.weight > first.weight then .increasing
          else if last.weight < first.weight then .decreasing else .stable
        height :=
          if last.height > first.height then .increasing
          else if last.height < first.height then .decreasing else .stable
        bmi :=
          if gtField last.bmi first.bmi then .increasing
          else if gtField first.bmi last.bmi then .decreasing else .stable }
  else pure { weight := .stable, height := .stable, bmi := .stable }

/-- The key of `dailyData`: the date part of `logDate.toISOString()`, that is the UTC day of
the log date, kept as its day number. -/
def isoDate (logDate : ℤ) : ℤ := logDate / msPerDay

/-- An entry of `dailyData` in the nutrition-compliance report. -/
structure DayData where
  calories : ℚ
  protein : ℚ
  mealCount : ℕ
  deriving DecidableEq

/-- The three updates `+=` and `++` that add a log to the entry of its day. -/
def DayData.addLog (data : DayData) (log : FoodLog) : DayData :=
  { calories := data.calories + fieldOrZero log.calories
    protein := data.protein + fieldOrZero log.protein
    mealCount := data.mealCount + 1 }

/-- One step of the loop that fills `dailyData`: the entry of the day of the log is created
with zeros at the end of the object when it is missing, then the log is added to it. -/
def addToDailyData (dailyData : List (ℤ × DayData)) (log : FoodLog) : List (ℤ × DayData) :=
  match dailyData with
  | [] =>
    [(isoDate log.logDate,
      DayData.addLog { calories := 0, protein := 0, mealCount := 0 } log)]
  | (date, data) :: rest =>
    if date = isoDate log.logDate then (date, data.addLog log) :: rest
    else (date, data) :: addToDailyData rest log

/-- The object `dailyData` of the nutrition-compliance report, as the list of its entries
in insertion order (the order of `Object.entries`). -/
def dailyData (foodLogs : List FoodLog) : List (ℤ × DayData) :=
  foodLogs.foldl addToDailyData []

/-- An item `{ date, value }` of a compliance series. -/
structure ComplianceItem where
  date : ℤ
  value : JSNumber
  deriving DecidableEq

/-- The per-day value `Math.min((actual / target) * 100, 100)`. -/
def dayCompliance (actual target : ℚ) : JSNumber :=
  JSNumber.min (JSNumber.mul (JSNumber.div (.fin actual) (.fin target)) (.fin 100)) (.fin 100)

/-- The object `compliance` of the nutrition-compliance report. -/
structure ComplianceSeries where
  calorie : List ComplianceItem
  protein : List ComplianceItem
  mealFrequency : List ComplianceItem
  deriving DecidableEq

/-- The loop over `Object.entries(dailyData)` that fills the three series. -/
def complianceSeries (foodLogs : List FoodLog) (targetCalories targetProtein : ℚ) :
    ComplianceSeries :=
  (dailyData foodLogs).foldl
    (fun compliance entry =>
      let calorieCompliance := dayCompliance entry.2.calories targetCalories
      let proteinCompliance := dayCompliance entry.2.protein targetProtein
      let mealCompliance := dayCompliance entry.2.mealCount 4
      { calorie := compliance.calorie ++ [{ date := entry.1, value := calorieCompliance }]
        protein := compliance.protein ++ [{ date := entry.1, value := proteinCompliance }]
        mealFrequency :=
          compliance.mealFrequency ++ [{ date := entry.1, value := mealCompliance }] })
    { calorie := [], protein := [], mealFrequency := [] }

/-- The average of a series:
`items.reduce((sum, item) => sum + item.value, 0) / items.length || 0`. -/
def averageOfSeries (items : List ComplianceItem) : JSNumber :=
  JSNumber.orZero
    (JSNumber.div (items.foldl (fun sum item => JSNumber.add sum item.value) (.fin 0))
      (.fin items.length))

/-- The object `avgCompliance` of the nutrition-compliance report. -/
structure AverageCompliance where
  calorie : JSNumber
  protein : JSNumber
  mealFrequency : JSNumber
  deriving DecidableEq

/-- The field `averageCompliance` of the nutrition-compliance report. -/
def averageCompliance (foodLogs : List FoodLog) (targetCalories targetProtein : ℚ) :
    AverageCompliance :=
  let compliance := complianceSeries foodLogs targetCalories targetProtein
  { calorie := averageOfSeries compliance.calorie
    protein := averageOfSeries compliance.protein
    mealFrequency := averageOfSeries compliance.mealFrequency }

/-- The totals of a day in the words of the specification: the sums of the calorie and
protein fields, an absent field counting 0, of the logs of the UTC day `d`, and the number
of these logs. -/
def dayTotalsSpec (foodLogs : List FoodLog) (d : ℤ) : DayData :=
  let ofDay := foodLogs.filter (fun l => isoDate l.logDate = d)
  { calories := (ofDay.map (fun l => fieldOrZero l.calories)).sum
    protein := (ofDay.map (fun l => fieldOrZero l.protein)).sum
    mealCount := ofDay.length }

/-- The invariant of the loop that fills `dailyData`: distinct keys, one key for each day
that has a log, and each entry holding the totals of its day. -/
def DailyDataInv (acc : List (ℤ × DayData)) (logs : List FoodLog) : Prop :=
  (acc.map Prod.fst).Nodup ∧
  (∀ d, d ∈ acc.map Prod.fst ↔ ∃ l ∈ logs, isoDate l.logDate = d) ∧
  (∀ e ∈ acc, e.2 = dayTotalsSpec logs e.1)

/-- The arithmetic mean of a list of numbers, 0 for the empty list. -/
def arithmeticMean (qs : List ℚ) : ℚ :=
  if qs = [] then 0 else qs.sum / qs.length

/-! ## `src/routes/dashboard.js`: the next reminder, the stats handler -/

/-- The object that `getNextReminder` returns. -/
structure NextReminder where
  id : ℕ
  title : String
  time : String
  type : String
  hoursUntil : ℤ
  minutesUntil : ℤ
  deriving DecidableEq

/-- The variable `timeDiff` of `getNextReminder` for a reminder at minute `reminderTime`:
the difference to the current minute, a day later when it is negative. -/
def timeDiff (reminderTime currentTime : ℕ) : ℤ :=
  let timeDiff : ℤ := (reminderTime : ℤ) - currentTime
  if timeDiff < 0 then timeDiff + 24 * 60 else timeDiff

/-- The body of the loop of `getNextReminder`: the state is `nextReminder` and
`shortestTimeDiff`, `none` for the initial `Infinity`. A time that does not parse gives
`NaN`, which both comparisons reject. -/
def nextReminderStep (currentTime : ℕ) (state : Option NextReminder × Option ℤ)
    (reminder : Reminder) : Option NextReminder × Option ℤ :=
  match reminderTime reminder.time with
  | none => state
  | some t =>
    let d := timeDiff t currentTime
    let updated : Option NextReminder × Option ℤ :=
      (some
        { id := reminder.id, title := reminder.title, time := reminder.time,
          type := reminder.type, hoursUntil := d / 60, minutesUntil := d % 60 },
       some d)
    match state.2 with
    | none => updated
    | some shortest => if d < shortest then updated else state

/-- Source `getNextReminder`; `currentTime` is `now.getHours() * 60 + now.getMinutes()`. -/
def getNextReminder (reminders : List Reminder) (currentTime : ℕ) : Option NextReminder :=
  (reminders.foldl (nextReminderStep currentTime) (none, none)).1

/-- The forward distance on the 24-hour clock in the words of the specification:
`(reminderMinute - now) mod 1440`. -/
def forwardDistance (reminderMinute now : ℕ) : ℤ := ((reminderMinute : ℤ) - now) % 1440

/-- The object that `getNextReminder` builds for a reminder at distance `d`. -/
def NextReminder.ofReminder (reminder : Reminder) (d : ℤ) : NextReminder :=
  { id := reminder.id, title := reminder.title, time := reminder.time,
    type := reminder.type, hoursUntil := d / 60, minutesUntil := d % 60 }

/-! ## `src/routes/reports.js`: the monthly report -/

/-- An entry of `nutritionByDay`, also the shape of `avgNutrition`. -/
structure DayNutrition where
  calories : ℚ
  protein : ℚ
  carbs : ℚ
  fat : ℚ
  fiber : ℚ
  sugar : ℚ
  sodium : ℚ
  meals : ℚ
  deriving DecidableEq

/-- The entry of zeros with which a day and the sum start. -/
def DayNutrition.zero : DayNutrition :=
  { calories := 0, protein := 0, carbs := 0, fat := 0, fiber := 0, sugar := 0, sodium := 0,
    meals := 0 }

/-- The updates of the entry of a day by one log: seven `+=`, each rounding the sum to a
double, and `meals++`, which counts in integers. -/
def DayNutrition.addLog (day : DayNutrition) (log : FoodLog) : DayNutrition :=
  { calories := fl64 (day.calories + fieldOrZero log.calories)
    protein := fl64 (day.protein + fieldOrZero log.protein)
    carbs := fl64 (day.carbs + fieldOrZero log.carbs)
    fat := fl64 (day.fat + fieldOrZero log.fat)
    fiber := fl64 (day.fiber + fieldOrZero log.fiber)
    sugar := fl64 (day.sugar + fieldOrZero log.sugar)
    sodium := fl64 (day.sodium + fieldOrZero log.sodium)
    meals := day.meals + 1 }

/-- One step of the loop that fills `nutritionByDay`; `getDate` is the method of the runtime
that gives the day of the month of a time value in the time zone of the server. -/
def addToNutritionByDay (getDate : ℤ → ℕ) (nutritionByDay : List (ℕ × DayNutrition))
    (log : FoodLog) : List (ℕ × DayNutrition) :=
  match nutritionByDay with
  | [] => [(getDate log.logDate, DayNutrition.zero.addLog log)]
  | (day, data) :: rest =>
    if day = getDate log.logDate then (day, data.addLog log) :: rest
    else (day, data) :: addToNutritionByDay getDate rest log

/-- The object `nutritionByDay` of the monthly report as the list of its entries in the
order of their creation. (The counts `mealsByType` of the same loop are left out.) -/
def nutritionByDay (getDate : ℤ → ℕ) (foodLogs : List FoodLog) : List (ℕ × DayNutrition) :=
  foodLogs.foldl (addToNutritionByDay getDate) []

/-- The entries of `nutritionByDay` in the order of `Object.values`: the keys are days of
the month, and the runtime enumerates integer keys in ascending order. -/
def nutritionDays (getDate : ℤ → ℕ) (foodLogs : List FoodLog) : List (ℕ × DayNutrition) :=
  (nutritionByDay getDate foodLogs).insertionSort (fun a b => a.1 ≤ b.1)

/-- The constant `daysWithLogs` of the monthly report. -/
def daysWithLogs (getDate : ℤ → ℕ) (foodLogs : List FoodLog) : ℕ :=
  (nutritionByDay getDate foodLogs).length

/-- The object `avgNutrition` of the monthly report before the division: the reduction over
`Object.values(nutritionByDay)`, each `+=` rounding the sum to a double (the sum of the
integer counts `meals` is exact). -/
def monthTotals (getDate : ℤ → ℕ) (foodLogs : List FoodLog) : DayNutrition :=
  (nutritionDays getDate foodLogs).foldl
    (fun acc day =>
      { calories := fl64 (acc.calories + day.2.calories)
        protein := fl64 (acc.protein + day.2.protein)
        carbs := fl64 (acc.carbs + day.2.carbs)
        fat := fl64 (acc.fat + day.2.fat)
        fiber := fl64 (acc.fiber + day.2.fiber)
        sugar := fl64 (acc.sugar + day.2.sugar)
        sodium := fl64 (acc.sodium + day.2.sodium)
        meals := acc.meals + day.2.meals })
    DayNutrition.zero

/-- The field `avgDailyNutrition` of the monthly report: each key of `avgNutrition` divided
by `daysWithLogs`, the quotient rounded to a double, and rounded to an integer by
`Math.round`, when there is a day. -/
def avgDailyNutrition (getDate : ℤ → ℕ) (foodLogs : List FoodLog) : DayNutrition :=
  let avgNutrition := monthTotals getDate foodLogs
  let daysWithLogs := daysWithLogs getDate foodLogs
  if daysWithLogs > 0 then
    { calories := mathRound (fl64 (avgNutrition.calories / daysWithLogs))
      protein := mathRound (fl64 (avgNutrition.protein / daysWithLogs))
      carbs := mathRound (fl64 (avgNutrition.carbs / daysWithLogs))
      fat := mathRound (fl64 (avgNutrition.fat / daysWithLogs))
      fiber := mathRound (fl64 (avgNutrition.fiber / daysWithLogs))
      sugar := mathRound (fl64 (avgNutrition.sugar / daysWithLogs))
      sodium := mathRound (fl64 (avgNutrition.sodium / daysWithLogs))
      meals := mathRound (fl64 (avgNutrition.meals / daysWithLogs)) }
  else avgNutrition

/-- The field `complianceRate` of the monthly report; `totalDays` is `endDate.getDate()`,
the number of days of the month, which is not zero. The quotient and the product are each
rounded to a double. -/
def complianceRate (getDate : ℤ → ℕ) (totalDays : ℕ) (foodLogs : List FoodLog) : ℤ :=
  mathRound (fl64 (fl64 ((daysWithLogs getDate foodLogs : ℚ) / totalDays) * 100))

/-- The number of distinct days of the month that have at least one log, in the words of
the specification. -/
def distinctDays (getDate : ℤ → ℕ) (foodLogs : List FoodLog) : ℕ :=
  ((foodLogs.map (fun l => getDate l.logDate)).dedup).length

/-- The exact total of a quantity `g` of the logs over the logs of the day of the month
`d`, in the words of the specification. -/
def dayTotal (getDate : ℤ → ℕ) (g : FoodLog → ℚ) (foodLogs : List FoodLog) (d : ℕ) :
    ℚ :=
  ((foodLogs.filter (fun l => getDate l.logDate = d)).map g).sum

/-! ## `src/routes/food.js`: the nutrition needs -/

/-- The object `nutritionNeeds` of the needs endpoint. -/
structure NutritionNeeds where
  calories : ℚ
  protein : ℚ
  carbs : ℚ
  fat : ℚ
  fiber : ℚ
  water : ℚ
  deriving DecidableEq

/-- The object `nutritionNeeds` built from the age and the two targets. -/
def nutritionNeeds (ageInMonths calorieNeeds proteinNeeds : ℚ) : NutritionNeeds :=
  { calories := mathRound calorieNeeds
    protein := proteinNeeds
    carbs := mathRound (calorieNeeds * (6 / 10) / 4)
    fat := mathRound (calorieNeeds * (25 / 100) / 9)
    fiber := if ageInMonths < 12 then 5 else mathRound (ageInMonths / 12 + 5)
    water := if ageInMonths < 12 then 800 else mathRound (ageInMonths * 50) }

/-- The handler `GET /needs/:childId` once the child is found: `latestGrowth` is the result
of the query for the newest growth record, `none` when the child has none. An error is the
status code and the message of the response. (The response also repeats fields of the child
and of the record and carries the fixed food recommendations.) -/
def nutritionNeedsHandler (birthDate today : ℤ) (gender : String)
    (latestGrowth : Option GrowthRecord) : Except (ℕ × String) NutritionNeeds :=
  match latestGrowth with
  | none => .error (404, "No growth records found")
  | some latestGrowth =>
    let ageInMonths := calculateAge birthDate today
    let calorieNeeds := calculateCalorieNeeds ageInMonths gender latestGrowth.weight
    let proteinNeeds := calculateProteinNeeds ageInMonths latestGrowth.weight
    .ok (nutritionNeeds ageInMonths calorieNeeds proteinNeeds)

/-! ## `src/routes/reports.js`: the nutrition-compliance handler, the export -/

/-- The response of the nutrition-compliance report (without the label of the period). -/
structure ComplianceReport where
  targetCalories : ℚ
  targetProtein : ℚ
  targetMeals : ℚ
  compliance : ComplianceSeries
  averageCompliance : AverageCompliance
  daysTracked : ℕ
  totalLogs : ℕ
  deriving DecidableEq

/-- The handler `GET /nutrition-compliance/:childId` once the child is found; `foodLogs` is
the result of the query for the logs of the last days. -/
def nutritionComplianceHandler (birthDate today : ℤ) (gender : String)
    (latestGrowth : Option GrowthRecord) (foodLogs : List FoodLog) :
    Except (ℕ × String) ComplianceReport :=
  match latestGrowth with
  | none => .error (404, "No growth records found")
  | some latestGrowth =>
    let ageInMonths := calculateAge birthDate today
    let targetCalories := calculateCalorieNeeds ageInMonths gender latestGrowth.weight
    let targetProtein := calculateProteinNeeds ageInMonths latestGrowth.weight
    .ok
      { targetCalories := targetCalories
        targetProtein := targetProtein
        targetMeals := 4
        compliance := complianceSeries foodLogs targetCalories targetProtein
        averageCompliance := averageCompliance foodLogs targetCalories targetProtein
        daysTracked := (dailyData foodLogs).length
        totalLogs := foodLogs.length }

/-- The field `summary.avgCaloriesPerDay` of the export document. -/
def avgCaloriesPerDay (foodLogs : List FoodLog) : ℚ :=
  foodLogs.foldl (fun sum log => sum + fieldOrZero log.calories) 0 /
    (max 1 foodLogs.length : ℕ)

/-- The field `summary.avgProteinPerDay` of the export document. -/
def avgProteinPerDay (foodLogs : List FoodLog) : ℚ :=
  foodLogs.foldl (fun sum log => sum + fieldOrZero log.protein) 0 /
    (max 1 foodLogs.length : ℕ)

/-! ## `src/routes/dashboard.js`: the stats handler -/

/-- The fields of the response of the stats handler that are computed from the growth
records, the food logs of today and the reminders: `targetCalories` and
`complianceCalories` are the rounded values of the response. -/
structure DashboardStats where
  ageInMonths : ℤ
  trend : Trend
  daysSinceLastRecord : Option ℤ
  needsUpdate : Bool
  consumed : TodayNutrition
  targetCalories : ℚ
  targetProtein : ℚ
  complianceCalories : ℚ
  complianceProtein : ℚ
  upcoming : List Reminder
  nextReminder : Option NextReminder
  overallStatus : OverallStatus
  deriving DecidableEq

/-- The handler `GET /stats/:childId` once the child is found and the queries are answered:
`latestGrowth` is the newest growth record (`none` when there is none), `currentTime` the
minute of the day of `today`, and `trackingConsistency` the rounded share of the days of
the month so far that have a log. An exception is answered with status 500. -/
def dashboardStats (birthDate today : ℤ) (gender : String)
    (latestGrowth : Option GrowthRecord) (todayFoodLogs : List FoodLog)
    (recentGrowthRecords : List GrowthRecord) (activeReminders : List Reminder)
    (currentTime : ℕ) (trackingConsistency : ℚ) : Except (ℕ × String) DashboardStats :=
  let ageInMonths := calculateAge birthDate today
  let currentWeight : ℚ :=
    match latestGrowth with
    | some g => if g.weight = 0 then 0 else g.weight
    | none => 0
  let targetCalories : ℚ :=
    match latestGrowth with
    | some _ => calculateCalorieNeeds ageInMonths gender currentWeight
    | none => 0
  let targetProtein : ℚ :=
    match latestGrowth with
    | some _ => calculateProteinNeeds ageInMonths currentWeight
    | none => 0
  let calorieCompliance := calorieCompliance todayFoodLogs targetCalories
  let proteinCompliance := proteinCompliance todayFoodLogs targetProtein
  match growthTrend recentGrowthRecords with
  | .error e => .error (500, e)
  | .ok growthTrend =>
    let daysSinceLastGrowth : Option ℤ :=
      match latestGrowth with
      | some g => some (mathFloor (((today - g.recordDate : ℤ) : ℚ) / (1000 * 60 * 60 * 24)))
      | none => none
    .ok
      { ageInMonths := ageInMonths
        trend := growthTrend
        daysSinceLastRecord := daysSinceLastGrowth
        needsUpdate :=
          match daysSinceLastGrowth with
          | some d => decide (d > 30)
          | none => false
        consumed := todayNutrition todayFoodLogs
        targetCalories := mathRound targetCalories
        targetProtein := targetProtein
        complianceCalories := mathRound calorieCompliance
        complianceProtein := mathRound proteinCompliance
        upcoming := upcomingReminders activeReminders currentTime
        nextReminder := getNextReminder activeReminders currentTime
        overallStatus :=
          getOverallStatus calorieCompliance proteinCompliance trackingConsistency
            (match daysSinceLastGrowth with
              | some d => some ((d : ℤ) : ℚ)
              | none => none) }

/-- The order of the statuses that depend on compliance and tracking:
`needs_improvement < good < excellent`; `needs_attention`, which depends on the age of the
last growth record alone, is given the lowest rank. -/
def overallRank : OverallStatusLabel → ℕ
  | .needs_attention => 0
  | .needs_improvement => 0
  | .good => 1
  | .excellent => 2

/-! ## `src/routes/reports.js`: the CSV export -/

/-- The pieces of a text between the occurrences of a separator, as `split` returns them. -/
def splitOnChar (sep : Char) : List Char → List (List Char)
  | [] => [[]]
  | c :: cs =>
    if c = sep then [] :: splitOnChar sep cs
    else
      match splitOnChar sep cs with
      | [] => [[c]]
      | p :: ps => (c :: p) :: ps

/-- The texts of a list joined with a separator, as `join` does. -/
def joinWith (sep : Char) : List (List Char) → List Char
  | [] => []
  | [x] => x
  | x :: y :: rest => x ++ sep :: joinWith sep (y :: rest)

/-- The calendar date (year, month, day) of a day number counted from 1 January 1970, the
inverse of `daysFromCivil`. -/
def civilFromDays (days : ℤ) : ℤ × ℤ × ℤ :=
  let z := days + 719468
  let era := z / 146097
  let doe := z - era * 146097
  let yoe := (doe - doe / 1460 + doe / 36524 - doe / 146096) / 365
  let y := yoe + era * 400
  let doy := doe - (365 * yoe + yoe / 4 - yoe / 100)
  let mp := (5 * doy + 2) / 153
  let d := doy - (153 * mp + 2) / 5 + 1
  let m := if mp < 10 then mp + 3 else mp - 9
  (if m ≤ 2 then y + 1 else y, m, d)

/-- The character of the last decimal digit of a number. -/
def digitChar (n : ℕ) : Char := Char.ofNat (48 + n % 10)

/-- The last `width` decimal digits of a number, the most significant first: the number
padded with zeros when it has at most `width` digits. -/
def padDigits (width n : ℕ) : List Char :=
  (List.range width).reverse.map (fun i => digitChar (n / 10 ^ i))

/-- The part of `toISOString()` before the `T`: the UTC date as `YYYY-MM-DD`, the year
with a sign and six digits outside the years 0 to 9999. -/
def isoDatePart (t : ℤ) : List Char :=
  let date := civilFromDays (t / msPerDay)
  let year :=
    if 0 ≤ date.1 ∧ date.1 ≤ 9999 then padDigits 4 date.1.toNat
    else (if date.1 < 0 then '-' else '+') :: padDigits 6 date.1.natAbs
  year ++ '-' :: padDigits 2 date.2.1.toNat ++ '-' :: padDigits 2 date.2.2.toNat

/-- The text of a nutrition status in a template literal, `undefined` for an absent one. -/
def statusText (status : Option NutritionStatus) : List Char :=
  match status with
  | some .severely_underweight => "severely_underweight".toList
  | some .underweight => "underweight".toList
  | some .normal => "normal".toList
  | some .overweight => "overweight".toList
  | some .obese => "obese".toList
  | none => "undefined".toList

/-- The text of an optional number in a template literal; `numberText` is the conversion
of a number to a string by the runtime. -/
def optionalNumberText (numberText : ℚ → List Char) (value : Option ℚ) : List Char :=
  match value with
  | some v => numberText v
  | none => "undefined".toList

/-- The header line of the CSV export. -/
def csvHeader : List Char := "Date,Weight(kg),Height(cm),BMI,Status,Age(months)".toList

/-- The template literal that makes the line of a growth record. -/
def csvRow (numberText : ℚ → List Char) (r : GrowthRecord) : List Char :=
  isoDatePart r.recordDate ++ ',' :: numberText r.weight ++ ',' :: numberText r.height ++
    ',' :: optionalNumberText numberText r.bmi ++ ',' :: statusText r.nutritionStatus ++
    ',' :: numberText r.ageInMonths

/-- The query of the export for the growth records of the range, in ascending date order.
(Records of equal date keep the order in which they are stored.) -/
def exportGrowthRecords (records : List GrowthRecord) (start finish : ℤ) :
    List GrowthRecord :=
  (records.filter (fun r => start ≤ r.recordDate ∧ r.recordDate ≤ finish)).insertionSort
    (fun a b => a.recordDate ≤ b.recordDate)

/-- The constant `csv` of the export handler for the growth records that the query
returned. -/
def growthCsv (numberText : ℚ → List Char) (growthRecords : List GrowthRecord) : String :=
  String.mk (joinWith '\n' (csvHeader :: growthRecords.map (csvRow numberText)))

/-! ## Accumulated rounding -/

/-- The number `a` is `b` up to `k` roundings to a double: it lies between
`b * (1 - 2 ^ (-53)) ^ k` and `b * (1 + 2 ^ (-53)) ^ k`. -/
def WithinRoundings (k : ℕ) (a b : ℚ) : Prop :=
  b * (1 - 1 / 2 ^ 53) ^ k ≤ a ∧ a ≤ b * (1 + 1 / 2 ^ 53) ^ k

/-! ## Concrete records used as examples -/

/-- A new record of a child of 30 months weighing 15.5 kg at a height of 100 cm. -/
def sampleRecord30 : GrowthRecord :=
  { childId := 1, weight := 31 / 2, height := 100, ageInMonths := 30, bmi := none,
    nutritionStatus := none, headCircumference := none, notes := none, recordDate := 0 }

/-- A stored record: 12 kg at 85 cm at 18 months, with the derived fields of its last save. -/
def storedRecord18 : GrowthRecord :=
  { childId := 1, weight := 12, height := 85, ageInMonths := 18,
    bmi := some (fl64 (1661 / 100)),
    nutritionStatus := some .underweight, headCircumference := none, notes := none,
    recordDate := 0 }

/-- A breakfast of 300 kcal and 10 g of protein on day 0. -/
def sampleBreakfast : FoodLog :=
  { childId := 1, mealTime := "breakfast", calories := some 300, protein := some 10,
    carbs := none, fat := none, fiber := none, sugar := none, sodium := none, logDate := 0 }

/-- A snack on day 0 of which no nutrient is recorded. -/
def sampleSnack : FoodLog :=
  { childId := 1, mealTime := "snack", calories := none, protein := none,
    carbs := none, fat := none, fiber := none, sugar := none, sodium := none,
    logDate := 3600000 }

/-- A day of overeating: a single log of 2400 kcal on day 0. -/
def sampleFeast : FoodLog :=
  { childId := 1, mealTime := "lunch", calories := some 2400, protein := none,
    carbs := none, fat := none, fiber := none, sugar := none, sodium := none, logDate := 0 }

/-- A day of undereating: a single log of 600 kcal on day 1. -/
def sampleFast : FoodLog :=
  { childId := 1, mealTime := "lunch", calories := some 600, protein := none,
    carbs := none, fat := none, fiber := none, sugar := none, sodium := none,
    logDate := 86400000 }

/-- A stored growth record of a child of 100 cm with the given weight and record date, its
derived fields filled by the save hook. -/
def growthSample (weight : ℚ) (recordDate : ℤ) : GrowthRecord :=
  GrowthRecord.preSave
    { childId := 1, weight := weight, height := 100, ageInMonths := 12, bmi := none,
      nutritionStatus := none, headCircumference := none, notes := none,
      recordDate := recordDate }

/-- An active meal reminder at the given time of day. -/
def reminderAt (id : ℕ) (time : String) : Reminder :=
  { id := id, title := "Makan", time := time, type := "meal" }

/-- The day of the month of a time value of January 1970 in UTC, used as `getDate` in
examples. -/
def januaryDate (t : ℤ) : ℕ := (t / msPerDay + 1).toNat

/-- A lunch of 100 kcal and 5 g of protein logged at the given time. -/
def sampleLunch (logDate : ℤ) : FoodLog :=
  { childId := 1, mealTime := "lunch", calories := some 100, protein := some 5,
    carbs := none, fat := none, fiber := none, sugar := none, sodium := none,
    logDate := logDate }

/-- A meal with the given calories and protein logged on day 0. -/
def mealOf (calories protein : ℚ) : FoodLog :=
  { childId := 1, mealTime := "lunch", calories := some calories, protein := some protein,
    carbs := none, fat := none, fiber := none, sugar := none, sodium := none, logDate := 0 }

/-- A text for the numbers of the examples: the decimal digits of the whole part of a
number below 10000, as the runtime writes such a whole number. -/
def integerText (q : ℚ) : List Char :=
  if ⌊q⌋.toNat = 0 then ['0']
  else (padDigits 4 ⌊q⌋.toNat).dropWhile (fun c => c = '0')

/-! ## Properties -/

/-! ### Rounding to a double -/

/-- Rounding to the nearest integer away from a tie. -/
theorem roundHalfEven_eq (x : ℚ) (m : ℤ) (h1 : (m : ℚ) - 1 / 2 < x)
    (h2 : x < (m : ℚ) + 1 / 2) : roundHalfEven x = m := by
  unfold roundHalfEven
  by_cases hx : (m : ℚ) ≤ x
  · have hf : ⌊x⌋ = m := by
      rw [Int.floor_eq_iff]
      constructor <;> linarith
    simp only [hf]
    rw [if_pos (by linarith)]
  · have hf : ⌊x⌋ = m - 1 := by
      rw [Int.floor_eq_iff]
      push_cast
      constructor <;> linarith
    simp only [hf]
    push_cast
    rw [if_neg (by linarith), if_pos (by linarith)]
    ring

/-- The rounding to the nearest integer moves a number by at most one half. -/
theorem roundHalfEven_error (x : ℚ) : |(roundHalfEven x : ℚ) - x| ≤ 1 / 2 := by
  have h1 := Int.floor_le x
  have h2 := Int.lt_floor_add_one x
  unfold roundHalfEven
  simp only []
  rw [abs_le]
  split_ifs <;> push_cast <;> constructor <;> linarith

/-- The rounding to the nearest integer of a non-negative number is not negative. -/
theorem roundHalfEven_nonneg (x : ℚ) (hx : 0 ≤ x) : 0 ≤ roundHalfEven x := by
  have h0 : 0 ≤ ⌊x⌋ := Int.floor_nonneg.mpr hx
  unfold roundHalfEven
  simp only []
  split_ifs <;> omega

/-- The double nearest to a positive number whose binade and rounded significand are
known. -/
theorem fl64_eq_of_binade (x : ℚ) (e m : ℤ) (hpos : 0 < x) (hlo : (2 : ℚ) ^ e ≤ x)
    (hhi : x < (2 : ℚ) ^ (e + 1)) (hm : roundHalfEven (x / 2 ^ (e - 52)) = m) :
    fl64 x = m * 2 ^ (e - 52) := by
  have hlog : Int.log 2 |x| = e := by
    rw [abs_of_pos hpos]
    apply le_antisymm
    · have := (Int.lt_zpow_iff_log_lt (b := 2) (by norm_num) hpos).mp
        (by exact_mod_cast hhi : x < ((2 : ℕ) : ℚ) ^ (e + 1))
      omega
    · exact (Int.zpow_le_iff_le_log (b := 2) (by norm_num) hpos).mp
        (by exact_mod_cast hlo : ((2 : ℕ) : ℚ) ^ e ≤ x)
  unfold fl64
  rw [if_neg (ne_of_gt hpos)]
  simp only [hlog, hm]

/-- The double nearest to a non-negative number is not negative. -/
theorem fl64_nonneg (x : ℚ) (hx : 0 ≤ x) : 0 ≤ fl64 x := by
  unfold fl64
  split_ifs with h0
  · exact le_refl 0
  · have hulp : (0 : ℚ) < 2 ^ (Int.log 2 |x| - 52) := by positivity
    have hr : (0 : ℚ) ≤ roundHalfEven (x / 2 ^ (Int.log 2 |x| - 52)) := by
      exact_mod_cast roundHalfEven_nonneg _ (div_nonneg hx hulp.le)
    exact mul_nonneg hr hulp.le

/-- The relative error of the rounding to a double is at most `2 ^ (-53)`. -/
theorem fl64_error (x : ℚ) : |fl64 x - x| ≤ |x| / 2 ^ 53 := by
  unfold fl64
  split_ifs with h0
  · simp [h0]
  · have habs : 0 < |x| := abs_pos.mpr h0
    have hulp : (0 : ℚ) < 2 ^ (Int.log 2 |x| - 52) := by positivity
    have hlog : ((2 : ℕ) : ℚ) ^ Int.log 2 |x| ≤ |x| :=
      Int.zpow_log_le_self (by norm_num) habs
    have hsplit : (2 : ℚ) ^ (Int.log 2 |x| - 52) = 2 ^ Int.log 2 |x| / 2 ^ 52 := by
      rw [zpow_sub₀ (by norm_num : (2 : ℚ) ≠ 0)]
      norm_num
    have herr := roundHalfEven_error (x / 2 ^ (Int.log 2 |x| - 52))
    have hrw : (roundHalfEven (x / 2 ^ (Int.log 2 |x| - 52)) : ℚ) *
        2 ^ (Int.log 2 |x| - 52) - x =
        ((roundHalfEven (x / 2 ^ (Int.log 2 |x| - 52)) : ℚ) -
          x / 2 ^ (Int.log 2 |x| - 52)) * 2 ^ (Int.log 2 |x| - 52) := by
      field_simp
    simp only []
    rw [hrw, abs_mul, abs_of_pos hulp]
    have hle : |(roundHalfEven (x / 2 ^ (Int.log 2 |x| - 52)) : ℚ) -
        x / 2 ^ (Int.log 2 |x| - 52)| * 2 ^ (Int.log 2 |x| - 52) ≤
        1 / 2 * 2 ^ (Int.log 2 |x| - 52) :=
      mul_le_mul_of_nonneg_right herr hulp.le
    refine le_trans hle ?_
    rw [hsplit]
    have hcast : ((2 : ℕ) : ℚ) = 2 := by norm_num
    rw [hcast] at hlog
    have : (1 : ℚ) / 2 * (2 ^ Int.log 2 |x| / 2 ^ 52) = 2 ^ Int.log 2 |x| / 2 ^ 53 := by
      norm_num
      ring
    rw [this]
    exact div_le_div_of_nonneg_right hlog (by positivity)

/-- The double nearest to a non-negative number lies within the relative error
`2 ^ (-53)` of it. -/
theorem fl64_bounds (x : ℚ) (hx : 0 ≤ x) :
    x * (1 - 1 / 2 ^ 53) ≤ fl64 x ∧ fl64 x ≤ x * (1 + 1 / 2 ^ 53) := by
  have h := fl64_error x
  rw [abs_of_nonneg hx, abs_le] at h
  constructor <;> linarith [h.1, h.2]

/-- The rounding of an integer is the integer. -/
theorem roundHalfEven_intCast (m : ℤ) : roundHalfEven (m : ℚ) = m :=
  roundHalfEven_eq _ m (by linarith) (by linarith)

/-- The rounding to the nearest integer is monotone. -/
theorem roundHalfEven_mono (x y : ℚ) (h : x ≤ y) : roundHalfEven x ≤ roundHalfEven y := by
  by_contra hlt
  push_neg at hlt
  have hx := abs_le.mp (roundHalfEven_error x)
  have hy := abs_le.mp (roundHalfEven_error y)
  have hc : (roundHalfEven y : ℚ) + 1 ≤ roundHalfEven x := by exact_mod_cast hlt
  have hxy : x = y := by linarith [hx.1, hx.2, hy.1, hy.2]
  rw [hxy] at hlt
  exact lt_irrefl _ hlt

/-- Away from a tie the rounded integer is strictly within one half. -/
theorem roundHalfEven_strict (x : ℚ) (ht : x - ⌊x⌋ ≠ 1 / 2) :
    (roundHalfEven x : ℚ) - 1 / 2 < x ∧ x < (roundHalfEven x : ℚ) + 1 / 2 := by
  have h1 := Int.floor_le x
  have h2 := Int.lt_floor_add_one x
  unfold roundHalfEven
  simp only []
  split_ifs with ha hb hc
  · constructor <;> linarith
  · push_cast
    constructor <;> linarith
  · exact absurd (le_antisymm (not_lt.mp hb) (not_lt.mp ha)) ht
  · exact absurd (le_antisymm (not_lt.mp hb) (not_lt.mp ha)) ht

/-- The rounding to the nearest integer, ties to even, is odd. -/
theorem roundHalfEven_neg (x : ℚ) : roundHalfEven (-x) = -roundHalfEven x := by
  by_cases ht : x - ⌊x⌋ = 1 / 2
  · have hf : ⌊-x⌋ = -⌊x⌋ - 1 := by
      rw [Int.floor_eq_iff]
      push_cast
      constructor <;> linarith
    have e1 : roundHalfEven x = if ⌊x⌋ % 2 = 0 then ⌊x⌋ else ⌊x⌋ + 1 := by
      unfold roundHalfEven
      simp only []
      rw [if_neg (by linarith), if_neg (by linarith)]
    have e2 : roundHalfEven (-x) =
        if (-⌊x⌋ - 1) % 2 = 0 then -⌊x⌋ - 1 else -⌊x⌋ - 1 + 1 := by
      unfold roundHalfEven
      simp only [hf]
      push_cast
      rw [if_neg (by linarith), if_neg (by linarith)]
    rw [e1, e2]
    split_ifs <;> omega
  · obtain ⟨h1, h2⟩ := roundHalfEven_strict x ht
    exact roundHalfEven_eq (-x) (-roundHalfEven x) (by push_cast; linarith)
      (by push_cast; linarith)

/-- The binary exponent of a positive number determined by its binade. -/
theorem log_eq_of_binade (x : ℚ) (e : ℤ) (hpos : 0 < x) (hlo : (2 : ℚ) ^ e ≤ x)
    (hhi : x < (2 : ℚ) ^ (e + 1)) : Int.log 2 x = e := by
  apply le_antisymm
  · have := (Int.lt_zpow_iff_log_lt (b := 2) (by norm_num) hpos).mp
      (by exact_mod_cast hhi : x < ((2 : ℕ) : ℚ) ^ (e + 1))
    omega
  · exact (Int.zpow_le_iff_le_log (b := 2) (by norm_num) hpos).mp
      (by exact_mod_cast hlo : ((2 : ℕ) : ℚ) ^ e ≤ x)

/-- A positive number lies in the binade of its binary exponent. -/
theorem binade_of_pos (x : ℚ) (hpos : 0 < x) :
    (2 : ℚ) ^ Int.log 2 x ≤ x ∧ x < (2 : ℚ) ^ (Int.log 2 x + 1) := by
  have h1 : ((2 : ℕ) : ℚ) ^ Int.log 2 x ≤ x := Int.zpow_log_le_self (by norm_num) hpos
  have h2 : x < ((2 : ℕ) : ℚ) ^ (Int.log 2 x + 1) := Int.lt_zpow_succ_log_self (by norm_num) x
  exact ⟨by exact_mod_cast h1, by exact_mod_cast h2⟩

/-- The double nearest to a positive number, by its binary exponent. -/
theorem fl64_of_pos (x : ℚ) (hpos : 0 < x) :
    fl64 x = roundHalfEven (x / 2 ^ (Int.log 2 x - 52)) * 2 ^ (Int.log 2 x - 52) := by
  unfold fl64
  rw [if_neg (ne_of_gt hpos), abs_of_pos hpos]

/-- The unit in the last place of a binade. -/
theorem binade_ulp (e : ℤ) :
    (2 : ℚ) ^ e = 2 ^ 52 * 2 ^ (e - 52) ∧ (2 : ℚ) ^ (e + 1) = 2 ^ 53 * 2 ^ (e - 52) := by
  have h2 : (2 : ℚ) ≠ 0 := by norm_num
  constructor
  · rw [← zpow_natCast (2 : ℚ) 52, ← zpow_add₀ h2]
    congr 1
    push_cast
    ring
  · rw [← zpow_natCast (2 : ℚ) 53, ← zpow_add₀ h2]
    congr 1
    push_cast
    ring

/-- The double nearest to a positive number stays in the closed binade of the number. -/
theorem fl64_binade_bounds (x : ℚ) (hpos : 0 < x) :
    (2 : ℚ) ^ Int.log 2 x ≤ fl64 x ∧ fl64 x ≤ (2 : ℚ) ^ (Int.log 2 x + 1) := by
  obtain ⟨hlo, hhi⟩ := binade_of_pos x hpos
  obtain ⟨h1, h2⟩ := binade_ulp (Int.log 2 x)
  have hulp : (0 : ℚ) < 2 ^ (Int.log 2 x - 52) := by positivity
  rw [fl64_of_pos x hpos]
  have ha : ((2 ^ 52 : ℤ) : ℚ) ≤ x / 2 ^ (Int.log 2 x - 52) := by
    rw [le_div_iff₀ hulp]
    push_cast
    linarith
  have hb : x / 2 ^ (Int.log 2 x - 52) ≤ ((2 ^ 53 : ℤ) : ℚ) := by
    rw [div_le_iff₀ hulp]
    push_cast
    linarith
  have ha2 := roundHalfEven_mono _ _ ha
  have hb2 := roundHalfEven_mono _ _ hb
  rw [roundHalfEven_intCast] at ha2 hb2
  have ha3 : ((2 : ℚ) ^ 52) ≤ (roundHalfEven (x / 2 ^ (Int.log 2 x - 52)) : ℚ) := by
    exact_mod_cast ha2
  have hb3 : (roundHalfEven (x / 2 ^ (Int.log 2 x - 52)) : ℚ) ≤ (2 : ℚ) ^ 53 := by
    exact_mod_cast hb2
  constructor
  · rw [h1]
    exact mul_le_mul_of_nonneg_right ha3 hulp.le
  · rw [h2]
    exact mul_le_mul_of_nonneg_right hb3 hulp.le

/-- The rounding to a double is monotone on positive numbers. -/
theorem fl64_mono_pos (x y : ℚ) (hx : 0 < x) (h : x ≤ y) : fl64 x ≤ fl64 y := by
  have hy : 0 < y := lt_of_lt_of_le hx h
  have hlog : Int.log 2 x ≤ Int.log 2 y := Int.log_mono_right hx h
  rcases eq_or_lt_of_le hlog with he | hlt
  · rw [fl64_of_pos x hx, fl64_of_pos y hy, he]
    have hulp : (0 : ℚ) < 2 ^ (Int.log 2 y - 52) := by positivity
    have hr := roundHalfEven_mono (x / 2 ^ (Int.log 2 y - 52)) (y / 2 ^ (Int.log 2 y - 52))
      (div_le_div_of_nonneg_right h hulp.le)
    have hr2 : (roundHalfEven (x / 2 ^ (Int.log 2 y - 52)) : ℚ) ≤
        roundHalfEven (y / 2 ^ (Int.log 2 y - 52)) := by exact_mod_cast hr
    exact mul_le_mul_of_nonneg_right hr2 hulp.le
  · have h1 := (fl64_binade_bounds x hx).2
    have h2 := (fl64_binade_bounds y hy).1
    have h3 : (2 : ℚ) ^ (Int.log 2 x + 1) ≤ 2 ^ Int.log 2 y :=
      zpow_le_zpow_right₀ (by norm_num) (by omega)
    linarith

/-- The rounding to a double is odd. -/
theorem fl64_neg (x : ℚ) : fl64 (-x) = -fl64 x := by
  unfold fl64
  by_cases h0 : x = 0
  · simp [h0]
  · have h1 : -x ≠ 0 := neg_ne_zero.mpr h0
    rw [if_neg h0, if_neg h1]
    simp only [abs_neg, neg_div, roundHalfEven_neg]
    push_cast
    ring

/-- The double of zero. -/
theorem fl64_zero : fl64 0 = 0 := by
  simp [fl64]

/-- The rounding to a double is monotone. -/
theorem fl64_mono (x y : ℚ) (h : x ≤ y) : fl64 x ≤ fl64 y := by
  rcases lt_trichotomy x 0 with hx | hx | hx
  · have hnx : fl64 x ≤ 0 := by
      have := fl64_nonneg (-x) (by linarith)
      rw [fl64_neg] at this
      linarith
    rcases le_or_lt 0 y with hy | hy
    · exact le_trans hnx (fl64_nonneg y hy)
    · have := fl64_mono_pos (-y) (-x) (by linarith) (by linarith)
      rw [fl64_neg, fl64_neg] at this
      linarith
  · subst hx
    rw [fl64_zero]
    exact fl64_nonneg y h
  · exact fl64_mono_pos x y hx h

/-- A quotient of a natural number below `2 ^ 53` by a power of two is a double. -/
theorem fl64_dyadic (m j : ℕ) (hm : m < 2 ^ 53) :
    fl64 ((m : ℚ) / 2 ^ j) = (m : ℚ) / 2 ^ j := by
  rcases Nat.eq_zero_or_pos m with h0 | hpos
  · subst h0
    simp [fl64]
  · have hk1 : 2 ^ Nat.log 2 m ≤ m := Nat.pow_log_le_self 2 (by omega)
    have hk2 : m < 2 ^ (Nat.log 2 m + 1) := Nat.lt_pow_succ_log_self (by norm_num) m
    have hk : Nat.log 2 m ≤ 52 := by
      by_contra hc
      push_neg at hc
      have : 2 ^ 53 ≤ 2 ^ Nat.log 2 m := Nat.pow_le_pow_right (by norm_num) hc
      omega
    generalize Nat.log 2 m = k at hk1 hk2 hk
    have hxpos : (0 : ℚ) < (m : ℚ) / 2 ^ j := by positivity
    have h2 : (2 : ℚ) ≠ 0 := by norm_num
    have hpow : ∀ a : ℕ, (2 : ℚ) ^ ((a : ℤ) - (j : ℤ)) = 2 ^ a / 2 ^ j := by
      intro a
      rw [zpow_sub₀ h2, zpow_natCast, zpow_natCast]
    have hlo : (2 : ℚ) ^ ((k : ℤ) - j) ≤ (m : ℚ) / 2 ^ j := by
      rw [hpow]
      apply div_le_div_of_nonneg_right _ (by positivity)
      exact_mod_cast hk1
    have hhi : (m : ℚ) / 2 ^ j < (2 : ℚ) ^ ((k : ℤ) - j + 1) := by
      have : ((k : ℤ) - j + 1) = ((k + 1 : ℕ) : ℤ) - j := by
        push_cast
        ring
      rw [this, hpow]
      apply div_lt_div_of_pos_right _ (by positivity)
      exact_mod_cast hk2
    have hulp : (2 : ℚ) ^ ((k : ℤ) - j - 52) = 2 ^ k / (2 ^ j * 2 ^ 52) := by
      rw [zpow_sub₀ h2, hpow, div_div]
      norm_num
    have h52 : (2 : ℚ) ^ 52 = 2 ^ k * 2 ^ (52 - k) := by
      rw [← pow_add]
      congr 1
      omega
    have hq : (m : ℚ) / 2 ^ j / 2 ^ ((k : ℤ) - j - 52) =
        (((m * 2 ^ (52 - k) : ℕ) : ℤ) : ℚ) := by
      rw [hulp, h52]
      push_cast
      field_simp
      ring
    have hm2 : roundHalfEven ((m : ℚ) / 2 ^ j / 2 ^ ((k : ℤ) - j - 52)) =
        ((m * 2 ^ (52 - k) : ℕ) : ℤ) := by
      rw [hq]
      exact roundHalfEven_intCast _
    rw [fl64_eq_of_binade _ ((k : ℤ) - j) _ hxpos hlo hhi hm2, hulp, h52]
    push_cast
    field_simp
    ring

/-- A natural number below `2 ^ 53` is a double. -/
theorem fl64_natCast (n : ℕ) (h : n < 2 ^ 53) : fl64 (n : ℚ) = n := by
  have := fl64_dyadic n 0 h
  simpa using this

/-- The double nearest to a number below the midpoint under the significand `m` has a
significand of at most `m - 1`. -/
theorem fl64_le_of_lt_mid (x : ℚ) (e m : ℤ) (hpos : 0 < x) (hlo : (2 : ℚ) ^ e ≤ x)
    (hhi : x < (2 : ℚ) ^ (e + 1)) (hmid : x / 2 ^ (e - 52) < (m : ℚ) - 1 / 2) :
    fl64 x ≤ ((m : ℚ) - 1) * 2 ^ (e - 52) := by
  have hlog := log_eq_of_binade x e hpos hlo hhi
  rw [fl64_of_pos x hpos, hlog]
  have hulp : (0 : ℚ) < 2 ^ (e - 52) := by positivity
  have herr := abs_le.mp (roundHalfEven_error (x / 2 ^ (e - 52)))
  have hlt : roundHalfEven (x / 2 ^ (e - 52)) < m := by
    have : (roundHalfEven (x / 2 ^ (e - 52)) : ℚ) < m := by linarith [herr.2]
    exact_mod_cast this
  have hle : (roundHalfEven (x / 2 ^ (e - 52)) : ℚ) ≤ (m : ℚ) - 1 := by
    have : roundHalfEven (x / 2 ^ (e - 52)) ≤ m - 1 := by omega
    exact_mod_cast this
  exact mul_le_mul_of_nonneg_right hle hulp.le

/-- A number is itself up to no rounding. -/
theorem withinRoundings_refl (b : ℚ) : WithinRoundings 0 b b := by
  unfold WithinRoundings
  simp

/-- More roundings allow more error. -/
theorem withinRoundings_mono (j k : ℕ) (a b : ℚ) (hjk : j ≤ k) (hb : 0 ≤ b)
    (h : WithinRoundings j a b) : WithinRoundings k a b := by
  unfold WithinRoundings at h ⊢
  have h1 : (1 - 1 / 2 ^ 53 : ℚ) ^ k ≤ (1 - 1 / 2 ^ 53) ^ j :=
    pow_le_pow_of_le_one (by norm_num) (by norm_num) hjk
  have h2 : (1 + 1 / 2 ^ 53 : ℚ) ^ j ≤ (1 + 1 / 2 ^ 53) ^ k :=
    pow_le_pow_right₀ (by norm_num) hjk
  exact ⟨le_trans (mul_le_mul_of_nonneg_left h1 hb) h.1,
    le_trans h.2 (mul_le_mul_of_nonneg_left h2 hb)⟩

/-- An approximation of a non-negative number is not negative. -/
theorem withinRoundings_nonneg (k : ℕ) (a b : ℚ) (hb : 0 ≤ b) (h : WithinRoundings k a b) :
    0 ≤ a := by
  have h1 : (0 : ℚ) ≤ (1 - 1 / 2 ^ 53) ^ k := pow_nonneg (by norm_num) k
  exact le_trans (mul_nonneg hb h1) h.1

/-- The rounding of an approximation to a double is one more rounding. -/
theorem withinRoundings_fl64 (k : ℕ) (a b : ℚ) (hb : 0 ≤ b) (h : WithinRoundings k a b) :
    WithinRoundings (k + 1) (fl64 a) b := by
  have ha := withinRoundings_nonneg k a b hb h
  obtain ⟨h1, h2⟩ := fl64_bounds a ha
  unfold WithinRoundings at h ⊢
  have hu1 : (0 : ℚ) ≤ 1 - 1 / 2 ^ 53 := by norm_num
  have hu2 : (0 : ℚ) ≤ 1 + 1 / 2 ^ 53 := by norm_num
  constructor
  · calc b * (1 - 1 / 2 ^ 53) ^ (k + 1) = b * (1 - 1 / 2 ^ 53) ^ k * (1 - 1 / 2 ^ 53) := by ring
      _ ≤ a * (1 - 1 / 2 ^ 53) := mul_le_mul_of_nonneg_right h.1 hu1
      _ ≤ fl64 a := h1
  · calc fl64 a ≤ a * (1 + 1 / 2 ^ 53) := h2
      _ ≤ b * (1 + 1 / 2 ^ 53) ^ k * (1 + 1 / 2 ^ 53) := mul_le_mul_of_nonneg_right h.2 hu2
      _ = b * (1 + 1 / 2 ^ 53) ^ (k + 1) := by ring

/-- The sum of two approximations. -/
theorem withinRoundings_add (k : ℕ) (a b a2 b2 : ℚ) (h : WithinRoundings k a b)
    (h2 : WithinRoundings k a2 b2) : WithinRoundings k (a + a2) (b + b2) := by
  unfold WithinRoundings at h h2 ⊢
  constructor
  · rw [add_mul]
    exact add_le_add h.1 h2.1
  · rw [add_mul]
    exact add_le_add h.2 h2.2

/-- The product of an approximation with a non-negative constant. -/
theorem withinRoundings_mul_const (k : ℕ) (a b c : ℚ) (hc : 0 ≤ c)
    (h : WithinRoundings k a b) : WithinRoundings k (a * c) (b * c) := by
  unfold WithinRoundings at h ⊢
  constructor
  · calc b * c * (1 - 1 / 2 ^ 53) ^ k = b * (1 - 1 / 2 ^ 53) ^ k * c := by ring
      _ ≤ a * c := mul_le_mul_of_nonneg_right h.1 hc
  · calc a * c ≤ b * (1 + 1 / 2 ^ 53) ^ k * c := mul_le_mul_of_nonneg_right h.2 hc
      _ = b * c * (1 + 1 / 2 ^ 53) ^ k := by ring

/-- The quotient of an approximation by a positive constant. -/
theorem withinRoundings_div_const (k : ℕ) (a b t : ℚ) (ht : 0 < t)
    (h : WithinRoundings k a b) : WithinRoundings k (a / t) (b / t) := by
  have := withinRoundings_mul_const k a b (1 / t) (by positivity) h
  simpa [div_eq_mul_inv] using this

/-- The running binary64 sum of non-negative numbers, started from an approximation of `A`
with `j` roundings, is the exact sum up to one more rounding for each summand. -/
theorem foldl_fl64_add_within (xs : List ℚ) (hxs : ∀ x ∈ xs, 0 ≤ x) (j : ℕ) (acc A : ℚ)
    (hA : 0 ≤ A) (h : WithinRoundings j acc A) :
    WithinRoundings (j + xs.length) (xs.foldl (fun a x => fl64 (a + x)) acc) (A + xs.sum) := by
  induction xs generalizing j acc A with
  | nil => simpa using h
  | cons x rest ih =>
    have hx : 0 ≤ x := hxs x (List.mem_cons_self _ _)
    have hstep : WithinRoundings (j + 1) (fl64 (acc + x)) (A + x) :=
      withinRoundings_fl64 j _ _ (add_nonneg hA hx)
        (withinRoundings_add j _ _ _ _ h
          (withinRoundings_mono 0 j x x (Nat.zero_le j) hx (withinRoundings_refl x)))
    have := ih (fun y hy => hxs y (List.mem_cons_of_mem _ hy)) (j + 1) (fl64 (acc + x)) (A + x)
      (add_nonneg hA hx) hstep
    rw [List.foldl_cons, List.length_cons, List.sum_cons]
    have he : j + (rest.length + 1) = j + 1 + rest.length := by omega
    rw [he, ← add_assoc]
    exact this

/-- C1. For every BMI `b` and every age `a`, `getNutritionStatus b a` is the documented
two-table classification with strict upper bounds: below 24 months the buckets are
`b < 14`, `14 ≤ b < 16`, `16 ≤ b < 19`, `19 ≤ b < 21`, `21 ≤ b`; from 24 months on they are
`b < 15`, `15 ≤ b < 17`, `17 ≤ b < 25`, `25 ≤ b < 30`, `30 ≤ b`. A value on a threshold is
in the higher bucket, and BMI 16.61 at 18 months is `normal`. -/
theorem getNutritionStatus_two_tables (b a : ℚ) :
    (a < 24 →
      (getNutritionStatus b a = .severely_underweight ↔ b < 14) ∧
      (getNutritionStatus b a = .underweight ↔ 14 ≤ b ∧ b < 16) ∧
      (getNutritionStatus b a = .normal ↔ 16 ≤ b ∧ b < 19) ∧
      (getNutritionStatus b a = .overweight ↔ 19 ≤ b ∧ b < 21) ∧
      (getNutritionStatus b a = .obese ↔ 21 ≤ b)) ∧
    (24 ≤ a →
      (getNutritionStatus b a = .severely_underweight ↔ b < 15) ∧
      (getNutritionStatus b a = .underweight ↔ 15 ≤ b ∧ b < 17) ∧
      (getNutritionStatus b a = .normal ↔ 17 ≤ b ∧ b < 25) ∧
      (getNutritionStatus b a = .overweight ↔ 25 ≤ b ∧ b < 30) ∧
      (getNutritionStatus b a = .obese ↔ 30 ≤ b)) ∧
    getNutritionStatus (1661 / 100) 18 = .normal := by
  refine ⟨fun ha => ?_, fun ha => ?_, ?_⟩
  · unfold getNutritionStatus
    rw [if_pos ha]
    refine ⟨?_, ?_, ?_, ?_, ?_⟩ <;> split_ifs <;>
      simp only [reduceCtorEq, false_iff, true_iff, not_and, not_lt, not_le] <;>
      first | (intros; linarith) | linarith | (constructor <;> linarith)
  · unfold getNutritionStatus
    rw [if_neg (not_lt.mpr ha)]
    refine ⟨?_, ?_, ?_, ?_, ?_⟩ <;> split_ifs <;>
      simp only [reduceCtorEq, false_iff, true_iff, not_and, not_lt, not_le] <;>
      first | (intros; linarith) | linarith | (constructor <;> linarith)
  · unfold getNutritionStatus
    norm_num

/-- Witness of C1 at BMI 16 and age 12 (a threshold of the first table) and at BMI 17 and
age 24 (a threshold of the second table). -/
theorem getNutritionStatus_two_tables_witness :
    getNutritionStatus 16 12 = .normal ∧ getNutritionStatus 17 24 = .normal :=
  ⟨(((getNutritionStatus_two_tables 16 12).1 (by norm_num)).2.2.1).mpr (by norm_num),
   (((getNutritionStatus_two_tables 17 24).2.1 (by norm_num)).2.2.1).mpr (by norm_num)⟩

/-- Rank of the status that `getNutritionStatus` returns, by comparison with the four
thresholds of the table in force. -/
theorem severityRank_getNutritionStatus_mono (a b1 b2 : ℚ) (h : b1 ≤ b2) :
    severityRank (getNutritionStatus b1 a) ≤ severityRank (getNutritionStatus b2 a) := by
  unfold getNutritionStatus
  split_ifs <;> simp only [severityRank] <;> first | omega | (exfalso; linarith)

/-- C5. For a fixed age (either bracket) the severity rank of `getNutritionStatus` does not
decrease as the BMI increases; at 30 months BMI 16.00 and 16.999 are `underweight` and
17.00 is `normal`. -/
theorem getNutritionStatus_monotone (a b1 b2 : ℚ) (h : b1 ≤ b2) :
    severityRank (getNutritionStatus b1 a) ≤ severityRank (getNutritionStatus b2 a) ∧
    getNutritionStatus 16 30 = .underweight ∧
    getNutritionStatus (16999 / 1000) 30 = .underweight ∧
    getNutritionStatus 17 30 = .normal := by
  refine ⟨severityRank_getNutritionStatus_mono a b1 b2 h, ?_, ?_, ?_⟩ <;>
    (unfold getNutritionStatus; norm_num)

/-- Witness of C5: BMI 16.999 against 17 at 30 months. -/
theorem getNutritionStatus_monotone_witness :
    ((16999 : ℚ) / 1000 ≤ 17) ∧
    (severityRank (getNutritionStatus (16999 / 1000) 30)
        ≤ severityRank (getNutritionStatus 17 30) ∧
      getNutritionStatus 16 30 = .underweight ∧
      getNutritionStatus (16999 / 1000) 30 = .underweight ∧
      getNutritionStatus 17 30 = .normal) :=
  ⟨by norm_num, getNutritionStatus_monotone 30 (16999 / 1000) 17 (by norm_num)⟩

/-- The hook stores the same BMI that `calculateBMI` computes. -/
theorem preSave_bmi (r : GrowthRecord) :
    r.preSave.bmi = some (calculateBMI r.weight r.height) := rfl

/-- The hook fills the status from the BMI it has just stored. -/
theorem preSave_nutritionStatus (r : GrowthRecord) :
    r.preSave.nutritionStatus =
      some (GrowthRecord.preSaveStatus (calculateBMI r.weight r.height)) := rfl

/-- The buckets of the status chain of the hook. -/
theorem preSaveStatus_buckets (b : ℚ) :
    (GrowthRecord.preSaveStatus b = .severely_underweight ↔ b < 16) ∧
    (GrowthRecord.preSaveStatus b = .underweight ↔ 16 ≤ b ∧ b < 17) ∧
    (GrowthRecord.preSaveStatus b = .normal ↔ 17 ≤ b ∧ b < 25) ∧
    (GrowthRecord.preSaveStatus b = .overweight ↔ 25 ≤ b ∧ b < 30) ∧
    (GrowthRecord.preSaveStatus b = .obese ↔ 30 ≤ b) := by
  unfold GrowthRecord.preSaveStatus
  refine ⟨?_, ?_, ?_, ?_, ?_⟩ <;> split_ifs <;>
    simp only [reduceCtorEq, false_iff, true_iff, not_and, not_lt, not_le] <;>
    first | (intros; linarith) | linarith | (constructor <;> linarith)

/-- Where the chain of the hook and `getNutritionStatus` give the same status. -/
theorem preSaveStatus_eq_getNutritionStatus_iff (b a : ℚ) :
    GrowthRecord.preSaveStatus b = getNutritionStatus b a ↔
      (24 ≤ a ∧ (b < 15 ∨ 16 ≤ b)) ∨
      (a < 24 ∧ (b < 14 ∨ (17 ≤ b ∧ b < 19) ∨ 30 ≤ b)) := by
  unfold GrowthRecord.preSaveStatus getNutritionStatus
  split_ifs <;>
    simp only [reduceCtorEq, false_iff, true_iff, not_and, not_lt, not_le, not_or] <;>
    first
    | (left; constructor <;> first | linarith | (left; linarith) | (right; linarith))
    | (right; refine ⟨by linarith, ?_⟩;
       first
       | (left; linarith)
       | (right; left; constructor <;> linarith)
       | (right; right; linarith))
    | (refine ⟨fun h1 => ⟨by linarith, by linarith⟩, fun h1 => ⟨?_, ?_, ?_⟩⟩ <;>
        first | linarith | (intro h2; linarith))

/-- Evaluation of `toFixed2` on a non-negative number from the two bounds of the floor. -/
theorem toFixed2_eq_of_bounds (x : ℚ) (n : ℤ) (h0 : 0 ≤ x)
    (h1 : (n : ℚ) / 100 - 1 / 200 ≤ x) (h2 : x < (n : ℚ) / 100 + 1 / 200) :
    toFixed2 x = (n : ℚ) / 100 := by
  unfold toFixed2
  rw [if_neg (not_lt.mpr h0)]
  have hf : ⌊x * 100 + 1 / 2⌋ = n := by
    rw [Int.floor_eq_iff]
    constructor <;> linarith
  rw [hf]

/-- The two-decimal rounding of a non-negative number is a multiple of 0.01 within half a
hundredth of it, the half itself going up. -/
theorem toFixed2_nearest (x : ℚ) (h0 : 0 ≤ x) :
    ∃ n : ℤ, toFixed2 x = (n : ℚ) / 100 ∧
      (n : ℚ) / 100 - 1 / 200 ≤ x ∧ x < (n : ℚ) / 100 + 1 / 200 := by
  refine ⟨⌊x * 100 + 1 / 2⌋, ?_, ?_, ?_⟩
  · unfold toFixed2
    rw [if_neg (not_lt.mpr h0)]
  · have := Int.floor_le (x * 100 + 1 / 2)
    linarith
  · have := Int.lt_floor_add_one (x * 100 + 1 / 2)
    linarith

/-- The save of a document that passes validation stores the result of the hook. -/
theorem save_eq_ok_iff (r s : GrowthRecord) :
    GrowthRecord.save r = .ok s ↔ r.validationErrors = [] ∧ s = r.preSave := by
  unfold GrowthRecord.save
  split_ifs with hv
  · constructor
    · intro h
      injection h with h
      exact ⟨hv, h.symm⟩
    · rintro ⟨_, rfl⟩
      rfl
  · constructor
    · intro h
      cases h
    · rintro ⟨h, _⟩
      exact absurd h hv

/-- The record that the update handler saves: supplied fields overwritten, the rest kept. -/
theorem updateGrowthRecord_eq (record : GrowthRecord) (weight height hc : Option ℚ)
    (notes : Option String) :
    updateGrowthRecord record weight height hc notes =
      GrowthRecord.save
        { record with
          weight := weight.getD record.weight
          height := height.getD record.height
          headCircumference := (hc.map some).getD record.headCircumference
          notes := (notes.map some).getD record.notes } := by
  unfold updateGrowthRecord
  cases weight <;> cases height <;> cases hc <;> cases notes <;> rfl

/-- The BMI of 15.5 kg at 100 cm: every binary64 step is exact. -/
theorem calculateBMI_sample30 : calculateBMI (31 / 2) 100 = 31 / 2 := by
  have h1 : fl64 1 = 1 := by simpa using fl64_natCast 1 (by norm_num)
  have h2 : fl64 (31 / 2) = 31 / 2 := by simpa using fl64_dyadic 31 1 (by norm_num)
  have h3 : toFixed2 (31 / 2) = 31 / 2 := by
    unfold toFixed2
    norm_num
  unfold calculateBMI
  simp only []
  rw [show (100 : ℚ) / 100 = 1 by norm_num, h1, show (1 : ℚ) * 1 = 1 by norm_num, h1,
    show (31 / 2 : ℚ) / 1 = 31 / 2 by norm_num, h2, h3, h2]

/-- C2, counterexample. A record of 15.5 kg at 100 cm and 30 months is saved with BMI 15.5
and status `severely_underweight`, while `getNutritionStatus 15.5 30` is `underweight`. -/
theorem preSave_status_differs_from_getNutritionStatus :
    GrowthRecord.save sampleRecord30 = .ok sampleRecord30.preSave ∧
    sampleRecord30.preSave.ageInMonths = 30 ∧
    sampleRecord30.preSave.bmi = some (31 / 2) ∧
    sampleRecord30.preSave.nutritionStatus = some .severely_underweight ∧
    getNutritionStatus (31 / 2) 30 = .underweight := by
  have hb : calculateBMI (31 / 2) 100 = 31 / 2 := calculateBMI_sample30
  refine ⟨?_, rfl, ?_, ?_, ?_⟩
  · rw [save_eq_ok_iff]
    refine ⟨?_, rfl⟩
    simp only [GrowthRecord.validationErrors, GrowthRecord.weightErrors,
      GrowthRecord.heightErrors, GrowthRecord.optionalErrors, sampleRecord30]
    norm_num
  · rw [preSave_bmi]
    exact congrArg some hb
  · rw [preSave_nutritionStatus]
    show some (GrowthRecord.preSaveStatus (calculateBMI (31 / 2) 100)) = _
    rw [hb]
    unfold GrowthRecord.preSaveStatus
    norm_num
  · unfold getNutritionStatus
    norm_num

/-- C2, amended. After the save hook the stored status is the single, age-independent
classification of the stored BMI `b` (`b < 16` severely underweight, `b < 17` underweight,
`b < 25` normal, `b < 30` overweight, otherwise obese); it is the status that
`getNutritionStatus b ageInMonths` gives exactly when the age is at least 24 and `b` is
outside `[15, 16)`, or the age is below 24 and `b < 14`, `17 ≤ b < 19` or `30 ≤ b`. -/
theorem preSave_status_single_table (r : GrowthRecord) :
    ∃ b : ℚ, r.preSave.bmi = some b ∧ b = calculateBMI r.weight r.height ∧
      r.preSave.ageInMonths = r.ageInMonths ∧
      (r.preSave.nutritionStatus = some .severely_underweight ↔ b < 16) ∧
      (r.preSave.nutritionStatus = some .underweight ↔ 16 ≤ b ∧ b < 17) ∧
      (r.preSave.nutritionStatus = some .normal ↔ 17 ≤ b ∧ b < 25) ∧
      (r.preSave.nutritionStatus = some .overweight ↔ 25 ≤ b ∧ b < 30) ∧
      (r.preSave.nutritionStatus = some .obese ↔ 30 ≤ b) ∧
      (r.preSave.nutritionStatus = some (getNutritionStatus b r.ageInMonths) ↔
        (24 ≤ r.ageInMonths ∧ (b < 15 ∨ 16 ≤ b)) ∨
        (r.ageInMonths < 24 ∧ (b < 14 ∨ (17 ≤ b ∧ b < 19) ∨ 30 ≤ b))) := by
  refine ⟨calculateBMI r.weight r.height, preSave_bmi r, rfl, rfl, ?_⟩
  rw [preSave_nutritionStatus]
  simp only [Option.some.injEq]
  obtain ⟨h1, h2, h3, h4, h5⟩ := preSaveStatus_buckets (calculateBMI r.weight r.height)
  exact ⟨h1, h2, h3, h4, h5, preSaveStatus_eq_getNutritionStatus_iff _ _⟩

/-- The double of `80 / 100`. -/
theorem fl64_height_80 : fl64 (80 / 100) = 3602879701896397 / 4503599627370496 := by
  rw [fl64_eq_of_binade (80 / 100) (-1) 7205759403792794 (by norm_num) (by norm_num)
    (by norm_num) (roundHalfEven_eq _ _ (by norm_num) (by norm_num))]
  norm_num

/-- The double of the square of the double of `80 / 100`, which is above `0.64`. -/
theorem fl64_square_80 :
    fl64 ((3602879701896397 / 4503599627370496) * (3602879701896397 / 4503599627370496)) =
      1441151880758559 / 2251799813685248 := by
  rw [fl64_eq_of_binade _ (-1) 5764607523034236 (by norm_num) (by norm_num)
    (by norm_num) (roundHalfEven_eq _ _ (by norm_num) (by norm_num))]
  norm_num

/-- The double of the quotient of 10 by that square, which is below `15.625`. -/
theorem fl64_quotient_10_80 :
    fl64 (10 / (1441151880758559 / 2251799813685248)) =
      4398046511103999 / 281474976710656 := by
  rw [fl64_eq_of_binade _ 3 8796093022207998 (by norm_num) (by norm_num)
    (by norm_num) (roundHalfEven_eq _ _ (by norm_num) (by norm_num))]
  norm_num

/-- The binary64 quotient of the BMI lies within the relative error `5 * 2 ^ (-53)` of the
exact quotient. -/
theorem bmi_quotient_error (w h : ℚ) (hw : 0 < w) (hh : 0 < h) :
    |fl64 (w / fl64 (fl64 (h / 100) * fl64 (h / 100))) - w / (h / 100) ^ 2| ≤
      5 / 2 ^ 53 * (w / (h / 100) ^ 2) := by
  have ha : 0 < h / 100 := by positivity
  obtain ⟨ha1, ha2⟩ := fl64_bounds (h / 100) ha.le
  have hu1 : (0 : ℚ) < 1 - 1 / 2 ^ 53 := by norm_num
  have hu2 : (0 : ℚ) < 1 + 1 / 2 ^ 53 := by norm_num
  have ha0 : 0 < h / 100 * (1 - 1 / 2 ^ 53) := mul_pos ha hu1
  have hapos : 0 < fl64 (h / 100) := lt_of_lt_of_le ha0 ha1
  have hp1 : (h / 100 * (1 - 1 / 2 ^ 53)) * (h / 100 * (1 - 1 / 2 ^ 53)) ≤
      fl64 (h / 100) * fl64 (h / 100) :=
    mul_le_mul ha1 ha1 ha0.le hapos.le
  have hp2 : fl64 (h / 100) * fl64 (h / 100) ≤
      (h / 100 * (1 + 1 / 2 ^ 53)) * (h / 100 * (1 + 1 / 2 ^ 53)) :=
    mul_le_mul ha2 ha2 hapos.le (le_trans hapos.le ha2)
  have hppos : 0 < fl64 (h / 100) * fl64 (h / 100) := mul_pos hapos hapos
  obtain ⟨hq1, hq2⟩ := fl64_bounds _ hppos.le
  have hlo : (h / 100) ^ 2 * (1 - 1 / 2 ^ 53) ^ 3 ≤
      fl64 (fl64 (h / 100) * fl64 (h / 100)) := by
    refine le_trans ?_ hq1
    have := mul_le_mul_of_nonneg_right hp1 hu1.le
    calc (h / 100) ^ 2 * (1 - 1 / 2 ^ 53) ^ 3
        = (h / 100 * (1 - 1 / 2 ^ 53)) * (h / 100 * (1 - 1 / 2 ^ 53)) *
            (1 - 1 / 2 ^ 53) := by ring
      _ ≤ fl64 (h / 100) * fl64 (h / 100) * (1 - 1 / 2 ^ 53) := this
  have hhi : fl64 (fl64 (h / 100) * fl64 (h / 100)) ≤
      (h / 100) ^ 2 * (1 + 1 / 2 ^ 53) ^ 3 := by
    refine le_trans hq2 ?_
    have := mul_le_mul_of_nonneg_right hp2 hu2.le
    calc fl64 (h / 100) * fl64 (h / 100) * (1 + 1 / 2 ^ 53)
        ≤ (h / 100 * (1 + 1 / 2 ^ 53)) * (h / 100 * (1 + 1 / 2 ^ 53)) *
            (1 + 1 / 2 ^ 53) := this
      _ = (h / 100) ^ 2 * (1 + 1 / 2 ^ 53) ^ 3 := by ring
  have hL : 0 < (h / 100) ^ 2 * (1 - 1 / 2 ^ 53) ^ 3 := by positivity
  have hden : 0 < fl64 (fl64 (h / 100) * fl64 (h / 100)) := lt_of_lt_of_le hL hlo
  have hE : 0 < w / (h / 100) ^ 2 := by positivity
  have hd1 : w / fl64 (fl64 (h / 100) * fl64 (h / 100)) ≤
      w / ((h / 100) ^ 2 * (1 - 1 / 2 ^ 53) ^ 3) :=
    div_le_div_of_nonneg_left hw.le hL hlo
  have hd2 : w / ((h / 100) ^ 2 * (1 + 1 / 2 ^ 53) ^ 3) ≤
      w / fl64 (fl64 (h / 100) * fl64 (h / 100)) :=
    div_le_div_of_nonneg_left hw.le hden hhi
  have hq0 : 0 ≤ w / fl64 (fl64 (h / 100) * fl64 (h / 100)) := (div_pos hw hden).le
  obtain ⟨hr1, hr2⟩ := fl64_bounds _ hq0
  have he1 : w / ((h / 100) ^ 2 * (1 - 1 / 2 ^ 53) ^ 3) =
      w / (h / 100) ^ 2 * (1 / (1 - 1 / 2 ^ 53) ^ 3) := by
    field_simp
    ring
  have he2 : w / ((h / 100) ^ 2 * (1 + 1 / 2 ^ 53) ^ 3) =
      w / (h / 100) ^ 2 * (1 / (1 + 1 / 2 ^ 53) ^ 3) := by
    field_simp
    ring
  rw [he1] at hd1
  rw [he2] at hd2
  have hup : fl64 (w / fl64 (fl64 (h / 100) * fl64 (h / 100))) ≤
      w / (h / 100) ^ 2 * (1 + 5 / 2 ^ 53) := by
    refine le_trans hr2 (le_trans (mul_le_mul_of_nonneg_right hd1 hu2.le) ?_)
    rw [mul_assoc]
    exact mul_le_mul_of_nonneg_left (by norm_num) hE.le
  have hdown : w / (h / 100) ^ 2 * (1 - 5 / 2 ^ 53) ≤
      fl64 (w / fl64 (fl64 (h / 100) * fl64 (h / 100))) := by
    refine le_trans ?_ (le_trans (mul_le_mul_of_nonneg_right hd2 hu1.le) hr1)
    rw [mul_assoc]
    exact mul_le_mul_of_nonneg_left (by norm_num) hE.le
  rw [abs_le]
  constructor <;> linarith

/-- The binary64 steps of the BMI of 12 kg at 85 cm. -/
theorem fl64_quotient_12_85 :
    fl64 (12 / fl64 (fl64 (85 / 100) * fl64 (85 / 100))) =
      4675016914225429 / 281474976710656 := by
  have h1 : fl64 (85 / 100) = 7656119366529843 / 9007199254740992 := by
    rw [fl64_eq_of_binade (85 / 100) (-1) 7656119366529843 (by norm_num) (by norm_num)
      (by norm_num) (roundHalfEven_eq _ _ (by norm_num) (by norm_num))]
    norm_num
  have h2 : fl64 ((7656119366529843 / 9007199254740992) *
      (7656119366529843 / 9007199254740992)) = 3253850730775183 / 4503599627370496 := by
    rw [fl64_eq_of_binade _ (-1) 6507701461550366 (by norm_num) (by norm_num)
      (by norm_num) (roundHalfEven_eq _ _ (by norm_num) (by norm_num))]
    norm_num
  have h3 : fl64 (12 / (3253850730775183 / 4503599627370496)) =
      4675016914225429 / 281474976710656 := by
    rw [fl64_eq_of_binade _ 4 4675016914225429 (by norm_num) (by norm_num)
      (by norm_num) (roundHalfEven_eq _ _ (by norm_num) (by norm_num))]
    norm_num
  rw [h1, h2, h3]

/-- For positive weight and height `calculateBMI` is the double nearest to the multiple of
0.01 nearest to the binary64 quotient, a half of the quotient going up, and that quotient
lies within the relative error `5 * 2 ^ (-53)` of the exact one. -/
theorem calculateBMI_nearest (w h : ℚ) (hw : 0 < w) (hh : 0 < h) :
    ∃ n : ℤ, calculateBMI w h = fl64 ((n : ℚ) / 100) ∧
      (n : ℚ) / 100 - 1 / 200 ≤ fl64 (w / fl64 (fl64 (h / 100) * fl64 (h / 100))) ∧
      fl64 (w / fl64 (fl64 (h / 100) * fl64 (h / 100))) < (n : ℚ) / 100 + 1 / 200 ∧
      |fl64 (w / fl64 (fl64 (h / 100) * fl64 (h / 100))) - w / (h / 100) ^ 2| ≤
        5 / 2 ^ 53 * (w / (h / 100) ^ 2) ∧
      |(n : ℚ) / 100 - w / (h / 100) ^ 2| ≤ 1 / 200 + 5 / 2 ^ 53 * (w / (h / 100) ^ 2) := by
  have hq : 0 ≤ fl64 (w / fl64 (fl64 (h / 100) * fl64 (h / 100))) := by
    apply fl64_nonneg
    apply div_nonneg hw.le
    apply fl64_nonneg
    exact mul_self_nonneg _
  obtain ⟨n, h1, h2, h3⟩ := toFixed2_nearest _ hq
  have herr := bmi_quotient_error w h hw hh
  refine ⟨n, ?_, h2, h3, herr, ?_⟩
  · unfold calculateBMI
    simp only []
    rw [h1]
  · rw [abs_le] at herr ⊢
    constructor <;> linarith [herr.1, herr.2]

/-- The BMI of 12 kg at 85 cm is the double of 16.61. -/
theorem calculateBMI_12_85 : calculateBMI 12 85 = fl64 (1661 / 100) := by
  unfold calculateBMI
  simp only []
  rw [fl64_quotient_12_85]
  congr 1
  unfold toFixed2
  norm_num

/-- The double of a number from 16 to below 17 falls in the bucket `underweight` of the
hook. -/
theorem preSaveStatus_1661 : GrowthRecord.preSaveStatus (fl64 (1661 / 100)) = .underweight := by
  obtain ⟨h1, h2⟩ := fl64_bounds (1661 / 100) (by norm_num)
  unfold GrowthRecord.preSaveStatus
  rw [if_neg (by
    rw [not_lt]
    refine le_trans ?_ h1
    norm_num), if_pos (lt_of_le_of_lt h2 (by norm_num))]

/-- A document whose weight and height lie in the validated ranges and whose optional
fields pass validation has no validation error. -/
theorem validationErrors_nil (r : GrowthRecord) (h1 : 1 / 2 ≤ r.weight) (h2 : r.weight ≤ 200)
    (h3 : 30 ≤ r.height) (h4 : r.height ≤ 250)
    (h5 : GrowthRecord.optionalErrors r.headCircumference r.notes = []) :
    r.validationErrors = [] := by
  unfold GrowthRecord.validationErrors GrowthRecord.weightErrors GrowthRecord.heightErrors
  rw [h5, if_neg (not_lt.mpr h1), if_neg (not_lt.mpr h2), if_neg (not_lt.mpr h3),
    if_neg (not_lt.mpr h4)]
  rfl

/-- C3. A record returned by a successful create, or by a successful update with any
combination of supplied fields, carries the weight and height of the request (the previous
ones where the update does not supply them), `bmi = calculateBMI weight height` of those
current values and the status that the hook derives from that BMI. A create with weight and
height inside the validated ranges and optional fields that pass validation succeeds, and
so does an update whose resulting fields pass validation. For positive weight and height
the stored BMI is the double nearest to a multiple of 0.01 that lies within
`0.005 + 5 * 2 ^ (-53) * x` of the exact quotient `x = weight / (height / 100) ^ 2`. -/
theorem save_recomputes_bmi_and_status :
    (∀ (birthDate now : ℤ) (childId : ℕ) (w h hc : Option ℚ) (notes : Option String)
        (s : GrowthRecord),
      createGrowthRecord birthDate now childId w h hc notes = .ok s →
        w = some s.weight ∧ h = some s.height ∧
        s.bmi = some (calculateBMI s.weight s.height) ∧
        s.nutritionStatus =
          some (GrowthRecord.preSaveStatus (calculateBMI s.weight s.height))) ∧
    (∀ (record : GrowthRecord) (w h hc : Option ℚ) (notes : Option String)
        (s : GrowthRecord),
      updateGrowthRecord record w h hc notes = .ok s →
        s.weight = w.getD record.weight ∧ s.height = h.getD record.height ∧
        s.bmi = some (calculateBMI s.weight s.height) ∧
        s.nutritionStatus =
          some (GrowthRecord.preSaveStatus (calculateBMI s.weight s.height))) ∧
    (∀ (birthDate now : ℤ) (childId : ℕ) (w h : ℚ) (hc : Option ℚ)
        (notes : Option String),
      1 / 2 ≤ w → w ≤ 200 → 30 ≤ h → h ≤ 250 →
      GrowthRecord.optionalErrors hc notes = [] →
        ∃ s : GrowthRecord,
          createGrowthRecord birthDate now childId (some w) (some h) hc notes = .ok s ∧
          s.weight = w ∧ s.height = h ∧ s.bmi = some (calculateBMI w h) ∧
          s.nutritionStatus = some (GrowthRecord.preSaveStatus (calculateBMI w h))) ∧
    (∀ (record : GrowthRecord) (w h hc : Option ℚ) (notes : Option String),
      1 / 2 ≤ w.getD record.weight → w.getD record.weight ≤ 200 →
      30 ≤ h.getD record.height → h.getD record.height ≤ 250 →
      GrowthRecord.optionalErrors ((hc.map some).getD record.headCircumference)
        ((notes.map some).getD record.notes) = [] →
        ∃ s : GrowthRecord,
          updateGrowthRecord record w h hc notes = .ok s ∧
          s.weight = w.getD record.weight ∧ s.height = h.getD record.height ∧
          s.bmi = some (calculateBMI (w.getD record.weight) (h.getD record.height)) ∧
          s.nutritionStatus = some (GrowthRecord.preSaveStatus
            (calculateBMI (w.getD record.weight) (h.getD record.height)))) ∧
    (∀ w h : ℚ, 0 < w → 0 < h →
      ∃ n : ℤ, calculateBMI w h = fl64 ((n : ℚ) / 100) ∧
        |(n : ℚ) / 100 - w / (h / 100) ^ 2| ≤
          1 / 200 + 5 / 2 ^ 53 * (w / (h / 100) ^ 2)) := by
  refine ⟨?_, ?_, ?_, ?_, ?_⟩
  · intro birthDate now childId w h hc notes s hs
    unfold createGrowthRecord at hs
    cases w <;> cases h <;> simp only [reduceCtorEq] at hs
    rw [save_eq_ok_iff] at hs
    obtain ⟨_, rfl⟩ := hs
    exact ⟨rfl, rfl, rfl, rfl⟩
  · intro record w h hc notes s hs
    rw [updateGrowthRecord_eq, save_eq_ok_iff] at hs
    obtain ⟨_, rfl⟩ := hs
    exact ⟨rfl, rfl, rfl, rfl⟩
  · intro birthDate now childId w h hc notes h1 h2 h3 h4 h5
    refine ⟨GrowthRecord.preSave
      { childId := childId, weight := w, height := h,
        ageInMonths := calculateAge birthDate now, bmi := none, nutritionStatus := none,
        headCircumference := hc, notes := notes, recordDate := now }, ?_, rfl, rfl, rfl, rfl⟩
    unfold createGrowthRecord
    simp only []
    rw [save_eq_ok_iff]
    exact ⟨validationErrors_nil _ h1 h2 h3 h4 h5, rfl⟩
  · intro record w h hc notes h1 h2 h3 h4 h5
    refine ⟨GrowthRecord.preSave
      { record with
        weight := w.getD record.weight
        height := h.getD record.height
        headCircumference := (hc.map some).getD record.headCircumference
        notes := (notes.map some).getD record.notes }, ?_, rfl, rfl, rfl, rfl⟩
    rw [updateGrowthRecord_eq, save_eq_ok_iff]
    exact ⟨validationErrors_nil _ h1 h2 h3 h4 h5, rfl⟩
  · intro w h hw hh
    obtain ⟨n, h1, _, _, _, h5⟩ := calculateBMI_nearest w h hw hh
    exact ⟨n, h1, h5⟩

/-- Witness of C3: a record of 12 kg at 85 cm is created with BMI 16.61 and status
`underweight`; the stored record of 12 kg at 85 cm updated to 13 kg is saved with the BMI
and the status of 13 kg at 85 cm; the BMI of 12 kg at 85 cm is the double of a multiple of
0.01 within the bound of the exact quotient. -/
theorem save_recomputes_bmi_and_status_witness :
    (∃ s : GrowthRecord,
      createGrowthRecord 0 0 1 (some 12) (some 85) none none = .ok s ∧
      s.weight = 12 ∧ s.height = 85 ∧ s.bmi = some (calculateBMI 12 85) ∧
      s.nutritionStatus = some (GrowthRecord.preSaveStatus (calculateBMI 12 85))) ∧
    calculateBMI 12 85 = fl64 (1661 / 100) ∧
    GrowthRecord.preSaveStatus (fl64 (1661 / 100)) = .underweight ∧
    (∃ s : GrowthRecord,
      updateGrowthRecord storedRecord18 (some 13) none none none = .ok s ∧
      s.weight = 13 ∧ s.height = 85 ∧ s.bmi = some (calculateBMI 13 85) ∧
      s.nutritionStatus = some (GrowthRecord.preSaveStatus (calculateBMI 13 85))) ∧
    (∃ n : ℤ, calculateBMI 12 85 = fl64 ((n : ℚ) / 100) ∧
      |(n : ℚ) / 100 - 12 / (85 / 100) ^ 2| ≤
        1 / 200 + 5 / 2 ^ 53 * (12 / (85 / 100) ^ 2)) :=
  ⟨save_recomputes_bmi_and_status.2.2.1 0 0 1 12 85 none none (by norm_num) (by norm_num)
      (by norm_num) (by norm_num) rfl,
   calculateBMI_12_85, preSaveStatus_1661,
   save_recomputes_bmi_and_status.2.2.2.1 storedRecord18 (some 13) none none none
      (by norm_num [storedRecord18]) (by norm_num [storedRecord18])
      (by norm_num [storedRecord18]) (by norm_num [storedRecord18]) rfl,
   save_recomputes_bmi_and_status.2.2.2.2 12 85 (by norm_num) (by norm_num)⟩

/-- C4, counterexample. For 10 kg at 80 cm the exact quotient is 15.625, halfway between
15.62 and 15.63, which rounds away from zero to 15.63; the binary64 quotient is just below
15.625 and `calculateBMI` returns the double of 15.62. -/
theorem calculateBMI_10_80 :
    (10 : ℚ) / (80 / 100) ^ 2 = 15625 / 1000 ∧
    bmiSpec 10 80 = 1563 / 100 ∧
    fl64 (10 / fl64 (fl64 (80 / 100) * fl64 (80 / 100))) =
      4398046511103999 / 281474976710656 ∧
    (4398046511103999 : ℚ) / 281474976710656 < 15625 / 1000 ∧
    calculateBMI 10 80 = fl64 (1562 / 100) ∧
    fl64 (1562 / 100) < 1563 / 100 := by
  have hq : fl64 (10 / fl64 (fl64 (80 / 100) * fl64 (80 / 100))) =
      4398046511103999 / 281474976710656 := by
    rw [fl64_height_80, fl64_square_80, fl64_quotient_10_80]
  refine ⟨by norm_num, ?_, hq, by norm_num, ?_, ?_⟩
  · unfold bmiSpec toFixed2
    norm_num
  · unfold calculateBMI
    simp only []
    rw [hq]
    congr 1
    unfold toFixed2
    norm_num
  · exact lt_of_le_of_lt (fl64_bounds (1562 / 100) (by norm_num)).2 (by norm_num)

/-- C4, amended. For positive weight and height `calculateBMI w h` is the double nearest to
`n / 100`, the multiple of 0.01 nearest to the binary64 quotient `q` of `w` by
`(h / 100) ^ 2`, a half of `q` going up. `q` lies within the relative error
`5 * 2 ^ (-53)` of the exact quotient `x`, so `n / 100` lies within
`0.005 + 5 * 2 ^ (-53) * x` of `x`, and `n / 100` is `x` rounded to 2 decimals, halves away
from zero, whenever `x` is farther than `5 * 2 ^ (-53) * x` from every midpoint
`k / 100 + 0.005`; and `calculateBMI 12 85` is the double of 16.61. -/
theorem calculateBMI_rounds (w h : ℚ) (hw : 0 < w) (hh : 0 < h) :
    (∃ (q : ℚ) (n : ℤ), q = fl64 (w / fl64 (fl64 (h / 100) * fl64 (h / 100))) ∧
      |q - w / (h / 100) ^ 2| ≤ 5 / 2 ^ 53 * (w / (h / 100) ^ 2) ∧
      calculateBMI w h = fl64 ((n : ℚ) / 100) ∧
      (n : ℚ) / 100 - 1 / 200 ≤ q ∧ q < (n : ℚ) / 100 + 1 / 200 ∧
      |(n : ℚ) / 100 - w / (h / 100) ^ 2| ≤ 1 / 200 + 5 / 2 ^ 53 * (w / (h / 100) ^ 2) ∧
      ((∀ k : ℤ, 5 / 2 ^ 53 * (w / (h / 100) ^ 2) <
          |w / (h / 100) ^ 2 - ((k : ℚ) / 100 + 1 / 200)|) →
        (n : ℚ) / 100 = bmiSpec w h)) ∧
    calculateBMI 12 85 = fl64 (1661 / 100) := by
  refine ⟨?_, calculateBMI_12_85⟩
  obtain ⟨n, h1, h2, h3, h4, h5⟩ := calculateBMI_nearest w h hw hh
  refine ⟨_, n, rfl, h4, h1, h2, h3, h5, ?_⟩
  intro hfar
  have hx : 0 ≤ w / (h / 100) ^ 2 := by positivity
  obtain ⟨n2, g1, g2, g3⟩ := toFixed2_nearest _ hx
  unfold bmiSpec
  rw [g1]
  rw [abs_le] at h4
  have hn : n = n2 := by
    rcases lt_trichotomy n n2 with hlt | heq | hgt
    · exfalso
      have hc : (n : ℚ) + 1 ≤ n2 := by exact_mod_cast hlt
      have hk := hfar n
      rw [abs_of_nonneg (by linarith)] at hk
      linarith [h4.1, h4.2]
    · exact heq
    · exfalso
      have hc : (n2 : ℚ) + 1 ≤ n := by exact_mod_cast hgt
      have hk := hfar n2
      rw [abs_of_nonpos (by linarith)] at hk
      linarith [h4.1, h4.2]
  rw [hn]

/-- Witness of C4 (amended): 12 kg at 85 cm. The exact quotient 16.6089... is farther than
the error bound from every midpoint between two hundredths, so the multiple of 0.01 that
`calculateBMI` rounds to is the exact quotient rounded to 2 decimals, 16.61. -/
theorem calculateBMI_rounds_witness :
    ((0 : ℚ) < 12 ∧ (0 : ℚ) < 85) ∧
    (∀ k : ℤ, 5 / 2 ^ 53 * ((12 : ℚ) / (85 / 100) ^ 2) <
      |(12 : ℚ) / (85 / 100) ^ 2 - ((k : ℚ) / 100 + 1 / 200)|) ∧
    (∃ (q : ℚ) (n : ℤ), q = fl64 (12 / fl64 (fl64 (85 / 100) * fl64 (85 / 100))) ∧
      |q - 12 / (85 / 100) ^ 2| ≤ 5 / 2 ^ 53 * (12 / (85 / 100) ^ 2) ∧
      calculateBMI 12 85 = fl64 ((n : ℚ) / 100) ∧
      (n : ℚ) / 100 = bmiSpec 12 85) ∧
    bmiSpec 12 85 = 1661 / 100 := by
  have hx : (12 : ℚ) / (85 / 100) ^ 2 = 4800 / 289 := by norm_num
  have hmid : ∀ k : ℤ, 5 / 2 ^ 53 * ((12 : ℚ) / (85 / 100) ^ 2) <
      |(12 : ℚ) / (85 / 100) ^ 2 - ((k : ℚ) / 100 + 1 / 200)| := by
    intro k
    rw [hx, lt_abs]
    rcases le_or_lt k 1660 with h | h
    · have hk : (k : ℚ) ≤ 1660 := by exact_mod_cast h
      left
      norm_num
      linarith
    · have hk : (1661 : ℚ) ≤ (k : ℚ) := by exact_mod_cast h
      right
      norm_num
      linarith
  obtain ⟨q, n, hq, herr, hn, _, _, _, hexact⟩ :=
    (calculateBMI_rounds 12 85 (by norm_num) (by norm_num)).1
  refine ⟨⟨by norm_num, by norm_num⟩, hmid, ⟨q, n, hq, herr, hn, hexact hmid⟩, ?_⟩
  unfold bmiSpec toFixed2
  norm_num

/-- C6. From 12 months on the calorie and protein targets are the flat bracket values, for
`male` and for `female` from 36 months on and for every gender string `g` below, and do not
depend on the weight; the calories of the two sexes agree below 36 months, and age 24 is in
the bracket from 24 to 36. -/
theorem needs_flat_brackets (a w : ℚ) (g : String) (ha : 12 ≤ a) :
    (a < 24 → calculateCalorieNeeds a g w = 1125 ∧ calculateProteinNeeds a w = 20) ∧
    (24 ≤ a → a < 36 →
      calculateCalorieNeeds a g w = 1250 ∧ calculateProteinNeeds a w = 25) ∧
    (36 ≤ a → a < 60 →
      calculateCalorieNeeds a "male" w = 1400 ∧ calculateCalorieNeeds a "female" w = 1300 ∧
      calculateProteinNeeds a w = 35) ∧
    (60 ≤ a → a < 120 →
      calculateCalorieNeeds a "male" w = 1650 ∧ calculateCalorieNeeds a "female" w = 1550 ∧
      calculateProteinNeeds a w = 40) ∧
    (120 ≤ a →
      calculateCalorieNeeds a "male" w = 2000 ∧ calculateCalorieNeeds a "female" w = 1800 ∧
      calculateProteinNeeds a w = 50) ∧
    (∀ w2 : ℚ, calculateCalorieNeeds a g w2 = calculateCalorieNeeds a g w ∧
      calculateProteinNeeds a w2 = calculateProteinNeeds a w) ∧
    (a < 36 → calculateCalorieNeeds a "male" w = calculateCalorieNeeds a "female" w) ∧
    calculateCalorieNeeds 24 g w = 1250 ∧ calculateProteinNeeds 24 w = 25 := by
  have h6 : ¬ a < 6 := by intro h; linarith
  have h12 : ¬ a < 12 := by intro h; linarith
  have hf : ¬ ("female" = "male") := by decide
  refine ⟨?_, ?_, ?_, ?_, ?_, ?_, ?_, ?_, ?_⟩
  · intro h1
    simp [calculateCalorieNeeds, calculateProteinNeeds, h6, h12, h1]
  · intro h1 h2
    simp [calculateCalorieNeeds, calculateProteinNeeds, h6, h12, not_lt.mpr h1, h2]
  · intro h1 h2
    have h24 : ¬ a < 24 := by intro h; linarith
    simp [calculateCalorieNeeds, calculateProteinNeeds, h6, h12, h24, not_lt.mpr h1, h2]
  · intro h1 h2
    have h24 : ¬ a < 24 := by intro h; linarith
    have h36 : ¬ a < 36 := by intro h; linarith
    simp [calculateCalorieNeeds, calculateProteinNeeds, h6, h12, h24, h36, not_lt.mpr h1, h2]
  · intro h1
    have h24 : ¬ a < 24 := by intro h; linarith
    have h36 : ¬ a < 36 := by intro h; linarith
    have h60 : ¬ a < 60 := by intro h; linarith
    simp [calculateCalorieNeeds, calculateProteinNeeds, h6, h12, h24, h36, h60,
      not_lt.mpr h1]
  · intro w2
    simp [calculateCalorieNeeds, calculateProteinNeeds, h6, h12]
  · intro h1
    unfold calculateCalorieNeeds
    simp only [if_neg h6, if_neg h12]
    split_ifs <;> rfl
  · unfold calculateCalorieNeeds
    norm_num
  · unfold calculateProteinNeeds
    norm_num

/-- Witness of C6: a girl of 48 months. -/
theorem needs_flat_brackets_witness :
    (12 : ℚ) ≤ 48 ∧
    calculateCalorieNeeds 48 "female" 15 = 1300 ∧ calculateProteinNeeds 48 15 = 35 :=
  ⟨by norm_num,
   ((needs_flat_brackets 48 15 "female" (by norm_num)).2.2.1
      (by norm_num) (by norm_num)).2.1,
   ((needs_flat_brackets 48 15 "female" (by norm_num)).2.2.1
      (by norm_num) (by norm_num)).2.2⟩

/-- C7, counterexample. At 3 months and 5.3 kg the exact product is 572.4 kcal, and
`calculateCalorieNeeds` returns 572. -/
theorem calorieNeeds_infant_is_rounded :
    108 * (53 / 10 : ℚ) = 5724 / 10 ∧
    calculateCalorieNeeds 3 "male" (53 / 10) = 572 ∧
    calculateCalorieNeeds 3 "male" (53 / 10) ≠ 108 * (53 / 10) := by
  have h : calculateCalorieNeeds 3 "male" (53 / 10) = 572 := by
    unfold calculateCalorieNeeds mathRound
    norm_num
  refine ⟨by norm_num, h, ?_⟩
  rw [h]
  norm_num

/-- The value of `Math.round` is within one half of its argument, the upper end excluded. -/
theorem mathRound_bounds (x : ℚ) :
    ((mathRound x : ℤ) : ℚ) - 1 / 2 ≤ x ∧ x < ((mathRound x : ℤ) : ℚ) + 1 / 2 := by
  unfold mathRound
  have h1 := Int.floor_le (x + 1 / 2)
  have h2 := Int.lt_floor_add_one (x + 1 / 2)
  constructor <;> linarith

/-- C7, amended. Below 12 months the targets that the two functions return are the per-kg
products rounded to the nearest integer by `Math.round` (a half going up): an integer
within one half of `108 * w` and `2.2 * w` below 6 months, and of `98 * w` and `1.6 * w`
from 6 to 12 months. -/
theorem needs_infant_rounded (a w : ℚ) (g : String) (ha : a < 12) :
    ∃ c p : ℤ, calculateCalorieNeeds a g w = c ∧ calculateProteinNeeds a w = p ∧
      (a < 6 →
        (c : ℚ) - 1 / 2 ≤ 108 * w ∧ 108 * w < (c : ℚ) + 1 / 2 ∧
        (p : ℚ) - 1 / 2 ≤ 22 / 10 * w ∧ 22 / 10 * w < (p : ℚ) + 1 / 2) ∧
      (6 ≤ a →
        (c : ℚ) - 1 / 2 ≤ 98 * w ∧ 98 * w < (c : ℚ) + 1 / 2 ∧
        (p : ℚ) - 1 / 2 ≤ 16 / 10 * w ∧ 16 / 10 * w < (p : ℚ) + 1 / 2) := by
  by_cases h6 : a < 6
  · refine ⟨mathRound (108 * w), mathRound (22 / 10 * w), ?_, ?_, ?_, ?_⟩
    · simp [calculateCalorieNeeds, h6]
    · simp [calculateProteinNeeds, h6]
    · intro _
      exact ⟨(mathRound_bounds _).1, (mathRound_bounds _).2, (mathRound_bounds _).1,
        (mathRound_bounds _).2⟩
    · intro h
      exact absurd h6 (not_lt.mpr h)
  · refine ⟨mathRound (98 * w), mathRound (16 / 10 * w), ?_, ?_, ?_, ?_⟩
    · simp [calculateCalorieNeeds, h6, ha]
    · simp [calculateProteinNeeds, h6, ha]
    · intro h
      exact absurd h h6
    · intro _
      exact ⟨(mathRound_bounds _).1, (mathRound_bounds _).2, (mathRound_bounds _).1,
        (mathRound_bounds _).2⟩

/-- Witness of C7 (amended): 5.3 kg at 3 months gives 572 kcal and 12 g. -/
theorem needs_infant_rounded_witness :
    ((3 : ℚ) < 12) ∧
    (∃ c p : ℤ, calculateCalorieNeeds 3 "male" (53 / 10) = c ∧
      calculateProteinNeeds 3 (53 / 10) = p ∧
      ((3 : ℚ) < 6 →
        (c : ℚ) - 1 / 2 ≤ 108 * (53 / 10) ∧ 108 * (53 / 10) < (c : ℚ) + 1 / 2 ∧
        (p : ℚ) - 1 / 2 ≤ 22 / 10 * (53 / 10) ∧ 22 / 10 * (53 / 10) < (p : ℚ) + 1 / 2) ∧
      ((6 : ℚ) ≤ 3 →
        (c : ℚ) - 1 / 2 ≤ 98 * (53 / 10) ∧ 98 * (53 / 10) < (c : ℚ) + 1 / 2 ∧
        (p : ℚ) - 1 / 2 ≤ 16 / 10 * (53 / 10) ∧ 16 / 10 * (53 / 10) < (p : ℚ) + 1 / 2)) ∧
    calculateCalorieNeeds 3 "male" (53 / 10) = 572 ∧
    calculateProteinNeeds 3 (53 / 10) = 12 :=
  ⟨by norm_num, needs_infant_rounded 3 (53 / 10) "male" (by norm_num),
   by unfold calculateCalorieNeeds mathRound; norm_num,
   by unfold calculateProteinNeeds mathRound; norm_num⟩

/-- Two calendar years after a date lie 730 or 731 days after it. -/
theorem daysFromCivil_two_years (y m d : ℤ) :
    daysFromCivil (y + 2) m d - daysFromCivil y m d = 730 ∨
    daysFromCivil (y + 2) m d - daysFromCivil y m d = 731 := by
  unfold daysFromCivil
  simp only []
  split_ifs <;> omega

/-- The age computed over a span of 730 days is 23, over a span of 731 days it is 24. -/
theorem calculateAge_of_days (b t : ℤ) :
    (t - b = 730 * msPerDay → calculateAge b t = 23) ∧
    (t - b = 731 * msPerDay → calculateAge b t = 24) := by
  constructor <;> intro h <;>
    (unfold calculateAge mathFloor msPerMonth
     simp only [h, msPerDay]
     norm_num)

/-- The getter of the child schema computes the same age as `calculateAge`. -/
theorem Child.ageInMonths_eq_calculateAge (b t : ℤ) :
    Child.ageInMonths b t = calculateAge b t := rfl

/-- C8, counterexample. For a child born on 1 March 2021 at midnight UTC the reference date
1 March 2023, exactly 24 calendar months later, is 730 days later, and the computed age is
23: the table below 24 months and the calorie and protein bracket from 12 to 24 apply. -/
theorem calculateAge_two_years_is_23 :
    dateUTC 2021 3 1 0 = 1614556800000 ∧ dateUTC 2023 3 1 0 = 1677628800000 ∧
    calculateAge (dateUTC 2021 3 1 0) (dateUTC 2023 3 1 0) = 23 ∧
    calculateCalorieNeeds 23 "male" 12 = 1125 ∧ calculateProteinNeeds 23 12 = 20 ∧
    getNutritionStatus 16 23 = .normal ∧ getNutritionStatus 16 24 = .underweight := by
  have h1 : dateUTC 2021 3 1 0 = 1614556800000 := by decide
  have h2 : dateUTC 2023 3 1 0 = 1677628800000 := by decide
  refine ⟨h1, h2, ?_, ?_, ?_, ?_, ?_⟩
  · rw [h1, h2]
    exact (calculateAge_of_days _ _).1 (by norm_num [msPerDay])
  · unfold calculateCalorieNeeds
    norm_num
  · unfold calculateProteinNeeds
    norm_num
  · unfold getNutritionStatus
    norm_num
  · unfold getNutritionStatus
    norm_num

/-- C8, amended. When the reference date is the same day of the month and time two years
after the birth date, the elapsed time is 730 or 731 days; the age computation returns 23
over 730 days and 24 over 731 days. -/
theorem calculateAge_two_years (y m d ms : ℤ) :
    (dateUTC (y + 2) m d ms - dateUTC y m d ms = 730 * msPerDay ∧
      calculateAge (dateUTC y m d ms) (dateUTC (y + 2) m d ms) = 23) ∨
    (dateUTC (y + 2) m d ms - dateUTC y m d ms = 731 * msPerDay ∧
      calculateAge (dateUTC y m d ms) (dateUTC (y + 2) m d ms) = 24) := by
  have hd : dateUTC (y + 2) m d ms - dateUTC y m d ms =
      (daysFromCivil (y + 2) m d - daysFromCivil y m d) * msPerDay := by
    unfold dateUTC
    ring
  rcases daysFromCivil_two_years y m d with h | h
  · left
    rw [h] at hd
    exact ⟨hd, (calculateAge_of_days _ _).1 hd⟩
  · right
    rw [h] at hd
    exact ⟨hd, (calculateAge_of_days _ _).2 hd⟩

/-- C9. The age in months does not decrease as the reference timestamp advances, for
`calculateAge` and for the getter of the child schema; both are functions of the pair of
birth date and reference, and they agree. -/
theorem calculateAge_monotone (b t1 t2 : ℤ) (h : t1 ≤ t2) :
    calculateAge b t1 ≤ calculateAge b t2 ∧
    Child.ageInMonths b t1 ≤ Child.ageInMonths b t2 ∧
    Child.ageInMonths b t1 = calculateAge b t1 := by
  have hm : calculateAge b t1 ≤ calculateAge b t2 := by
    unfold calculateAge mathFloor
    apply Int.floor_mono
    apply div_le_div_of_nonneg_right
    · have : t1 - b ≤ t2 - b := by omega
      exact_mod_cast this
    · unfold msPerMonth
      norm_num
  exact ⟨hm, hm, rfl⟩

/-- Witness of C9: one day before and one day after the 731st day of life. -/
theorem calculateAge_monotone_witness :
    (730 * msPerDay ≤ 732 * msPerDay) ∧
    (calculateAge 0 (730 * msPerDay) ≤ calculateAge 0 (732 * msPerDay) ∧
      Child.ageInMonths 0 (730 * msPerDay) ≤ Child.ageInMonths 0 (732 * msPerDay) ∧
      Child.ageInMonths 0 (730 * msPerDay) = calculateAge 0 (730 * msPerDay)) :=
  ⟨by decide, calculateAge_monotone 0 (730 * msPerDay) (732 * msPerDay) (by decide)⟩

/-- C10, counterexample. With a birth date one day after the reference date the age
computation returns the number -1. -/
theorem calculateAge_future_birth_returns :
    calculateAge 86400000 0 = -1 ∧ Child.ageInMonths 86400000 0 = -1 := by
  have h : calculateAge 86400000 0 = -1 := by
    unfold calculateAge mathFloor msPerMonth
    norm_num
  exact ⟨h, h⟩

/-- C10, amended. For a birth date strictly after the reference date the age computation
raises nothing: it returns a negative number of months. -/
theorem calculateAge_future_birth_negative (b t : ℤ) (h : t < b) :
    calculateAge b t ≤ -1 ∧ Child.ageInMonths b t ≤ -1 := by
  have hm : calculateAge b t ≤ -1 := by
    have hlt : calculateAge b t < 0 := by
      unfold calculateAge mathFloor
      rw [Int.floor_lt]
      apply div_neg_of_neg_of_pos
      · have : t - b < 0 := by omega
        exact_mod_cast this
      · unfold msPerMonth
        norm_num
    omega
  exact ⟨hm, hm⟩

/-- Witness of C10 (amended): a birth date one day after the reference date. -/
theorem calculateAge_future_birth_negative_witness :
    ((0 : ℤ) < 86400000) ∧
    (calculateAge 86400000 0 ≤ -1 ∧ Child.ageInMonths 86400000 0 ≤ -1) :=
  ⟨by decide, calculateAge_future_birth_negative 86400000 0 (by decide)⟩

/-- The calories and the protein of the reduction over the food logs of today, started from
any accumulator, are the running binary64 sums of the fields. -/
theorem todayNutrition_foldl (logs : List FoodLog) (acc : TodayNutrition) :
    (logs.foldl
      (fun acc log =>
        ({ calories := fl64 (acc.calories + fieldOrZero log.calories)
           protein := fl64 (acc.protein + fieldOrZero log.protein)
           carbs := fl64 (acc.carbs + fieldOrZero log.carbs)
           fat := fl64 (acc.fat + fieldOrZero log.fat) } : TodayNutrition))
      acc).calories =
      (logs.map (fun l => fieldOrZero l.calories)).foldl (fun a x => fl64 (a + x))
        acc.calories ∧
    (logs.foldl
      (fun acc log =>
        ({ calories := fl64 (acc.calories + fieldOrZero log.calories)
           protein := fl64 (acc.protein + fieldOrZero log.protein)
           carbs := fl64 (acc.carbs + fieldOrZero log.carbs)
           fat := fl64 (acc.fat + fieldOrZero log.fat) } : TodayNutrition))
      acc).protein =
      (logs.map (fun l => fieldOrZero l.protein)).foldl (fun a x => fl64 (a + x))
        acc.protein := by
  induction logs generalizing acc with
  | nil => exact ⟨rfl, rfl⟩
  | cons l ls ih =>
    rw [List.foldl_cons, List.map_cons, List.map_cons, List.foldl_cons, List.foldl_cons]
    exact ih _

/-- The calories of today are the running binary64 sum of the calorie fields, an absent
field counting 0. -/
theorem todayNutrition_calories (logs : List FoodLog) :
    (todayNutrition logs).calories =
      (logs.map (fun l => fieldOrZero l.calories)).foldl (fun a x => fl64 (a + x)) 0 :=
  (todayNutrition_foldl logs _).1

/-- The protein of today is the running binary64 sum of the protein fields, an absent field
counting 0. -/
theorem todayNutrition_protein (logs : List FoodLog) :
    (todayNutrition logs).protein =
      (logs.map (fun l => fieldOrZero l.protein)).foldl (fun a x => fl64 (a + x)) 0 :=
  (todayNutrition_foldl logs _).2

/-- The expression `field || 0` on a field that holds a number other than 0. -/
theorem fieldOrZero_some (v : ℚ) (hv : v ≠ 0) : fieldOrZero (some v) = v := by
  simp [fieldOrZero, hv]

/-- The compliance values of a day whose only log is `mealOf c p`, for a positive target. -/
theorem compliance_single (c p t : ℚ) (ht : 0 < t) :
    calorieCompliance [mealOf c p] t =
      min (fl64 (fl64 (fl64 (fieldOrZero (some c)) / t) * 100)) 100 ∧
    proteinCompliance [mealOf c p] t =
      min (fl64 (fl64 (fl64 (fieldOrZero (some p)) / t) * 100)) 100 := by
  constructor
  · unfold calorieCompliance
    rw [if_pos ht, todayNutrition_calories]
    simp only [List.map_cons, List.map_nil, List.foldl_cons, List.foldl_nil, mealOf,
      zero_add]
  · unfold proteinCompliance
    rw [if_pos ht, todayNutrition_protein]
    simp only [List.map_cons, List.map_nil, List.foldl_cons, List.foldl_nil, mealOf,
      zero_add]

/-- The running binary64 sum of `n` non-negative numbers is their sum up to `n`
roundings. -/
theorem running_sum_within (xs : List ℚ) (hxs : ∀ x ∈ xs, 0 ≤ x) :
    WithinRoundings xs.length (xs.foldl (fun a x => fl64 (a + x)) 0) xs.sum := by
  have h := foldl_fl64_add_within xs hxs 0 0 0 (le_refl 0) (withinRoundings_refl 0)
  simpa using h

/-- The binary64 percentage of an approximated total against a positive target. -/
theorem percentage_within (k : ℕ) (total exact t : ℚ) (ht : 0 < t) (he : 0 ≤ exact)
    (h : WithinRoundings k total exact) :
    WithinRoundings (k + 2) (fl64 (fl64 (total / t) * 100)) (exact / t * 100) := by
  have h1 := withinRoundings_fl64 k _ _ (div_nonneg he ht.le)
    (withinRoundings_div_const k total exact t ht h)
  have h2 := withinRoundings_mul_const (k + 1) _ _ 100 (by norm_num) h1
  exact withinRoundings_fl64 (k + 1) _ _ (by positivity) h2

/-- A clamped percentage that approximates a non-negative number is between 0 and 100. -/
theorem clamped_within_bounds (k : ℕ) (x exact : ℚ) (he : 0 ≤ exact)
    (h : WithinRoundings k x exact) : 0 ≤ min x 100 ∧ min x 100 ≤ 100 :=
  ⟨le_min (withinRoundings_nonneg k x exact he h) (by norm_num), min_le_right _ _⟩

/-- The double of 203. -/
theorem fl64_203 : fl64 203 = 203 := by
  simpa using fl64_natCast 203 (by norm_num)

/-- C11, counterexample. With a single log of 203 kcal today against a target of 1400 kcal
the exact percentage is 14.5, which the response would show as 15; the binary64 quotient
and product give a value just below 14.5, and the response shows 14. -/
theorem dashboard_compliance_rounded :
    calorieCompliance [mealOf 203 0] 1400 = 8162774324609023 / 562949953421312 ∧
    (8162774324609023 : ℚ) / 562949953421312 < 29 / 2 ∧
    min ((203 : ℚ) / 1400 * 100) 100 = 29 / 2 ∧
    mathRound (calorieCompliance [mealOf 203 0] 1400) = 14 ∧
    mathRound (min ((203 : ℚ) / 1400 * 100) 100) = 15 := by
  have h1 : fl64 (203 / 1400) = 5224175567749775 / 36028797018963968 := by
    rw [fl64_eq_of_binade _ (-3) 5224175567749775 (by norm_num) (by norm_num)
      (by norm_num) (roundHalfEven_eq _ _ (by norm_num) (by norm_num))]
    norm_num
  have h2 :
      fl64 (5224175567749775 / 36028797018963968 * 100) =
        8162774324609023 / 562949953421312 := by
    rw [fl64_eq_of_binade _ 3 8162774324609023 (by norm_num) (by norm_num)
      (by norm_num) (roundHalfEven_eq _ _ (by norm_num) (by norm_num))]
    norm_num
  have hc : calorieCompliance [mealOf 203 0] 1400 = 8162774324609023 / 562949953421312 := by
    rw [(compliance_single 203 0 1400 (by norm_num)).1, fieldOrZero_some 203 (by norm_num),
      fl64_203, h1, h2]
    norm_num
  refine ⟨hc, by norm_num, by norm_num, ?_, ?_⟩
  · rw [hc]
    unfold mathRound
    norm_num
  · unfold mathRound
    norm_num

/-- C11, amended. On the dashboard, for food logs of today whose calorie and protein fields
are not negative (an absent field counting 0) and a target `t > 0`, the calorie compliance
is `min x 100` where `x` is the binary64 value of `totalCalories / t * 100`: the total is
the running binary64 sum of the fields, which is the exact sum up to one rounding for each
log, and `x` is the exact percentage up to two more roundings (`WithinRoundings k a b`
says that `a` lies between `b * (1 - 2 ^ (-53)) ^ k` and `b * (1 + 2 ^ (-53)) ^ k`);
likewise the protein compliance. With a target `t ≤ 0`, so with `t = 0`, both are 0. Both
lie in `[0, 100]`; with no food log and target 1200 both are 0. -/
theorem dashboard_compliance (logs : List FoodLog) (t : ℚ)
    (hlogs : ∀ l ∈ logs, 0 ≤ fieldOrZero l.calories ∧ 0 ≤ fieldOrZero l.protein) :
    (0 < t →
      calorieCompliance logs t =
        min (fl64 (fl64 ((todayNutrition logs).calories / t) * 100)) 100 ∧
      WithinRoundings logs.length (todayNutrition logs).calories
        (logs.map (fun l => fieldOrZero l.calories)).sum ∧
      WithinRoundings (logs.length + 2)
        (fl64 (fl64 ((todayNutrition logs).calories / t) * 100))
        ((logs.map (fun l => fieldOrZero l.calories)).sum / t * 100) ∧
      proteinCompliance logs t =
        min (fl64 (fl64 ((todayNutrition logs).protein / t) * 100)) 100 ∧
      WithinRoundings logs.length (todayNutrition logs).protein
        (logs.map (fun l => fieldOrZero l.protein)).sum ∧
      WithinRoundings (logs.length + 2)
        (fl64 (fl64 ((todayNutrition logs).protein / t) * 100))
        ((logs.map (fun l => fieldOrZero l.protein)).sum / t * 100)) ∧
    (t ≤ 0 → calorieCompliance logs t = 0 ∧ proteinCompliance logs t = 0) ∧
    (0 ≤ calorieCompliance logs t ∧ calorieCompliance logs t ≤ 100) ∧
    (0 ≤ proteinCompliance logs t ∧ proteinCompliance logs t ≤ 100) ∧
    calorieCompliance [] 1200 = 0 ∧ proteinCompliance [] 1200 = 0 := by
  have hcn : ∀ x ∈ logs.map (fun l => fieldOrZero l.calories), 0 ≤ x := by
    intro x hx
    obtain ⟨l, hl, rfl⟩ := List.mem_map.mp hx
    exact (hlogs l hl).1
  have hpn : ∀ x ∈ logs.map (fun l => fieldOrZero l.protein), 0 ≤ x := by
    intro x hx
    obtain ⟨l, hl, rfl⟩ := List.mem_map.mp hx
    exact (hlogs l hl).2
  have hc : 0 ≤ (logs.map (fun l => fieldOrZero l.calories)).sum := List.sum_nonneg hcn
  have hp : 0 ≤ (logs.map (fun l => fieldOrZero l.protein)).sum := List.sum_nonneg hpn
  have hwc : WithinRoundings logs.length (todayNutrition logs).calories
      (logs.map (fun l => fieldOrZero l.calories)).sum := by
    have h := running_sum_within _ hcn
    rw [List.length_map] at h
    rw [todayNutrition_calories]
    exact h
  have hwp : WithinRoundings logs.length (todayNutrition logs).protein
      (logs.map (fun l => fieldOrZero l.protein)).sum := by
    have h := running_sum_within _ hpn
    rw [List.length_map] at h
    rw [todayNutrition_protein]
    exact h
  refine ⟨?_, ?_, ?_, ?_, ?_, ?_⟩
  · intro hpos
    refine ⟨?_, hwc, percentage_within _ _ _ t hpos hc hwc, ?_, hwp,
      percentage_within _ _ _ t hpos hp hwp⟩
    · unfold calorieCompliance
      rw [if_pos hpos]
    · unfold proteinCompliance
      rw [if_pos hpos]
  · intro h0
    unfold calorieCompliance proteinCompliance
    rw [if_neg (not_lt.mpr h0), if_neg (not_lt.mpr h0)]
    exact ⟨rfl, rfl⟩
  · unfold calorieCompliance
    split_ifs with hpos
    · exact clamped_within_bounds _ _ _ (by positivity)
        (percentage_within _ _ _ t hpos hc hwc)
    · exact ⟨le_refl 0, by norm_num⟩
  · unfold proteinCompliance
    split_ifs with hpos
    · exact clamped_within_bounds _ _ _ (by positivity)
        (percentage_within _ _ _ t hpos hp hwp)
    · exact ⟨le_refl 0, by norm_num⟩
  · unfold calorieCompliance todayNutrition
    rw [if_pos (by norm_num)]
    simp only [List.foldl_nil]
    rw [zero_div, fl64_zero, zero_mul, fl64_zero]
    norm_num
  · unfold proteinCompliance todayNutrition
    rw [if_pos (by norm_num)]
    simp only [List.foldl_nil]
    rw [zero_div, fl64_zero, zero_mul, fl64_zero]
    norm_num

/-- Witness of C11 (amended): a breakfast of 300 kcal and 10 g and a snack without figures
against a target of 1200 give a calorie compliance of 25, every binary64 step being
exact; against a target of 0 both compliance values are 0. -/
theorem dashboard_compliance_witness :
    calorieCompliance [sampleBreakfast, sampleSnack] 1200 = 25 ∧
    (0 ≤ calorieCompliance [sampleBreakfast, sampleSnack] 1200 ∧
      calorieCompliance [sampleBreakfast, sampleSnack] 1200 ≤ 100) ∧
    calorieCompliance [sampleBreakfast, sampleSnack] 0 = 0 ∧
    proteinCompliance [sampleBreakfast, sampleSnack] 0 = 0 := by
  have hlogs : ∀ l ∈ [sampleBreakfast, sampleSnack],
      0 ≤ fieldOrZero l.calories ∧ 0 ≤ fieldOrZero l.protein := by
    intro l hl
    simp only [List.mem_cons, List.mem_singleton, List.not_mem_nil, or_false] at hl
    rcases hl with rfl | rfl <;> simp [fieldOrZero, sampleBreakfast, sampleSnack]
  have h := dashboard_compliance [sampleBreakfast, sampleSnack] 1200 hlogs
  have h0 := (dashboard_compliance [sampleBreakfast, sampleSnack] 0 hlogs).2.1 le_rfl
  have e300 : fl64 300 = 300 := by simpa using fl64_natCast 300 (by norm_num)
  have e25 : fl64 25 = 25 := by simpa using fl64_natCast 25 (by norm_num)
  have e14 : fl64 (1 / 4) = 1 / 4 := by simpa using fl64_dyadic 1 2 (by norm_num)
  refine ⟨?_, h.2.2.1, h0.1, h0.2⟩
  have hb : fieldOrZero sampleBreakfast.calories = 300 := by
    simp [fieldOrZero, sampleBreakfast]
  have hs : fieldOrZero sampleSnack.calories = 0 := by
    simp [fieldOrZero, sampleSnack]
  have hsum : ∀ l1 l2 : FoodLog,
      ([l1, l2].map (fun l => fieldOrZero l.calories)).foldl (fun a x => fl64 (a + x)) 0 =
        fl64 (fl64 (fieldOrZero l1.calories) + fieldOrZero l2.calories) := by
    intro l1 l2
    simp only [List.map_cons, List.map_nil, List.foldl_cons, List.foldl_nil, zero_add]
  rw [(h.1 (by norm_num)).1, todayNutrition_calories, hsum, hb, hs, e300, add_zero, e300,
    show (300 : ℚ) / 1200 = 1 / 4 by norm_num, e14,
    show (1 / 4 : ℚ) * 100 = 25 by norm_num, e25]
  norm_num

/-- With a target other than zero the per-day value is the finite clamped ratio. -/
theorem dayCompliance_of_ne_zero (a t : ℚ) (ht : t ≠ 0) :
    dayCompliance a t = .fin (min (a / t * 100) 100) := by
  simp [dayCompliance, JSNumber.div, JSNumber.mul, JSNumber.min, ht]

/-- With a target of zero the per-day value is `NaN` for a zero intake and 100 for a
positive intake. -/
theorem dayCompliance_zero_target (a : ℚ) :
    dayCompliance 0 0 = .nan ∧ (0 < a → dayCompliance a 0 = .fin 100) := by
  refine ⟨by simp [dayCompliance, JSNumber.div, JSNumber.mul, JSNumber.min], fun ha => ?_⟩
  have h0 : a ≠ 0 := ne_of_gt ha
  simp [dayCompliance, JSNumber.div, JSNumber.mul, JSNumber.min, h0, ha]

/-- The loop that fills the three series, started from any accumulator. -/
theorem complianceSeries_foldl (entries : List (ℤ × DayData)) (tc tp : ℚ)
    (acc : ComplianceSeries) :
    entries.foldl
      (fun compliance entry =>
        ({ calorie := compliance.calorie ++
             [{ date := entry.1, value := dayCompliance entry.2.calories tc }]
           protein := compliance.protein ++
             [{ date := entry.1, value := dayCompliance entry.2.protein tp }]
           mealFrequency := compliance.mealFrequency ++
             [{ date := entry.1, value := dayCompliance entry.2.mealCount 4 }] } :
          ComplianceSeries))
      acc =
    { calorie := acc.calorie ++
        entries.map (fun e => { date := e.1, value := dayCompliance e.2.calories tc })
      protein := acc.protein ++
        entries.map (fun e => { date := e.1, value := dayCompliance e.2.protein tp })
      mealFrequency := acc.mealFrequency ++
        entries.map (fun e => { date := e.1, value := dayCompliance e.2.mealCount 4 }) } := by
  induction entries generalizing acc with
  | nil => simp
  | cons e es ih =>
    rw [List.foldl_cons, ih]
    simp only [List.map_cons, List.append_assoc, List.singleton_append]

/-- The three series hold one item per entry of `dailyData`, in the order of the entries. -/
theorem complianceSeries_eq (logs : List FoodLog) (tc tp : ℚ) :
    complianceSeries logs tc tp =
      { calorie := (dailyData logs).map
          (fun e => { date := e.1, value := dayCompliance e.2.calories tc })
        protein := (dailyData logs).map
          (fun e => { date := e.1, value := dayCompliance e.2.protein tp })
        mealFrequency := (dailyData logs).map
          (fun e => { date := e.1, value := dayCompliance e.2.mealCount 4 }) } := by
  unfold complianceSeries
  rw [complianceSeries_foldl]
  simp

/-- The average of a series of finite values is their arithmetic mean, and 0 for the empty
series. -/
theorem averageOfSeries_fin (items : List ComplianceItem) (qs : List ℚ)
    (h : items.map (fun i => i.value) = qs.map JSNumber.fin) :
    averageOfSeries items = .fin (if qs = [] then 0 else qs.sum / qs.length) := by
  have hlen : items.length = qs.length := by
    have := congrArg List.length h
    simpa using this
  have hsum : ∀ (its : List ComplianceItem) (rs : List ℚ) (a : ℚ),
      its.map (fun i => i.value) = rs.map JSNumber.fin →
      its.foldl (fun sum item => JSNumber.add sum item.value) (.fin a) =
        .fin (a + rs.sum) := by
    intro its
    induction its with
    | nil =>
      intro rs a hr
      cases rs with
      | nil => simp
      | cons r rs => simp at hr
    | cons i its ih =>
      intro rs a hr
      cases rs with
      | nil => simp at hr
      | cons r rs =>
        simp only [List.map_cons, List.cons.injEq] at hr
        rw [List.foldl_cons, hr.1, List.sum_cons, ← add_assoc]
        exact ih rs (a + r) hr.2
  unfold averageOfSeries
  rw [hsum items qs 0 h, hlen, zero_add]
  by_cases hq : qs = []
  · subst hq
    simp [JSNumber.div, JSNumber.orZero]
  · have hl : (qs.length : ℚ) ≠ 0 := by
      have : qs.length ≠ 0 := by
        intro h0
        exact hq (List.length_eq_zero.mp h0)
      exact_mod_cast this
    simp only [JSNumber.div, hl, if_false, JSNumber.orZero, if_neg hq]
    split_ifs with h0
    · rw [h0]
    · rfl

/-- One step of the loop on an object whose keys are distinct: the entry of the day is
updated in place, or a new entry is appended. -/
theorem addToDailyData_eq (acc : List (ℤ × DayData)) (l : FoodLog)
    (hnd : (acc.map Prod.fst).Nodup) :
    addToDailyData acc l =
      if isoDate l.logDate ∈ acc.map Prod.fst then
        acc.map (fun e => if e.1 = isoDate l.logDate then (e.1, e.2.addLog l) else e)
      else
        acc ++ [(isoDate l.logDate,
          DayData.addLog { calories := 0, protein := 0, mealCount := 0 } l)] := by
  induction acc with
  | nil => simp [addToDailyData]
  | cons e rest ih =>
    obtain ⟨d, data⟩ := e
    simp only [List.map_cons, List.nodup_cons] at hnd
    unfold addToDailyData
    by_cases hd : d = isoDate l.logDate
    · have hrest : rest.map
          (fun e => if e.1 = isoDate l.logDate then (e.1, e.2.addLog l) else e) = rest := by
        refine (List.map_congr_left ?_).trans (List.map_id rest)
        intro e he
        have hne : e.1 ≠ isoDate l.logDate := by
          intro h
          apply hnd.1
          rw [hd, ← h]
          exact List.mem_map_of_mem Prod.fst he
        simp [hne]
      simp [hd, hrest]
    · have hne : ¬ isoDate l.logDate = d := fun h => hd h.symm
      rw [if_neg hd, ih hnd.2]
      simp only [List.map_cons, List.mem_cons, hne, false_or, hd, if_false]
      split_ifs <;> simp

/-- The totals of a day after one more log: the log is added to its own day only. -/
theorem dayTotalsSpec_append (logs : List FoodLog) (l : FoodLog) (d : ℤ) :
    dayTotalsSpec (logs ++ [l]) d =
      if isoDate l.logDate = d then (dayTotalsSpec logs d).addLog l
      else dayTotalsSpec logs d := by
  unfold dayTotalsSpec DayData.addLog
  by_cases h : isoDate l.logDate = d
  · simp [List.filter_append, List.filter_cons, h]
  · simp [List.filter_append, List.filter_cons, h]

/-- The totals of a day without logs are zero. -/
theorem dayTotalsSpec_of_no_log (logs : List FoodLog) (d : ℤ)
    (h : ∀ l ∈ logs, isoDate l.logDate ≠ d) :
    dayTotalsSpec logs d = { calories := 0, protein := 0, mealCount := 0 } := by
  have hf : logs.filter (fun l => isoDate l.logDate = d) = [] := by
    rw [List.filter_eq_nil_iff]
    intro l hl
    simpa using h l hl
  unfold dayTotalsSpec
  simp [hf]

/-- One step of the loop keeps the invariant. -/
theorem dailyDataInv_step (acc : List (ℤ × DayData)) (logs : List FoodLog) (l : FoodLog)
    (h : DailyDataInv acc logs) : DailyDataInv (addToDailyData acc l) (logs ++ [l]) := by
  obtain ⟨hnd, hkeys, hent⟩ := h
  rw [addToDailyData_eq acc l hnd]
  by_cases hk : isoDate l.logDate ∈ acc.map Prod.fst
  · rw [if_pos hk]
    have hfst : (acc.map
        (fun e => if e.1 = isoDate l.logDate then (e.1, e.2.addLog l) else e)).map Prod.fst =
        acc.map Prod.fst := by
      rw [List.map_map]
      apply List.map_congr_left
      intro e _
      simp only [Function.comp]
      split_ifs <;> rfl
    refine ⟨by rw [hfst]; exact hnd, ?_, ?_⟩
    · intro d
      rw [hfst, hkeys d]
      constructor
      · rintro ⟨x, hx, hd⟩
        exact ⟨x, List.mem_append_left _ hx, hd⟩
      · rintro ⟨x, hx, hd⟩
        rcases List.mem_append.mp hx with hx | hx
        · exact ⟨x, hx, hd⟩
        · rw [List.mem_singleton] at hx
          subst hx
          rw [← hd]
          exact (hkeys _).mp hk
    · intro e he
      obtain ⟨e0, he0, rfl⟩ := List.mem_map.mp he
      rw [dayTotalsSpec_append]
      by_cases hd : e0.1 = isoDate l.logDate
      · simp only [hd, if_true]
        rw [hent e0 he0, hd]
      · have hd2 : ¬ isoDate l.logDate = e0.1 := fun h => hd h.symm
        simp only [hd, hd2, if_false]
        exact hent e0 he0
  · rw [if_neg hk]
    have hno : ∀ x ∈ logs, isoDate x.logDate ≠ isoDate l.logDate := by
      intro x hx hd
      exact hk ((hkeys _).mpr ⟨x, hx, hd⟩)
    refine ⟨?_, ?_, ?_⟩
    · rw [List.map_append, List.map_singleton]
      apply List.Nodup.append hnd (List.nodup_singleton _)
      intro d hd1 hd2
      rw [List.mem_singleton] at hd2
      have hd3 : d = isoDate l.logDate := hd2
      rw [hd3] at hd1
      exact hk hd1
    · intro d
      rw [List.map_append, List.map_singleton, List.mem_append, List.mem_singleton, hkeys d]
      constructor
      · rintro (⟨x, hx, hd⟩ | hd)
        · exact ⟨x, List.mem_append_left _ hx, hd⟩
        · exact ⟨l, List.mem_append_right _ (List.mem_singleton_self l), hd.symm⟩
      · rintro ⟨x, hx, hd⟩
        rcases List.mem_append.mp hx with hx | hx
        · exact Or.inl ⟨x, hx, hd⟩
        · rw [List.mem_singleton] at hx
          subst hx
          exact Or.inr hd.symm
    · intro e he
      rw [dayTotalsSpec_append]
      rcases List.mem_append.mp he with he | he
      · have hd : ¬ isoDate l.logDate = e.1 := by
          intro hd
          exact hk (hd ▸ List.mem_map_of_mem Prod.fst he)
        rw [if_neg hd]
        exact hent e he
      · rw [List.mem_singleton] at he
        subst he
        simp only [if_true]
        rw [dayTotalsSpec_of_no_log logs _ hno]

/-- The loop keeps the invariant from any state that has it. -/
theorem dailyDataInv_foldl (logs done : List FoodLog) (acc : List (ℤ × DayData))
    (h : DailyDataInv acc done) :
    DailyDataInv (logs.foldl addToDailyData acc) (done ++ logs) := by
  induction logs generalizing acc done with
  | nil => simpa using h
  | cons l ls ih =>
    rw [List.foldl_cons]
    have := ih (done ++ [l]) (addToDailyData acc l) (dailyDataInv_step acc done l h)
    simpa using this

/-- The object `dailyData` has one entry for each UTC day that has a log, and the entry
holds the totals of the day. -/
theorem dailyData_spec (logs : List FoodLog) :
    ((dailyData logs).map Prod.fst).Nodup ∧
    (∀ d, d ∈ (dailyData logs).map Prod.fst ↔ ∃ l ∈ logs, isoDate l.logDate = d) ∧
    (∀ e ∈ dailyData logs, e.2 = dayTotalsSpec logs e.1) := by
  have h0 : DailyDataInv [] [] := by
    refine ⟨List.nodup_nil, ?_, ?_⟩
    · intro d
      simp
    · intro e he
      cases he
  have := dailyDataInv_foldl logs [] [] h0
  simpa [dailyData, DailyDataInv] using this

/-- The totals of a day are not negative when no field of a log is. -/
theorem dayTotalsSpec_nonneg (logs : List FoodLog) (d : ℤ)
    (hlogs : ∀ l ∈ logs, 0 ≤ fieldOrZero l.calories ∧ 0 ≤ fieldOrZero l.protein) :
    0 ≤ (dayTotalsSpec logs d).calories ∧ 0 ≤ (dayTotalsSpec logs d).protein := by
  unfold dayTotalsSpec
  constructor <;>
    (apply List.sum_nonneg
     intro x hx
     obtain ⟨l, hl, rfl⟩ := List.mem_map.mp hx
     first
     | exact (hlogs l (List.mem_of_mem_filter hl)).1
     | exact (hlogs l (List.mem_of_mem_filter hl)).2)

/-- For a weight of at least 0.5 kg the calorie target is at least 49 and the protein
target at least 1, at every age and for every gender. -/
theorem needs_at_least (a w : ℚ) (g : String) (hw : 1 / 2 ≤ w) :
    49 ≤ calculateCalorieNeeds a g w ∧ 1 ≤ calculateProteinNeeds a w := by
  have hr : ∀ (x : ℚ) (n : ℤ), (n : ℚ) ≤ x + 1 / 2 →
      (n : ℚ) ≤ (mathRound x : ℚ) := by
    intro x n hx
    have : n ≤ mathRound x := by
      unfold mathRound
      rw [Int.le_floor]
      exact hx
    exact_mod_cast this
  have h108 : (49 : ℚ) ≤ (mathRound (108 * w) : ℚ) := by
    have := hr (108 * w) 49 (by push_cast; linarith)
    exact_mod_cast this
  have h98 : (49 : ℚ) ≤ (mathRound (98 * w) : ℚ) := by
    have := hr (98 * w) 49 (by push_cast; linarith)
    exact_mod_cast this
  have h22 : (1 : ℚ) ≤ (mathRound (22 / 10 * w) : ℚ) := by
    have := hr (22 / 10 * w) 1 (by push_cast; linarith)
    exact_mod_cast this
  have h16 : (1 : ℚ) ≤ (mathRound (16 / 10 * w) : ℚ) := by
    have := hr (16 / 10 * w) 1 (by push_cast; linarith)
    exact_mod_cast this
  constructor
  · unfold calculateCalorieNeeds
    by_cases h1 : a < 6
    · rw [if_pos h1]
      exact h108
    · rw [if_neg h1]
      by_cases h2 : a < 12
      · rw [if_pos h2]
        exact h98
      · rw [if_neg h2]
        split_ifs <;> norm_num
  · unfold calculateProteinNeeds
    by_cases h1 : a < 6
    · rw [if_pos h1]
      exact h22
    · rw [if_neg h1]
      by_cases h2 : a < 12
      · rw [if_pos h2]
        exact h16
      · rw [if_neg h2]
        split_ifs <;> norm_num

/-- With positive targets and food logs without a negative field every per-day value of
the three series is a finite number in `[0, 100]`. -/
theorem complianceSeries_bounds (logs : List FoodLog) (tc tp : ℚ)
    (hlogs : ∀ l ∈ logs, 0 ≤ fieldOrZero l.calories ∧ 0 ≤ fieldOrZero l.protein)
    (htc : 0 < tc) (htp : 0 < tp) :
    (∀ item ∈ (complianceSeries logs tc tp).calorie,
      ∃ v : ℚ, item.value = .fin v ∧ 0 ≤ v ∧ v ≤ 100) ∧
    (∀ item ∈ (complianceSeries logs tc tp).protein,
      ∃ v : ℚ, item.value = .fin v ∧ 0 ≤ v ∧ v ≤ 100) ∧
    (∀ item ∈ (complianceSeries logs tc tp).mealFrequency,
      ∃ v : ℚ, item.value = .fin v ∧ 0 ≤ v ∧ v ≤ 100) := by
  have hclamp : ∀ x t : ℚ, 0 ≤ x → 0 < t →
      0 ≤ min (x / t * 100) 100 ∧ min (x / t * 100) 100 ≤ 100 := by
    intro x t hx ht
    exact ⟨le_min (by positivity) (by norm_num), min_le_right _ _⟩
  rw [complianceSeries_eq]
  refine ⟨?_, ?_, ?_⟩
  · intro item hitem
    obtain ⟨e, he, rfl⟩ := List.mem_map.mp hitem
    have hnn : 0 ≤ e.2.calories := by
      rw [(dailyData_spec logs).2.2 e he]
      exact (dayTotalsSpec_nonneg logs e.1 hlogs).1
    exact ⟨_, dayCompliance_of_ne_zero _ _ (ne_of_gt htc), hclamp _ _ hnn htc⟩
  · intro item hitem
    obtain ⟨e, he, rfl⟩ := List.mem_map.mp hitem
    have hnn : 0 ≤ e.2.protein := by
      rw [(dailyData_spec logs).2.2 e he]
      exact (dayTotalsSpec_nonneg logs e.1 hlogs).2
    exact ⟨_, dayCompliance_of_ne_zero _ _ (ne_of_gt htp), hclamp _ _ hnn htp⟩
  · intro item hitem
    obtain ⟨e, he, rfl⟩ := List.mem_map.mp hitem
    have h4 : (4 : ℚ) ≠ 0 := by norm_num
    exact ⟨_, dayCompliance_of_ne_zero _ 4 h4,
      hclamp _ _ (Nat.cast_nonneg _) (by norm_num)⟩

/-- C12. In the N-day nutrition-compliance report of a child whose latest growth record has
a weight of at least 0.5 kg, the least weight that validation lets into a stored record,
and for food logs without a negative calorie or protein field: the handler answers with a
report; its calorie target is at least 49 and its protein target at least 1, and the meal
target is 4, so no target of the report is 0; each series has one item for each day that
has a log; and every per-day calorie, protein and meal-frequency value is a finite number
in `[0, 100]`. -/
theorem report_day_compliance_bounds (birthDate today : ℤ) (gender : String)
    (latestGrowth : GrowthRecord) (logs : List FoodLog)
    (hw : 1 / 2 ≤ latestGrowth.weight)
    (hlogs : ∀ l ∈ logs, 0 ≤ fieldOrZero l.calories ∧ 0 ≤ fieldOrZero l.protein) :
    ∃ report : ComplianceReport,
      nutritionComplianceHandler birthDate today gender (some latestGrowth) logs =
        .ok report ∧
      49 ≤ report.targetCalories ∧ 1 ≤ report.targetProtein ∧ report.targetMeals = 4 ∧
      report.compliance.calorie.map (fun i => i.date) = (dailyData logs).map Prod.fst ∧
      report.compliance.protein.map (fun i => i.date) = (dailyData logs).map Prod.fst ∧
      report.compliance.mealFrequency.map (fun i => i.date) =
        (dailyData logs).map Prod.fst ∧
      ((dailyData logs).map Prod.fst).Nodup ∧
      (∀ d, d ∈ (dailyData logs).map Prod.fst ↔ ∃ l ∈ logs, isoDate l.logDate = d) ∧
      (∀ item ∈ report.compliance.calorie,
        ∃ v : ℚ, item.value = .fin v ∧ 0 ≤ v ∧ v ≤ 100) ∧
      (∀ item ∈ report.compliance.protein,
        ∃ v : ℚ, item.value = .fin v ∧ 0 ≤ v ∧ v ≤ 100) ∧
      (∀ item ∈ report.compliance.mealFrequency,
        ∃ v : ℚ, item.value = .fin v ∧ 0 ≤ v ∧ v ≤ 100) := by
  obtain ⟨hc, hp⟩ := needs_at_least (calculateAge birthDate today) latestGrowth.weight gender hw
  obtain ⟨b1, b2, b3⟩ := complianceSeries_bounds logs
    (calculateCalorieNeeds (calculateAge birthDate today) gender latestGrowth.weight)
    (calculateProteinNeeds (calculateAge birthDate today) latestGrowth.weight) hlogs
    (by linarith) (by linarith)
  obtain ⟨d1, d2, _⟩ := dailyData_spec logs
  refine ⟨_, rfl, hc, hp, rfl, ?_, ?_, ?_, d1, d2, b1, b2, b3⟩
  · show ((complianceSeries logs _ _).calorie).map (fun i => i.date) = _
    rw [complianceSeries_eq]
    simp only [List.map_map]
    rfl
  · show ((complianceSeries logs _ _).protein).map (fun i => i.date) = _
    rw [complianceSeries_eq]
    simp only [List.map_map]
    rfl
  · show ((complianceSeries logs _ _).mealFrequency).map (fun i => i.date) = _
    rw [complianceSeries_eq]
    simp only [List.map_map]
    rfl

/-- Witness of C12: for a child of 30 months whose latest record is the stored record of
12 kg, a breakfast of 300 kcal and 10 g gives the targets 1250 kcal and 25 g and the
per-day values 24, 40 and 25. -/
theorem report_day_compliance_bounds_witness :
    nutritionComplianceHandler 0 (dateUTC 1972 7 1 0) "male" (some storedRecord18)
        [sampleBreakfast] =
      .ok
        { targetCalories := 1250
          targetProtein := 25
          targetMeals := 4
          compliance :=
            { calorie := [{ date := 0, value := .fin 24 }]
              protein := [{ date := 0, value := .fin 40 }]
              mealFrequency := [{ date := 0, value := .fin 25 }] }
          averageCompliance :=
            { calorie := .fin 24, protein := .fin 40, mealFrequency := .fin 25 }
          daysTracked := 1
          totalLogs := 1 } ∧
    (∃ report : ComplianceReport,
      nutritionComplianceHandler 0 (dateUTC 1972 7 1 0) "male" (some storedRecord18)
          [sampleBreakfast] = .ok report ∧
      49 ≤ report.targetCalories ∧ 1 ≤ report.targetProtein) := by
  obtain ⟨report, h1, h2, h3, _⟩ :=
    report_day_compliance_bounds 0 (dateUTC 1972 7 1 0) "male" storedRecord18
      [sampleBreakfast] (by norm_num [storedRecord18]) (by
        intro l hl
        rw [List.mem_singleton] at hl
        subst hl
        simp [fieldOrZero, sampleBreakfast])
  refine ⟨?_, report, h1, h2, h3⟩
  have hage : calculateAge 0 (dateUTC 1972 7 1 0) = 29 := by
    unfold calculateAge mathFloor msPerMonth
    have hd : dateUTC 1972 7 1 0 = 78796800000 := by decide
    rw [hd]
    norm_num
  have hb : dailyData [sampleBreakfast] =
      [(0, { calories := 300, protein := 10, mealCount := 1 })] := by
    simp [dailyData, addToDailyData, DayData.addLog, isoDate, msPerDay, fieldOrZero,
      sampleBreakfast]
  unfold nutritionComplianceHandler
  simp only [hage]
  have hcal : calculateCalorieNeeds ((29 : ℤ) : ℚ) "male" storedRecord18.weight = 1250 := by
    unfold calculateCalorieNeeds
    norm_num
  have hprot : calculateProteinNeeds ((29 : ℤ) : ℚ) storedRecord18.weight = 25 := by
    unfold calculateProteinNeeds
    norm_num
  rw [hcal, hprot]
  unfold averageCompliance
  rw [complianceSeries_eq, hb]
  simp only [List.map_cons, List.map_nil, List.length_cons, List.length_nil]
  rw [dayCompliance_of_ne_zero _ _ (by norm_num), dayCompliance_of_ne_zero _ _ (by norm_num),
    dayCompliance_of_ne_zero _ _ (by norm_num)]
  norm_num [averageOfSeries, JSNumber.add, JSNumber.div, JSNumber.orZero]

/-- The average of the series of one metric over the entries of `dailyData`. -/
theorem averageOfSeries_dayCompliance (entries : List (ℤ × DayData)) (f : DayData → ℚ)
    (t : ℚ) (ht : t ≠ 0) :
    averageOfSeries
        (entries.map (fun e => { date := e.1, value := dayCompliance (f e.2) t })) =
      .fin (arithmeticMean (entries.map (fun e => min (f e.2 / t * 100) 100))) := by
  unfold arithmeticMean
  apply averageOfSeries_fin
  rw [List.map_map, List.map_map]
  apply List.map_congr_left
  intro e _
  simp only [Function.comp]
  exact dayCompliance_of_ne_zero _ _ ht

/-- C13. In the N-day report with positive targets each average is the arithmetic mean,
over the entries of the per-day series, of the clamped compliance
`min (dayTotal / target * 100) 100` of the day, and 0 when there is no day; the series has
one entry for each day that has a log, holding the totals of the logs of that day. A day at
200 % and a day at 50 % of the calorie target average to 75, while the clamped compliance
of the summed intake would be 100. -/
theorem average_compliance_is_mean (logs : List FoodLog) (tc tp : ℚ)
    (htc : 0 < tc) (htp : 0 < tp) :
    averageCompliance logs tc tp =
      { calorie := .fin (arithmeticMean
          ((dailyData logs).map (fun e => min (e.2.calories / tc * 100) 100)))
        protein := .fin (arithmeticMean
          ((dailyData logs).map (fun e => min (e.2.protein / tp * 100) 100)))
        mealFrequency := .fin (arithmeticMean
          ((dailyData logs).map (fun e => min ((e.2.mealCount : ℚ) / 4 * 100) 100))) } ∧
    ((dailyData logs).map Prod.fst).Nodup ∧
    (∀ d, d ∈ (dailyData logs).map Prod.fst ↔ ∃ l ∈ logs, isoDate l.logDate = d) ∧
    (∀ e ∈ dailyData logs, e.2 = dayTotalsSpec logs e.1) ∧
    (dailyData logs = [] →
      averageCompliance logs tc tp =
        { calorie := .fin 0, protein := .fin 0, mealFrequency := .fin 0 }) ∧
    (averageCompliance [sampleFeast, sampleFast] 1200 tp).calorie = .fin 75 ∧
    min (((2400 : ℚ) + 600) / (1200 + 1200) * 100) 100 = 100 := by
  have h4 : (4 : ℚ) ≠ 0 := by norm_num
  have havg : ∀ (ls : List FoodLog) (c p : ℚ), c ≠ 0 → p ≠ 0 →
      averageCompliance ls c p =
        { calorie := .fin (arithmeticMean
            ((dailyData ls).map (fun e => min (e.2.calories / c * 100) 100)))
          protein := .fin (arithmeticMean
            ((dailyData ls).map (fun e => min (e.2.protein / p * 100) 100)))
          mealFrequency := .fin (arithmeticMean
            ((dailyData ls).map (fun e => min ((e.2.mealCount : ℚ) / 4 * 100) 100))) } := by
    intro ls c p hc hp
    unfold averageCompliance
    rw [complianceSeries_eq]
    simp only []
    rw [averageOfSeries_dayCompliance _ (fun d => d.calories) c hc,
      averageOfSeries_dayCompliance _ (fun d => d.protein) p hp,
      averageOfSeries_dayCompliance _ (fun d => (d.mealCount : ℚ)) 4 h4]
  obtain ⟨h1, h2, h3⟩ := dailyData_spec logs
  refine ⟨havg logs tc tp (ne_of_gt htc) (ne_of_gt htp), h1, h2, h3, ?_, ?_, by norm_num⟩
  · intro hnil
    rw [havg logs tc tp (ne_of_gt htc) (ne_of_gt htp), hnil]
    simp [arithmeticMean]
  · have hd : dailyData [sampleFeast, sampleFast] =
        [(0, { calories := 2400, protein := 0, mealCount := 1 }),
         (1, { calories := 600, protein := 0, mealCount := 1 })] := by
      simp [dailyData, addToDailyData, DayData.addLog, isoDate, msPerDay, fieldOrZero,
        sampleFeast, sampleFast]
    rw [havg _ 1200 tp (by norm_num) (ne_of_gt htp), hd]
    simp only [List.map_cons, List.map_nil, arithmeticMean, reduceCtorEq, if_false]
    norm_num

/-- Witness of C13: the day of 2400 kcal and the day of 600 kcal against a target of
1200 kcal. -/
theorem average_compliance_is_mean_witness :
    ((0 : ℚ) < 1200 ∧ (0 : ℚ) < 20) ∧
    (averageCompliance [sampleFeast, sampleFast] 1200 20).calorie = .fin 75 ∧
    (averageCompliance [sampleFeast, sampleFast] 1200 20).protein = .fin 0 ∧
    (averageCompliance [sampleFeast, sampleFast] 1200 20).mealFrequency = .fin 25 := by
  have ht := average_compliance_is_mean [sampleFeast, sampleFast] 1200 20
    (by norm_num) (by norm_num)
  have hd : dailyData [sampleFeast, sampleFast] =
      [(0, { calories := 2400, protein := 0, mealCount := 1 }),
       (1, { calories := 600, protein := 0, mealCount := 1 })] := by
    simp [dailyData, addToDailyData, DayData.addLog, isoDate, msPerDay, fieldOrZero,
      sampleFeast, sampleFast]
  refine ⟨⟨by norm_num, by norm_num⟩, ht.2.2.2.2.2.1, ?_, ?_⟩
  · rw [ht.1, hd]
    simp only [List.map_cons, List.map_nil, arithmeticMean, reduceCtorEq, if_false]
    norm_num
  · rw [ht.1, hd]
    simp only [List.map_cons, List.map_nil, arithmeticMean, reduceCtorEq, if_false]
    norm_num

/-- The binary64 average of two compliance values with sum `s` is at least 80 exactly when
`s` is at least `160 - 2 ^ (-46)`, the midpoint between 160 and the double below it. -/
theorem avgCompliance_ge_80_iff (s : ℚ) :
    80 ≤ fl64 (fl64 s / 2) ↔ 160 - 1 / 2 ^ 46 ≤ s := by
  have eT : fl64 80 = 80 := by simpa using fl64_natCast 80 (by norm_num)
  have elow : fl64 128 = 128 := by simpa using fl64_natCast 128 (by norm_num)
  have emid : fl64 (160 - 1 / 2 ^ 46) = 160 := by
    rw [fl64_eq_of_binade _ 7 5629499534213120 (by norm_num) (by norm_num) (by norm_num)
      (by unfold roundHalfEven; norm_num)]
    norm_num
  have epred : fl64 (((5629499534213119 : ℕ) : ℚ) / 2 ^ 46) =
      ((5629499534213119 : ℕ) : ℚ) / 2 ^ 46 :=
    fl64_dyadic 5629499534213119 46 (by norm_num)
  constructor
  · intro h
    by_contra hlt
    push_neg at hlt
    have hs : fl64 s ≤ ((5629499534213119 : ℕ) : ℚ) / 2 ^ 45 := by
      rcases le_or_lt s 128 with h1 | h1
      · have h2 := fl64_mono s 128 h1
        rw [elow] at h2
        refine le_trans h2 ?_
        norm_num
      · have hulp : (2 : ℚ) ^ ((7 : ℤ) - 52) = 1 / 2 ^ 45 := by norm_num
        have h2 := fl64_le_of_lt_mid s 7 5629499534213120 (by linarith) (by norm_num; linarith)
          (by norm_num; linarith) (by
            rw [hulp]
            norm_num at hlt ⊢
            linarith)
        rw [hulp] at h2
        refine le_trans h2 ?_
        norm_num
    have h3 : fl64 s / 2 ≤ ((5629499534213119 : ℕ) : ℚ) / 2 ^ 46 := by
      rw [pow_succ]
      rw [div_le_iff₀ (by norm_num)]
      refine le_trans hs ?_
      norm_num
    have h4 := fl64_mono _ _ h3
    rw [epred] at h4
    have h5 : ((5629499534213119 : ℕ) : ℚ) / 2 ^ 46 < 80 := by norm_num
    linarith
  · intro h
    have h1 := fl64_mono _ _ h
    rw [emid] at h1
    have h2 : (80 : ℚ) ≤ fl64 s / 2 := by linarith
    have h3 := fl64_mono _ _ h2
    rw [eT] at h3
    exact h3

/-- The binary64 average of two compliance values with sum `s` is at least 60 exactly when
`s` is at least `120 - 2 ^ (-47)`, the midpoint between 120 and the double below it. -/
theorem avgCompliance_ge_60_iff (s : ℚ) :
    60 ≤ fl64 (fl64 s / 2) ↔ 120 - 1 / 2 ^ 47 ≤ s := by
  have eT : fl64 60 = 60 := by simpa using fl64_natCast 60 (by norm_num)
  have elow : fl64 64 = 64 := by simpa using fl64_natCast 64 (by norm_num)
  have emid : fl64 (120 - 1 / 2 ^ 47) = 120 := by
    rw [fl64_eq_of_binade _ 6 8444249301319680 (by norm_num) (by norm_num) (by norm_num)
      (by unfold roundHalfEven; norm_num)]
    norm_num
  have epred : fl64 (((8444249301319679 : ℕ) : ℚ) / 2 ^ 47) =
      ((8444249301319679 : ℕ) : ℚ) / 2 ^ 47 :=
    fl64_dyadic 8444249301319679 47 (by norm_num)
  constructor
  · intro h
    by_contra hlt
    push_neg at hlt
    have hs : fl64 s ≤ ((8444249301319679 : ℕ) : ℚ) / 2 ^ 46 := by
      rcases le_or_lt s 64 with h1 | h1
      · have h2 := fl64_mono s 64 h1
        rw [elow] at h2
        refine le_trans h2 ?_
        norm_num
      · have hulp : (2 : ℚ) ^ ((6 : ℤ) - 52) = 1 / 2 ^ 46 := by norm_num
        have h2 := fl64_le_of_lt_mid s 6 8444249301319680 (by linarith) (by norm_num; linarith)
          (by norm_num; linarith) (by
            rw [hulp]
            norm_num at hlt ⊢
            linarith)
        rw [hulp] at h2
        refine le_trans h2 ?_
        norm_num
    have h3 : fl64 s / 2 ≤ ((8444249301319679 : ℕ) : ℚ) / 2 ^ 47 := by
      rw [pow_succ]
      rw [div_le_iff₀ (by norm_num)]
      refine le_trans hs ?_
      norm_num
    have h4 := fl64_mono _ _ h3
    rw [epred] at h4
    have h5 : ((8444249301319679 : ℕ) : ℚ) / 2 ^ 47 < 60 := by norm_num
    linarith
  · intro h
    have h1 := fl64_mono _ _ h
    rw [emid] at h1
    have h2 : (60 : ℚ) ≤ fl64 s / 2 := by linarith
    have h3 := fl64_mono _ _ h2
    rw [eT] at h3
    exact h3

/-- C14, counterexample. A log of 725 kcal and 31 g against targets of 1250 kcal and 50 g
gives the compliance values `c = 57.99999999999999` and `p = 62`; their exact average is
below 60, so the third rule as claimed does not match, but the binary64 sum is 120 and
`getOverallStatus` answers `good` for a tracking consistency of 60. -/
theorem getOverallStatus_rounded_average :
    calorieCompliance [mealOf 725 31] 1250 = 8162774324609023 / 140737488355328 ∧
    proteinCompliance [mealOf 725 31] 50 = 62 ∧
    ((8162774324609023 / 140737488355328 : ℚ) + 62) / 2 < 60 ∧
    (getOverallStatus (8162774324609023 / 140737488355328) 62 60 (some 0)).status = .good ∧
    (getOverallStatus (8162774324609023 / 140737488355328) 62 60 (some 0)).priority =
      .low := by
  have e725 : fl64 725 = 725 := by simpa using fl64_natCast 725 (by norm_num)
  have e31 : fl64 31 = 31 := by simpa using fl64_natCast 31 (by norm_num)
  have h1 : fl64 (725 / 1250) = 5224175567749775 / 9007199254740992 := by
    rw [fl64_eq_of_binade _ (-1) 5224175567749775 (by norm_num) (by norm_num)
      (by norm_num) (roundHalfEven_eq _ _ (by norm_num) (by norm_num))]
    norm_num
  have h2 :
      fl64 (5224175567749775 / 9007199254740992 * 100) =
        8162774324609023 / 140737488355328 := by
    rw [fl64_eq_of_binade _ 5 8162774324609023 (by norm_num) (by norm_num)
      (by norm_num) (roundHalfEven_eq _ _ (by norm_num) (by norm_num))]
    norm_num
  have h3 : fl64 (31 / 50) = 5584463537939415 / 9007199254740992 := by
    rw [fl64_eq_of_binade _ (-1) 5584463537939415 (by norm_num) (by norm_num)
      (by norm_num) (roundHalfEven_eq _ _ (by norm_num) (by norm_num))]
    norm_num
  have h4 : fl64 (5584463537939415 / 9007199254740992 * 100) = 62 := by
    rw [fl64_eq_of_binade _ 5 8725724278030336 (by norm_num) (by norm_num)
      (by norm_num) (roundHalfEven_eq _ _ (by norm_num) (by norm_num))]
    norm_num
  have h60 :=
    (avgCompliance_ge_60_iff (8162774324609023 / 140737488355328 + 62)).mpr (by norm_num)
  have h80 : ¬ ((80 : ℚ) ≤ fl64 (fl64 (8162774324609023 / 140737488355328 + 62) / 2) ∧
      (80 : ℚ) ≤ 60) := by
    intro h
    linarith [h.2]
  refine ⟨?_, ?_, by norm_num, ?_, ?_⟩
  · rw [(compliance_single 725 31 1250 (by norm_num)).1, fieldOrZero_some 725 (by norm_num),
      e725, h1, h2]
    norm_num
  · rw [(compliance_single 725 31 50 (by norm_num)).2, fieldOrZero_some 31 (by norm_num),
      e31, h3, h4]
    norm_num
  · unfold getOverallStatus
    simp only [gt_iff_lt, ge_iff_le]
    rw [if_neg (by norm_num), if_neg h80, if_pos ⟨h60, le_refl _⟩]
  · unfold getOverallStatus
    simp only [gt_iff_lt, ge_iff_le]
    rw [if_neg (by norm_num), if_neg h80, if_pos ⟨h60, le_refl _⟩]

/-- C14, amended. For numeric inputs `getOverallStatus` returns the first rule that
matches, in this order: `d > 60` gives `needs_attention` with priority `high` whatever `c`,
`p` and `k` are; otherwise an average of at least 80 and `k ≥ 80` give `excellent` with
priority `low`; otherwise an average of at least 60 and `k ≥ 60` give `good` with priority
`low`; otherwise the result is `needs_improvement` with priority `medium`. The average is
the binary64 value of `(c + p) / 2`: it is at least 80 exactly when
`c + p ≥ 160 - 2 ^ (-46)` and at least 60 exactly when `c + p ≥ 120 - 2 ^ (-47)`. With
`d = 61` and `c = p = k = 100` the result is `needs_attention`. -/
theorem getOverallStatus_first_match (c p k d : ℚ) :
    (60 < d →
      (getOverallStatus c p k (some d)).status = .needs_attention ∧
      (getOverallStatus c p k (some d)).priority = .high) ∧
    (d ≤ 60 → 160 - 1 / 2 ^ 46 ≤ c + p ∧ 80 ≤ k →
      (getOverallStatus c p k (some d)).status = .excellent ∧
      (getOverallStatus c p k (some d)).priority = .low) ∧
    (d ≤ 60 → ¬ (160 - 1 / 2 ^ 46 ≤ c + p ∧ 80 ≤ k) →
      120 - 1 / 2 ^ 47 ≤ c + p ∧ 60 ≤ k →
      (getOverallStatus c p k (some d)).status = .good ∧
      (getOverallStatus c p k (some d)).priority = .low) ∧
    (d ≤ 60 → ¬ (160 - 1 / 2 ^ 46 ≤ c + p ∧ 80 ≤ k) →
      ¬ (120 - 1 / 2 ^ 47 ≤ c + p ∧ 60 ≤ k) →
      (getOverallStatus c p k (some d)).status = .needs_improvement ∧
      (getOverallStatus c p k (some d)).priority = .medium) ∧
    (80 ≤ fl64 (fl64 (c + p) / 2) ↔ 160 - 1 / 2 ^ 46 ≤ c + p) ∧
    (60 ≤ fl64 (fl64 (c + p) / 2) ↔ 120 - 1 / 2 ^ 47 ≤ c + p) ∧
    (getOverallStatus 100 100 100 (some 61)).status = .needs_attention ∧
    (getOverallStatus 100 100 100 (some 61)).priority = .high := by
  have i80 := avgCompliance_ge_80_iff (c + p)
  have i60 := avgCompliance_ge_60_iff (c + p)
  refine ⟨?_, ?_, ?_, ?_, i80, i60, ?_, ?_⟩
  · intro hd
    simp [getOverallStatus, hd]
  · intro hd h80
    have h : 80 ≤ fl64 (fl64 (c + p) / 2) ∧ 80 ≤ k := ⟨i80.mpr h80.1, h80.2⟩
    simp only [getOverallStatus, gt_iff_lt, ge_iff_le, if_neg (not_lt.mpr hd), if_pos h,
      and_self]
  · intro hd h80 h60
    have h1 : ¬ (80 ≤ fl64 (fl64 (c + p) / 2) ∧ 80 ≤ k) :=
      fun h => h80 ⟨i80.mp h.1, h.2⟩
    have h2 : 60 ≤ fl64 (fl64 (c + p) / 2) ∧ 60 ≤ k := ⟨i60.mpr h60.1, h60.2⟩
    simp only [getOverallStatus, gt_iff_lt, ge_iff_le, if_neg (not_lt.mpr hd), if_neg h1,
      if_pos h2, and_self]
  · intro hd h80 h60
    have h1 : ¬ (80 ≤ fl64 (fl64 (c + p) / 2) ∧ 80 ≤ k) :=
      fun h => h80 ⟨i80.mp h.1, h.2⟩
    have h2 : ¬ (60 ≤ fl64 (fl64 (c + p) / 2) ∧ 60 ≤ k) :=
      fun h => h60 ⟨i60.mp h.1, h.2⟩
    simp only [getOverallStatus, gt_iff_lt, ge_iff_le, if_neg (not_lt.mpr hd), if_neg h1,
      if_neg h2, and_self]
  · simp [getOverallStatus]
    norm_num
  · simp [getOverallStatus]
    norm_num

/-- Witness of C14 (amended): a record 61 days old with full compliance, and the same
compliance with a record 10 days old. -/
theorem getOverallStatus_first_match_witness :
    (getOverallStatus 100 100 100 (some 61)).status = .needs_attention ∧
    (getOverallStatus 100 100 100 (some 10)).status = .excellent ∧
    (getOverallStatus 70 70 70 (some 10)).status = .good ∧
    (getOverallStatus 70 70 50 (some 10)).status = .needs_improvement :=
  ⟨((getOverallStatus_first_match 100 100 100 61).1 (by norm_num)).1,
   ((getOverallStatus_first_match 100 100 100 10).2.1 (by norm_num) (by norm_num)).1,
   ((getOverallStatus_first_match 70 70 70 10).2.2.1 (by norm_num) (by norm_num)
      (by norm_num)).1,
   ((getOverallStatus_first_match 70 70 50 10).2.2.2.1 (by norm_num) (by norm_num)
      (by norm_num)).1⟩

/-- The first element of a list that has one. -/
theorem elementAt_zero {α : Type} (a : α) (rest : List α) :
    elementAt (a :: rest) 0 = .ok a := by
  simp [elementAt]

/-- The second element of a list that has two. -/
theorem elementAt_one {α : Type} (a b : α) (rest : List α) :
    elementAt (a :: b :: rest) 1 = .ok b := by
  simp [elementAt]

/-- The last element of a list of at least two elements. -/
theorem elementAt_last {α : Type} (f l : α) (mid : List α) :
    elementAt (f :: (mid ++ [l])) ((f :: (mid ++ [l])).length - 1) = .ok l := by
  unfold elementAt
  have h : (f :: (mid ++ [l]))[(f :: (mid ++ [l])).length - 1]? = some l := by
    have hlen : (f :: (mid ++ [l])).length - 1 = (f :: mid).length := by simp
    rw [hlen, ← List.cons_append, List.getElem?_append_right (le_refl _)]
    simp
  rw [h]

/-- A list of at least two elements is its first element, a middle part and its last
element. -/
theorem exists_first_last {α : Type} (xs : List α) (h : 2 ≤ xs.length) :
    ∃ f mid l, xs = f :: (mid ++ [l]) := by
  cases xs with
  | nil => simp at h
  | cons f rest =>
    have hne : rest ≠ [] := by
      intro hr
      subst hr
      simp at h
    exact ⟨f, rest.dropLast, rest.getLast hne, by rw [List.dropLast_append_getLast hne]⟩

/-- The strict comparison of three outcomes used by the growth-trend report. -/
theorem strict_trend_iff (a b : ℚ) :
    ((if b > a then Trend.increasing else if b < a then Trend.decreasing else Trend.stable)
        = .increasing ↔ a < b) ∧
    ((if b > a then Trend.increasing else if b < a then Trend.decreasing else Trend.stable)
        = .decreasing ↔ b < a) ∧
    ((if b > a then Trend.increasing else if b < a then Trend.decreasing else Trend.stable)
        = .stable ↔ b = a) := by
  rcases lt_trichotomy a b with h | h | h
  · have h2 : ¬ b < a := not_lt.mpr h.le
    simp [h, h2, ne_of_gt h]
  · subst h
    simp
  · have h2 : ¬ a < b := not_lt.mpr h.le
    simp [h, h2, ne_of_lt h]

/-- The trends of the growth-trend report on a list with first record `f` and last record
`l`. -/
theorem growthTrends_eq (f l : GrowthRecord) (mid : List GrowthRecord) :
    growthTrends (f :: (mid ++ [l])) =
      .ok
        { weight :=
            if l.weight > f.weight then .increasing
            else if l.weight < f.weight then .decreasing else .stable
          height :=
            if l.height > f.height then .increasing
            else if l.height < f.height then .decreasing else .stable
          bmi :=
            if gtField l.bmi f.bmi then .increasing
            else if gtField f.bmi l.bmi then .decreasing else .stable } := by
  have hlen : (f :: (mid ++ [l])).length ≥ 2 := by simp
  unfold growthTrends
  rw [if_pos hlen, elementAt_zero, elementAt_last]
  rfl

/-- C15, counterexample. In the growth-trend report a record of 10.0 kg followed by a record
of 10.1 kg gives the weight trend `increasing`. -/
theorem growthTrends_no_deadband :
    (growthSample 10 0).weight = 10 ∧ (growthSample (101 / 10) msPerDay).weight = 101 / 10 ∧
    (growthTrends [growthSample 10 0, growthSample (101 / 10) msPerDay]).map
      (fun t => t.weight) = .ok .increasing := by
  refine ⟨rfl, rfl, ?_⟩
  rw [show [growthSample 10 0, growthSample (101 / 10) msPerDay] =
    growthSample 10 0 :: ([] ++ [growthSample (101 / 10) msPerDay]) from rfl, growthTrends_eq]
  simp [Except.map, growthSample, GrowthRecord.preSave]
  norm_num

/-- C15, amended. In the growth-trend report, for a sequence of at least 2 growth records
with first record `f` and last record `l`, the weight trend is `increasing` iff
`l.weight > f.weight`, `decreasing` iff `l.weight < f.weight` and `stable` iff the two are
equal, with no deadband; the height trend and the BMI trend (of stored BMI values) compare
`l` against `f` in the same strict way. -/
theorem growthTrends_strict (f l : GrowthRecord) (mid : List GrowthRecord) :
    ∃ t : GrowthTrends, growthTrends (f :: (mid ++ [l])) = .ok t ∧
      (t.weight = .increasing ↔ f.weight < l.weight) ∧
      (t.weight = .decreasing ↔ l.weight < f.weight) ∧
      (t.weight = .stable ↔ l.weight = f.weight) ∧
      (t.height = .increasing ↔ f.height < l.height) ∧
      (t.height = .decreasing ↔ l.height < f.height) ∧
      (t.height = .stable ↔ l.height = f.height) ∧
      (∀ bf bl : ℚ, f.bmi = some bf → l.bmi = some bl →
        (t.bmi = .increasing ↔ bf < bl) ∧
        (t.bmi = .decreasing ↔ bl < bf) ∧
        (t.bmi = .stable ↔ bl = bf)) := by
  refine ⟨_, growthTrends_eq f l mid, (strict_trend_iff _ _).1, (strict_trend_iff _ _).2.1,
    (strict_trend_iff _ _).2.2, (strict_trend_iff _ _).1, (strict_trend_iff _ _).2.1,
    (strict_trend_iff _ _).2.2, ?_⟩
  intro bf bl hf hl
  simp only [hf, hl, gtField, decide_eq_true_eq]
  exact strict_trend_iff bf bl

/-- Witness of C15 (amended): 10.0 kg then 10.1 kg at the same height of 100 cm. -/
theorem growthTrends_strict_witness :
    ∃ t : GrowthTrends,
      growthTrends [growthSample 10 0, growthSample (101 / 10) msPerDay] = .ok t ∧
      t.weight = .increasing ∧ t.height = .stable := by
  obtain ⟨t, ht, h1, _, _, _, _, h6, _⟩ :=
    growthTrends_strict (growthSample 10 0) (growthSample (101 / 10) msPerDay) []
  refine ⟨t, ht, h1.mpr ?_, h6.mpr rfl⟩
  simp [growthSample, GrowthRecord.preSave]
  norm_num

/-- The double of the literal `0.2`. -/
theorem fl64_point_two : fl64 (2 / 10) = 3602879701896397 / 18014398509481984 := by
  rw [fl64_eq_of_binade _ (-3) 7205759403792794 (by norm_num) (by norm_num)
    (by norm_num) (roundHalfEven_eq _ _ (by norm_num) (by norm_num))]
  norm_num

/-- The dashboard trend on a query result whose first two records are `latest` and
`previous`. -/
theorem growthTrend_eq (latest previous : GrowthRecord) (rest : List GrowthRecord) :
    growthTrend (latest :: previous :: rest) =
      .ok (if latest.weight > fl64 (previous.weight + fl64 (2 / 10)) then .increasing
        else if latest.weight < fl64 (previous.weight - fl64 (2 / 10)) then .decreasing
        else .stable) := by
  have hlen : (latest :: previous :: rest).length ≥ 2 := by simp
  unfold growthTrend
  rw [if_pos hlen, elementAt_zero, elementAt_one]
  simp only [bind, Except.bind, pure, Except.pure]
  split_ifs <;> rfl

/-- The comparison with the rounded deadband used by the dashboard. -/
theorem deadband_trend_iff (e l : ℚ) :
    ((if l > fl64 (e + fl64 (2 / 10)) then Trend.increasing
        else if l < fl64 (e - fl64 (2 / 10)) then Trend.decreasing else Trend.stable) =
        .increasing ↔ fl64 (e + fl64 (2 / 10)) < l) ∧
    ((if l > fl64 (e + fl64 (2 / 10)) then Trend.increasing
        else if l < fl64 (e - fl64 (2 / 10)) then Trend.decreasing else Trend.stable) =
        .decreasing ↔ l < fl64 (e - fl64 (2 / 10))) ∧
    ((if l > fl64 (e + fl64 (2 / 10)) then Trend.increasing
        else if l < fl64 (e - fl64 (2 / 10)) then Trend.decreasing else Trend.stable) =
        .stable ↔ fl64 (e - fl64 (2 / 10)) ≤ l ∧ l ≤ fl64 (e + fl64 (2 / 10))) := by
  have hc : 0 ≤ fl64 (2 / 10) := fl64_nonneg _ (by norm_num)
  have hm : fl64 (e - fl64 (2 / 10)) ≤ fl64 (e + fl64 (2 / 10)) :=
    fl64_mono _ _ (by linarith)
  by_cases h1 : l > fl64 (e + fl64 (2 / 10))
  · have h2 : ¬ l < fl64 (e - fl64 (2 / 10)) := by
      intro h
      linarith
    have h3 : ¬ l ≤ fl64 (e + fl64 (2 / 10)) := not_le.mpr h1
    simp only [if_pos h1, reduceCtorEq, true_iff, false_iff]
    exact ⟨h1, h2, fun h => h3 h.2⟩
  · by_cases h2 : l < fl64 (e - fl64 (2 / 10))
    · have h3 : ¬ fl64 (e - fl64 (2 / 10)) ≤ l := not_le.mpr h2
      simp only [if_neg h1, if_pos h2, reduceCtorEq, true_iff, false_iff]
      exact ⟨h1, h2, fun h => h3 h.1⟩
    · simp only [if_neg h1, if_neg h2, reduceCtorEq, true_iff, false_iff]
      exact ⟨h1, h2, not_lt.mp h2, not_lt.mp h1⟩

/-- For a weight between 0 and 200 kg the two rounded thresholds of the dashboard trend lie
within `2 ^ (-45)` of `weight + 0.2` and of `weight - 0.2`. -/
theorem deadband_threshold_error (e : ℚ) (h0 : 0 ≤ e) (h200 : e ≤ 200) :
    |fl64 (e + fl64 (2 / 10)) - (e + 2 / 10)| ≤ 1 / 2 ^ 45 ∧
    |fl64 (e - fl64 (2 / 10)) - (e - 2 / 10)| ≤ 1 / 2 ^ 45 := by
  have h1 := fl64_error (e + fl64 (2 / 10))
  have h2 := fl64_error (e - fl64 (2 / 10))
  rw [fl64_point_two] at h1 h2 ⊢
  have ha : |e + 3602879701896397 / 18014398509481984| ≤ 201 := by
    rw [abs_le]
    constructor <;> linarith
  have hb : |e - 3602879701896397 / 18014398509481984| ≤ 201 := by
    rw [abs_le]
    constructor <;> linarith
  have h3 : |fl64 (e + 3602879701896397 / 18014398509481984) -
      (e + 3602879701896397 / 18014398509481984)| ≤ 201 / 2 ^ 53 :=
    le_trans h1 (div_le_div_of_nonneg_right ha (by positivity))
  have h4 : |fl64 (e - 3602879701896397 / 18014398509481984) -
      (e - 3602879701896397 / 18014398509481984)| ≤ 201 / 2 ^ 53 :=
    le_trans h2 (div_le_div_of_nonneg_right hb (by positivity))
  rw [abs_le] at h3 h4 ⊢
  rw [abs_le]
  refine ⟨⟨?_, ?_⟩, ⟨?_, ?_⟩⟩ <;> norm_num at h3 h4 ⊢ <;>
    linarith [h3.1, h3.2, h4.1, h4.2]

/-- The query of the dashboard on two records of the last days, given in date order. -/
theorem recentGrowthRecords_two (a b : ℚ) :
    recentGrowthRecords [growthSample a 0, growthSample b msPerDay] (10 * msPerDay) =
      [growthSample b msPerDay, growthSample a 0] := by
  simp [recentGrowthRecords, List.insertionSort, List.orderedInsert, growthSample,
    GrowthRecord.preSave, msPerDay]

/-- The query of the dashboard on three records of the last days, given in date order. -/
theorem recentGrowthRecords_three (a b c : ℚ) :
    recentGrowthRecords
        [growthSample a 0, growthSample b msPerDay, growthSample c (2 * msPerDay)]
        (10 * msPerDay) =
      [growthSample c (2 * msPerDay), growthSample b msPerDay, growthSample a 0] := by
  simp [recentGrowthRecords, List.insertionSort, List.orderedInsert, growthSample,
    GrowthRecord.preSave, msPerDay]

/-- C16, counterexample. With an earlier weight of 5.5 kg and a later weight of 5.7 kg, the
doubles of the program, the later weight exceeds the earlier one by more than 0.2 (and by
more than the double of 0.2), yet the sum `5.5 + 0.2` rounds up to the double of 5.7 and the
trend is `stable`. With the doubles of 10.1 kg and 10.3 kg, whose decimal difference is
exactly 0.2 and not more, the trend is `increasing`. -/
theorem dashboard_trend_rounded_deadband :
    growthTrend [growthSample (fl64 (57 / 10)) msPerDay, growthSample (55 / 10) 0] =
      .ok .stable ∧
    (55 / 10 : ℚ) + 2 / 10 < fl64 (57 / 10) ∧
    (55 / 10 : ℚ) + fl64 (2 / 10) < fl64 (57 / 10) ∧
    fl64 (55 / 10 + fl64 (2 / 10)) = fl64 (57 / 10) ∧
    growthTrend
        [growthSample (fl64 (103 / 10)) msPerDay, growthSample (fl64 (101 / 10)) 0] =
      .ok .increasing ∧
    (103 / 10 : ℚ) - 101 / 10 = 2 / 10 := by
  have e57 : fl64 (57 / 10) = 6417629469002957 / 1125899906842624 := by
    rw [fl64_eq_of_binade _ 2 6417629469002957 (by norm_num) (by norm_num)
      (by norm_num) (roundHalfEven_eq _ _ (by norm_num) (by norm_num))]
    norm_num
  have ea :
      fl64 (55 / 10 + 3602879701896397 / 18014398509481984) =
        6417629469002957 / 1125899906842624 := by
    rw [fl64_eq_of_binade _ 2 6417629469002957 (by norm_num) (by norm_num)
      (by norm_num) (roundHalfEven_eq _ _ (by norm_num) (by norm_num))]
    norm_num
  have eb :
      fl64 (55 / 10 - 3602879701896397 / 18014398509481984) =
        5967269506265907 / 1125899906842624 := by
    rw [fl64_eq_of_binade _ 2 5967269506265907 (by norm_num) (by norm_num)
      (by norm_num) (roundHalfEven_eq _ _ (by norm_num) (by norm_num))]
    norm_num
  have e103 : fl64 (103 / 10) = 2899192260119757 / 281474976710656 := by
    rw [fl64_eq_of_binade _ 3 5798384520239514 (by norm_num) (by norm_num)
      (by norm_num) (roundHalfEven_eq _ _ (by norm_num) (by norm_num))]
    norm_num
  have e101 : fl64 (101 / 10) = 5685794529555251 / 562949953421312 := by
    rw [fl64_eq_of_binade _ 3 5685794529555251 (by norm_num) (by norm_num)
      (by norm_num) (roundHalfEven_eq _ _ (by norm_num) (by norm_num))]
    norm_num
  have ec :
      fl64 (5685794529555251 / 562949953421312 + 3602879701896397 / 18014398509481984) =
        5798384520239513 / 562949953421312 := by
    rw [fl64_eq_of_binade _ 3 5798384520239513 (by norm_num) (by norm_num)
      (by norm_num) (roundHalfEven_eq _ _ (by norm_num) (by norm_num))]
    norm_num
  refine ⟨?_, ?_, ?_, ?_, ?_, by norm_num⟩
  · rw [growthTrend_eq]
    simp only [growthSample, GrowthRecord.preSave]
    simp only [fl64_point_two, e57, ea, eb]
    norm_num
  · rw [e57]
    norm_num
  · rw [e57, fl64_point_two]
    norm_num
  · rw [fl64_point_two, e57, ea]
  · rw [growthTrend_eq]
    simp only [growthSample, GrowthRecord.preSave]
    simp only [fl64_point_two, e103, e101, ec]
    norm_num

/-- C16, amended. On the dashboard, for the two compared growth records (the later `l`
first in the query result, the earlier `e` second), the trend is `increasing` iff
`l.weight` is greater than the binary64 sum of `e.weight` and `0.2`, `decreasing` iff it is
less than the binary64 difference of `e.weight` and `0.2`, and `stable` otherwise. For an
earlier weight between 0 and 200 kg the two rounded thresholds lie within `2 ^ (-45)` of
`e.weight + 0.2` and `e.weight - 0.2`: the trend is `increasing` when
`l.weight > e.weight + 0.2 + 2 ^ (-45)`, `decreasing` when
`l.weight < e.weight - 0.2 - 2 ^ (-45)`, and `stable` when `l.weight` lies between
`e.weight - 0.2 + 2 ^ (-45)` and `e.weight + 0.2 - 2 ^ (-45)`. For exactly two records of
10.0 kg then 10.5 kg the trend is `increasing`. -/
theorem dashboard_trend_deadband (l e : GrowthRecord) (rest : List GrowthRecord) :
    (∃ t : Trend, growthTrend (l :: e :: rest) = .ok t ∧
      (t = .increasing ↔ fl64 (e.weight + fl64 (2 / 10)) < l.weight) ∧
      (t = .decreasing ↔ l.weight < fl64 (e.weight - fl64 (2 / 10))) ∧
      (t = .stable ↔
        fl64 (e.weight - fl64 (2 / 10)) ≤ l.weight ∧
        l.weight ≤ fl64 (e.weight + fl64 (2 / 10))) ∧
      (0 ≤ e.weight → e.weight ≤ 200 →
        |fl64 (e.weight + fl64 (2 / 10)) - (e.weight + 2 / 10)| ≤ 1 / 2 ^ 45 ∧
        |fl64 (e.weight - fl64 (2 / 10)) - (e.weight - 2 / 10)| ≤ 1 / 2 ^ 45 ∧
        (e.weight + 2 / 10 + 1 / 2 ^ 45 < l.weight → t = .increasing) ∧
        (l.weight < e.weight - 2 / 10 - 1 / 2 ^ 45 → t = .decreasing) ∧
        (e.weight - 2 / 10 + 1 / 2 ^ 45 ≤ l.weight →
          l.weight ≤ e.weight + 2 / 10 - 1 / 2 ^ 45 → t = .stable))) ∧
    growthTrend
        (recentGrowthRecords [growthSample 10 0, growthSample (105 / 10) msPerDay]
          (10 * msPerDay)) = .ok .increasing := by
  have hgen : ∀ (l e : GrowthRecord) (rest : List GrowthRecord),
      ∃ t : Trend, growthTrend (l :: e :: rest) = .ok t ∧
        (t = .increasing ↔ fl64 (e.weight + fl64 (2 / 10)) < l.weight) ∧
        (t = .decreasing ↔ l.weight < fl64 (e.weight - fl64 (2 / 10))) ∧
        (t = .stable ↔
          fl64 (e.weight - fl64 (2 / 10)) ≤ l.weight ∧
          l.weight ≤ fl64 (e.weight + fl64 (2 / 10))) ∧
        (0 ≤ e.weight → e.weight ≤ 200 →
          |fl64 (e.weight + fl64 (2 / 10)) - (e.weight + 2 / 10)| ≤ 1 / 2 ^ 45 ∧
          |fl64 (e.weight - fl64 (2 / 10)) - (e.weight - 2 / 10)| ≤ 1 / 2 ^ 45 ∧
          (e.weight + 2 / 10 + 1 / 2 ^ 45 < l.weight → t = .increasing) ∧
          (l.weight < e.weight - 2 / 10 - 1 / 2 ^ 45 → t = .decreasing) ∧
          (e.weight - 2 / 10 + 1 / 2 ^ 45 ≤ l.weight →
            l.weight ≤ e.weight + 2 / 10 - 1 / 2 ^ 45 → t = .stable)) := by
    intro l e rest
    obtain ⟨i1, i2, i3⟩ := deadband_trend_iff e.weight l.weight
    refine ⟨_, growthTrend_eq l e rest, i1, i2, i3, ?_⟩
    intro h0 h200
    obtain ⟨b1, b2⟩ := deadband_threshold_error e.weight h0 h200
    refine ⟨b1, b2, ?_, ?_, ?_⟩
    · intro h
      rw [abs_le] at b1
      exact i1.mpr (by linarith [b1.2])
    · intro h
      rw [abs_le] at b2
      exact i2.mpr (by linarith [b2.1])
    · intro h1 h2
      rw [abs_le] at b1 b2
      exact i3.mpr ⟨by linarith [b2.2], by linarith [b1.1]⟩
  refine ⟨hgen l e rest, ?_⟩
  rw [recentGrowthRecords_two]
  obtain ⟨t, ht, _, _, _, hb⟩ :=
    hgen (growthSample (105 / 10) msPerDay) (growthSample 10 0) []
  rw [ht]
  have hw1 : (growthSample 10 0).weight = 10 := rfl
  have hw2 : (growthSample (105 / 10) msPerDay).weight = 105 / 10 := rfl
  rw [hw1, hw2] at hb
  rw [(hb (by norm_num) (by norm_num)).2.2.1 (by norm_num)]

/-- Witness of C16 (amended): a stored record of 10.0 kg followed by one of 10.5 kg. -/
theorem dashboard_trend_deadband_witness :
    ((0 : ℚ) ≤ (growthSample 10 0).weight ∧ (growthSample 10 0).weight ≤ 200) ∧
    growthTrend [growthSample (105 / 10) msPerDay, growthSample 10 0] = .ok .increasing := by
  obtain ⟨⟨t, ht, _, _, _, hb⟩, _⟩ :=
    dashboard_trend_deadband (growthSample (105 / 10) msPerDay) (growthSample 10 0) []
  have hw1 : (growthSample 10 0).weight = 10 := rfl
  have hw2 : (growthSample (105 / 10) msPerDay).weight = 105 / 10 := rfl
  refine ⟨by rw [hw1]; norm_num, ?_⟩
  rw [ht]
  rw [hw1, hw2] at hb
  rw [(hb (by norm_num) (by norm_num)).2.2.1 (by norm_num)]

/-- C17, the code at the failing input. With three records of the last days weighing 10.0,
10.5 and 10.6 kg in date order the query returns them newest first and the dashboard trend,
which compares 10.6 kg with 10.5 kg, is `stable`; the newest record exceeds the oldest one
of the window by more than the deadband, so the comparison of the newest against the oldest
record would be `increasing`. -/
theorem dashboard_trend_three_records :
    recentGrowthRecords
        [growthSample 10 0, growthSample (105 / 10) msPerDay,
          growthSample (fl64 (106 / 10)) (2 * msPerDay)] (10 * msPerDay) =
      [growthSample (fl64 (106 / 10)) (2 * msPerDay), growthSample (105 / 10) msPerDay,
        growthSample 10 0] ∧
    growthTrend
        (recentGrowthRecords
          [growthSample 10 0, growthSample (105 / 10) msPerDay,
            growthSample (fl64 (106 / 10)) (2 * msPerDay)] (10 * msPerDay)) = .ok .stable ∧
    fl64 (10 + fl64 (2 / 10)) < fl64 (106 / 10) ∧
    growthTrend [growthSample (fl64 (106 / 10)) (2 * msPerDay), growthSample 10 0] =
      .ok .increasing := by
  have e106 : fl64 (106 / 10) = 5967269506265907 / 562949953421312 := by
    rw [fl64_eq_of_binade _ 3 5967269506265907 (by norm_num) (by norm_num)
      (by norm_num) (roundHalfEven_eq _ _ (by norm_num) (by norm_num))]
    norm_num
  have ea :
      fl64 (105 / 10 + 3602879701896397 / 18014398509481984) =
        3011782250804019 / 281474976710656 := by
    rw [fl64_eq_of_binade _ 3 6023564501608038 (by norm_num) (by norm_num)
      (by norm_num) (roundHalfEven_eq _ _ (by norm_num) (by norm_num))]
    norm_num
  have eb :
      fl64 (105 / 10 - 3602879701896397 / 18014398509481984) =
        2899192260119757 / 281474976710656 := by
    rw [fl64_eq_of_binade _ 3 5798384520239514 (by norm_num) (by norm_num)
      (by norm_num) (roundHalfEven_eq _ _ (by norm_num) (by norm_num))]
    norm_num
  have ed :
      fl64 (10 + 3602879701896397 / 18014398509481984) =
        2871044762448691 / 281474976710656 := by
    rw [fl64_eq_of_binade _ 3 5742089524897382 (by norm_num) (by norm_num)
      (by norm_num) (roundHalfEven_eq _ _ (by norm_num) (by norm_num))]
    norm_num
  refine ⟨recentGrowthRecords_three _ _ _, ?_, ?_, ?_⟩
  · rw [recentGrowthRecords_three, growthTrend_eq]
    simp only [growthSample, GrowthRecord.preSave]
    simp only [fl64_point_two, e106, ea, eb]
    norm_num
  · rw [fl64_point_two, e106, ed]
    norm_num
  · rw [growthTrend_eq]
    simp only [growthSample, GrowthRecord.preSave]
    simp only [fl64_point_two, e106, ed]
    norm_num

/-- The query result is the start of the window sorted by descending record date. -/
theorem recentGrowthRecords_sorted (records : List GrowthRecord) (now : ℤ) :
    ∃ older : List GrowthRecord,
      (recentGrowthRecords records now ++ older).Sorted
        (fun a b => b.recordDate ≤ a.recordDate) ∧
      (recentGrowthRecords records now ++ older).Perm
        (records.filter (fun r => now - 90 * 24 * 60 * 60 * 1000 ≤ r.recordDate)) := by
  haveI : IsTotal GrowthRecord (fun a b => b.recordDate ≤ a.recordDate) :=
    ⟨fun a b => le_total _ _⟩
  haveI : IsTrans GrowthRecord (fun a b => b.recordDate ≤ a.recordDate) :=
    ⟨fun a b c hab hbc => le_trans hbc hab⟩
  refine ⟨((records.filter (fun r => now - 90 * 24 * 60 * 60 * 1000 ≤ r.recordDate)).insertionSort
    (fun a b => b.recordDate ≤ a.recordDate)).drop 10, ?_, ?_⟩
  · unfold recentGrowthRecords
    rw [List.take_append_drop]
    exact List.sorted_insertionSort _ _
  · unfold recentGrowthRecords
    rw [List.take_append_drop]
    exact List.perm_insertionSort _ _

/-- On the dashboard the growth trend compares the two newest records of the 90-day
lookback window: when the query returns `latest`, `previous` and further records, these two
lie in the window, no other record of the window is newer than `previous`, and the trend is
the deadband comparison of `latest.weight` against `previous.weight`. -/
theorem dashboard_trend_two_newest (records : List GrowthRecord) (now : ℤ)
    (latest previous : GrowthRecord) (rest : List GrowthRecord)
    (h : recentGrowthRecords records now = latest :: previous :: rest) :
    growthTrend (recentGrowthRecords records now) =
      .ok (if latest.weight > fl64 (previous.weight + fl64 (2 / 10)) then .increasing
        else if latest.weight < fl64 (previous.weight - fl64 (2 / 10)) then .decreasing
        else .stable) ∧
    previous.recordDate ≤ latest.recordDate ∧
    now - 90 * 24 * 60 * 60 * 1000 ≤ previous.recordDate ∧
    ∃ others : List GrowthRecord,
      (records.filter (fun r => now - 90 * 24 * 60 * 60 * 1000 ≤ r.recordDate)).Perm
        (latest :: previous :: others) ∧
      ∀ r ∈ others, r.recordDate ≤ previous.recordDate := by
  obtain ⟨older, hsorted, hperm⟩ := recentGrowthRecords_sorted records now
  rw [h] at hsorted hperm
  simp only [List.cons_append, List.sorted_cons, List.mem_cons] at hsorted
  obtain ⟨hlatest, hprevious, _⟩ := hsorted
  refine ⟨by rw [h, growthTrend_eq], hlatest previous (Or.inl rfl), ?_,
    rest ++ older, hperm.symm, hprevious⟩
  have hmem : previous ∈
      records.filter (fun r => now - 90 * 24 * 60 * 60 * 1000 ≤ r.recordDate) :=
    hperm.subset (by simp)
  simpa using (List.mem_filter.mp hmem).2

/-- The object `growthAnalysis` on a list with first record `f` and last record `l`. -/
theorem growthAnalysis_eq (f l : GrowthRecord) (mid : List GrowthRecord) :
    growthAnalysis (f :: (mid ++ [l])) =
      .ok
        { recordsCount := (f :: (mid ++ [l])).length
          weightChange := fl64 (toFixed2 (fl64 (l.weight - f.weight)))
          heightChange := fl64 (toFixed2 (fl64 (l.height - f.height)))
          bmiChange :=
            match l.bmi, f.bmi with
            | some bl, some bf => .fin (fl64 (toFixed2 (fl64 (bl - bf))))
            | _, _ => .nan } := by
  have hlen : (f :: (mid ++ [l])).length ≥ 2 := by simp
  unfold growthAnalysis
  rw [if_pos hlen, elementAt_zero, elementAt_last]
  rfl

/-- C18. With 0 or 1 growth records the dashboard trend and the three trends of the
growth-trend report are `stable` and the three changes of the monthly report are 0; and for
every list of records each of the three computations returns a result, none fails on a
missing record. -/
theorem trends_with_few_records (rs : List GrowthRecord) :
    (rs.length ≤ 1 →
      growthTrend rs = .ok .stable ∧
      growthTrends rs = .ok { weight := .stable, height := .stable, bmi := .stable } ∧
      growthAnalysis rs =
        .ok { recordsCount := rs.length, weightChange := 0, heightChange := 0,
              bmiChange := .fin 0 }) ∧
    (∃ t, growthTrend rs = .ok t) ∧
    (∃ t, growthTrends rs = .ok t) ∧
    (∃ g, growthAnalysis rs = .ok g) ∧
    (∀ (records : List GrowthRecord) (now : ℤ),
      (recentGrowthRecords records now).length ≤ 1 →
        growthTrend (recentGrowthRecords records now) = .ok .stable) := by
  have hfew : ∀ xs : List GrowthRecord, xs.length ≤ 1 →
      growthTrend xs = .ok .stable ∧
      growthTrends xs = .ok { weight := .stable, height := .stable, bmi := .stable } ∧
      growthAnalysis xs =
        .ok { recordsCount := xs.length, weightChange := 0, heightChange := 0,
              bmiChange := .fin 0 } := by
    intro xs hxs
    have hlen : ¬ xs.length ≥ 2 := by omega
    unfold growthTrend growthTrends growthAnalysis
    rw [if_neg hlen, if_neg hlen, if_neg hlen]
    exact ⟨rfl, rfl, rfl⟩
  refine ⟨hfew rs, ?_, ?_, ?_, fun records now h => (hfew _ h).1⟩
  · by_cases h : rs.length ≤ 1
    · exact ⟨_, (hfew rs h).1⟩
    · obtain ⟨l, e, rest, rfl⟩ : ∃ l e rest, rs = l :: e :: rest := by
        match rs, h with
        | [], h => simp at h
        | [_], h => simp at h
        | l :: e :: rest, _ => exact ⟨l, e, rest, rfl⟩
      exact ⟨_, growthTrend_eq l e rest⟩
  · by_cases h : rs.length ≤ 1
    · exact ⟨_, (hfew rs h).2.1⟩
    · obtain ⟨f, mid, l, rfl⟩ := exists_first_last rs (by omega)
      exact ⟨_, growthTrends_eq f l mid⟩
  · by_cases h : rs.length ≤ 1
    · exact ⟨_, (hfew rs h).2.2⟩
    · obtain ⟨f, mid, l, rfl⟩ := exists_first_last rs (by omega)
      exact ⟨_, growthAnalysis_eq f l mid⟩

/-- Witness of C18: a single stored record. -/
theorem trends_with_few_records_witness :
    growthTrend [growthSample 10 0] = .ok .stable ∧
    growthTrends [growthSample 10 0] =
      .ok { weight := .stable, height := .stable, bmi := .stable } ∧
    growthAnalysis [growthSample 10 0] =
      .ok { recordsCount := 1, weightChange := 0, heightChange := 0, bmiChange := .fin 0 } :=
  (trends_with_few_records [growthSample 10 0]).1 (by decide)

/-- The two-decimal rounding is odd: the rounding of `-x` is the negative of the rounding of
`x`. -/
theorem toFixed2_neg (x : ℚ) : toFixed2 (-x) = -toFixed2 x := by
  unfold toFixed2
  rcases lt_trichotomy x 0 with h | h | h
  · have h1 : ¬ -x < 0 := by
      intro h2
      linarith
    rw [if_neg h1, if_pos h]
    ring
  · subst h
    norm_num
  · have h1 : -x < 0 := by linarith
    have h2 : ¬ x < 0 := not_lt.mpr h.le
    rw [if_pos h1, if_neg h2, neg_neg]
    ring

/-- The two-decimal rounding of any number is a multiple of 0.01 within half a hundredth of
it. -/
theorem toFixed2_round (x : ℚ) :
    ∃ n : ℤ, toFixed2 x = (n : ℚ) / 100 ∧ |toFixed2 x - x| ≤ 1 / 200 := by
  by_cases h : x < 0
  · refine ⟨-⌊-x * 100 + 1 / 2⌋, ?_, ?_⟩
    · unfold toFixed2
      rw [if_pos h]
      push_cast
      ring
    · unfold toFixed2
      rw [if_pos h, abs_le]
      have h1 := Int.floor_le (-x * 100 + 1 / 2)
      have h2 := Int.lt_floor_add_one (-x * 100 + 1 / 2)
      constructor <;> linarith
  · refine ⟨⌊x * 100 + 1 / 2⌋, ?_, ?_⟩
    · unfold toFixed2
      rw [if_neg h]
    · unfold toFixed2
      rw [if_neg h, abs_le]
      have h1 := Int.floor_le (x * 100 + 1 / 2)
      have h2 := Int.lt_floor_add_one (x * 100 + 1 / 2)
      constructor <;> linarith

/-- A change of the monthly report: the double nearest to a multiple of 0.01 that lies
within half a hundredth of the binary64 difference, which lies within the relative error
`2 ^ (-53)` of the exact difference. -/
theorem change_rounded (x : ℚ) :
    ∃ n : ℤ, fl64 (toFixed2 (fl64 x)) = fl64 ((n : ℚ) / 100) ∧
      |(n : ℚ) / 100 - fl64 x| ≤ 1 / 200 ∧ |fl64 x - x| ≤ |x| / 2 ^ 53 := by
  obtain ⟨n, h1, h2⟩ := toFixed2_round (fl64 x)
  refine ⟨n, by rw [h1], ?_, fl64_error x⟩
  rw [← h1]
  exact h2

/-- A change of the monthly report is odd in the difference. -/
theorem change_neg (a b : ℚ) :
    fl64 (toFixed2 (fl64 (a - b))) = -fl64 (toFixed2 (fl64 (b - a))) := by
  rw [← neg_sub b a, fl64_neg, toFixed2_neg, fl64_neg]

/-- C19, counterexample. For a first record of 0.501 kg and a last record of 1.506 kg, the
doubles of the program, the exact difference of the two weights is at least 1.005 and
rounds to 1.01, as does the decimal difference 1.005; the binary64 difference is below
1.005 and the weight change of the report is 1. -/
theorem monthly_change_rounded_difference :
    (∃ g : GrowthAnalysis,
      growthAnalysis
          [growthSample (fl64 (501 / 1000)) 0, growthSample (fl64 (1506 / 1000)) msPerDay] =
        .ok g ∧
      g.weightChange = 1) ∧
    1005 / 1000 ≤ fl64 (1506 / 1000) - fl64 (501 / 1000) ∧
    toFixed2 (fl64 (1506 / 1000) - fl64 (501 / 1000)) = 101 / 100 ∧
    toFixed2 (1506 / 1000 - 501 / 1000) = 101 / 100 ∧
    fl64 (fl64 (1506 / 1000) - fl64 (501 / 1000)) < 1005 / 1000 := by
  have e1 : fl64 (501 / 1000) = 4512606826625237 / 9007199254740992 := by
    rw [fl64_eq_of_binade _ (-1) 4512606826625237 (by norm_num) (by norm_num)
      (by norm_num) (roundHalfEven_eq _ _ (by norm_num) (by norm_num))]
    norm_num
  have e2 : fl64 (1506 / 1000) = 6782421038819967 / 4503599627370496 := by
    rw [fl64_eq_of_binade _ 0 6782421038819967 (by norm_num) (by norm_num)
      (by norm_num) (roundHalfEven_eq _ _ (by norm_num) (by norm_num))]
    norm_num
  have e3 :
      fl64 (6782421038819967 / 4503599627370496 - 4512606826625237 / 9007199254740992) =
        1131529406376837 / 1125899906842624 := by
    rw [fl64_eq_of_binade _ 0 4526117625507348 (by norm_num) (by norm_num)
      (by norm_num) (by unfold roundHalfEven; norm_num)]
    norm_num
  have one : fl64 1 = 1 := by simpa using fl64_natCast 1 (by norm_num)
  refine ⟨⟨_, growthAnalysis_eq _ _ [], ?_⟩, ?_, ?_, ?_, ?_⟩
  · show fl64 (toFixed2 (fl64 (fl64 (1506 / 1000) - fl64 (501 / 1000)))) = 1
    rw [e1, e2, e3]
    have ht : toFixed2 (1131529406376837 / 1125899906842624) = 1 := by
      unfold toFixed2
      norm_num
    rw [ht, one]
  · rw [e1, e2]
    norm_num
  · rw [e1, e2]
    unfold toFixed2
    norm_num
  · unfold toFixed2
    norm_num
  · rw [e1, e2, e3]
    norm_num

/-- C19, amended. In the monthly report, for a list of at least 2 growth records with first
record `f` and last record `l`, the weight, height and BMI changes are each the double
nearest to `n / 100`, the multiple of 0.01 nearest to the binary64 difference of the values
of `l` and `f`; that difference lies within the relative error `2 ^ (-53)` of the exact
difference. For weights 10.0 then 10.5 the weight change is 0.5, and with first and last
swapped each change is the negative. -/
theorem monthly_changes (f l : GrowthRecord) (mid : List GrowthRecord) :
    ∃ g g2 : GrowthAnalysis,
      growthAnalysis (f :: (mid ++ [l])) = .ok g ∧
      growthAnalysis (l :: (mid ++ [f])) = .ok g2 ∧
      g.weightChange = fl64 (toFixed2 (fl64 (l.weight - f.weight))) ∧
      g.heightChange = fl64 (toFixed2 (fl64 (l.height - f.height))) ∧
      (∃ n : ℤ, g.weightChange = fl64 ((n : ℚ) / 100) ∧
        |(n : ℚ) / 100 - fl64 (l.weight - f.weight)| ≤ 1 / 200 ∧
        |fl64 (l.weight - f.weight) - (l.weight - f.weight)| ≤
          |l.weight - f.weight| / 2 ^ 53) ∧
      (∃ n : ℤ, g.heightChange = fl64 ((n : ℚ) / 100) ∧
        |(n : ℚ) / 100 - fl64 (l.height - f.height)| ≤ 1 / 200 ∧
        |fl64 (l.height - f.height) - (l.height - f.height)| ≤
          |l.height - f.height| / 2 ^ 53) ∧
      (∀ bf bl : ℚ, f.bmi = some bf → l.bmi = some bl →
        g.bmiChange = .fin (fl64 (toFixed2 (fl64 (bl - bf)))) ∧
        g2.bmiChange = .fin (-fl64 (toFixed2 (fl64 (bl - bf)))) ∧
        ∃ n : ℤ, fl64 (toFixed2 (fl64 (bl - bf))) = fl64 ((n : ℚ) / 100) ∧
          |(n : ℚ) / 100 - fl64 (bl - bf)| ≤ 1 / 200 ∧
          |fl64 (bl - bf) - (bl - bf)| ≤ |bl - bf| / 2 ^ 53) ∧
      g2.weightChange = -g.weightChange ∧
      g2.heightChange = -g.heightChange ∧
      (f.weight = 10 → l.weight = 105 / 10 → g.weightChange = 1 / 2) := by
  refine ⟨_, _, growthAnalysis_eq f l mid, growthAnalysis_eq l f mid, rfl, rfl,
    change_rounded _, change_rounded _, ?_, ?_, ?_, ?_⟩
  · intro bf bl hf hl
    refine ⟨by simp only [hf, hl], ?_, change_rounded _⟩
    simp only [hf, hl]
    rw [change_neg bf bl]
  · exact change_neg _ _
  · exact change_neg _ _
  · intro hf hl
    show fl64 (toFixed2 (fl64 (l.weight - f.weight))) = 1 / 2
    have half : fl64 (1 / 2) = 1 / 2 := by simpa using fl64_dyadic 1 1 (by norm_num)
    have ht : toFixed2 (1 / 2) = 1 / 2 := by
      unfold toFixed2
      norm_num
    rw [hf, hl, show (105 / 10 : ℚ) - 10 = 1 / 2 by norm_num, half, ht, half]

/-- Witness of C19 (amended): stored records of 10.0 kg and 10.5 kg at 100 cm. -/
theorem monthly_changes_witness :
    ∃ g : GrowthAnalysis,
      growthAnalysis [growthSample 10 0, growthSample (105 / 10) msPerDay] = .ok g ∧
      g.weightChange = 1 / 2 ∧
      g.weightChange = fl64 (toFixed2 (fl64 ((105 / 10 : ℚ) - 10))) ∧
      g.bmiChange =
        .fin (fl64 (toFixed2 (fl64 (calculateBMI (105 / 10) 100 - calculateBMI 10 100)))) := by
  obtain ⟨g, g2, hg, _, hw, _, _, _, hbmi, _, _, h10⟩ :=
    monthly_changes (growthSample 10 0) (growthSample (105 / 10) msPerDay) []
  exact ⟨g, hg, h10 rfl rfl, hw, (hbmi _ _ rfl rfl).1⟩

/-- C20, counterexample. At 10:00 a reminder at 10:00 is not upcoming and a reminder at
12:00, exactly 120 minutes later, is; at 23:30 a reminder at 00:15 is not upcoming. -/
theorem upcomingReminders_boundaries :
    reminderTime "10:00" = some 600 ∧ reminderTime "12:00" = some 720 ∧
    upcomingReminders [reminderAt 1 "10:00", reminderAt 2 "12:00"] 600 =
      [reminderAt 2 "12:00"] ∧
    reminderTime "00:15" = some 15 ∧
    upcomingReminders [reminderAt 3 "00:15"] (23 * 60 + 30) = [] := by
  decide

/-- C20, amended. The upcoming reminders are taken from the active reminders in their
order, and a reminder whose time of day `t` is not before the current minute `now` is
upcoming iff its distance `t - now` lies in `(0, 120]`: a reminder at exactly `now` is
excluded and a reminder at exactly `now + 120` is included. -/
theorem upcomingReminders_same_day (rs : List Reminder) (now : ℕ) (r : Reminder) (t : ℕ)
    (hr : r ∈ rs) (ht : reminderTime r.time = some t) (hnow : now ≤ t) :
    (upcomingReminders rs now).Sublist rs ∧
    (r ∈ upcomingReminders rs now ↔ 0 < t - now ∧ t - now ≤ 120) ∧
    (t = now → r ∉ upcomingReminders rs now) ∧
    (t = now + 120 → r ∈ upcomingReminders rs now) ∧
    (t < 1440 →
      (r ∈ upcomingReminders rs now ↔
        0 < ((t : ℤ) - now) % 1440 ∧ ((t : ℤ) - now) % 1440 ≤ 120)) := by
  have hmem : r ∈ upcomingReminders rs now ↔ now < t ∧ t ≤ now + 120 := by
    unfold upcomingReminders
    rw [List.mem_filter]
    simp [hr, ht]
  refine ⟨List.filter_sublist _, ?_, ?_, ?_, ?_⟩
  · rw [hmem]
    omega
  · intro h
    rw [hmem]
    omega
  · intro h
    rw [hmem]
    omega
  · intro h
    rw [hmem]
    omega

/-- Witness of C20 (amended): at 10:00 the reminder at 12:00 is upcoming. -/
theorem upcomingReminders_same_day_witness :
    reminderAt 2 "12:00" ∈
      upcomingReminders [reminderAt 1 "10:00", reminderAt 2 "12:00"] 600 :=
  (upcomingReminders_same_day [reminderAt 1 "10:00", reminderAt 2 "12:00"] 600
    (reminderAt 2 "12:00") 720 (by decide) (by decide) (by decide)).2.2.2.1 (by decide)

/-- For minutes of the day the variable `timeDiff` is the forward distance on the 24-hour
clock. -/
theorem timeDiff_eq_forwardDistance (t now : ℕ) (ht : t < 1440) (hnow : now < 1440) :
    timeDiff t now = forwardDistance t now := by
  unfold timeDiff forwardDistance
  simp only []
  split_ifs <;> omega

/-- The state of the loop of `getNextReminder` after a list of reminders whose times parse:
the initial state for the empty list, otherwise the first reminder of least `timeDiff`. -/
theorem nextReminder_foldl (now : ℕ) (rs : List Reminder)
    (hvalid : ∀ r ∈ rs, ∃ t, reminderTime r.time = some t) :
    (rs = [] ∧ rs.foldl (nextReminderStep now) (none, none) = (none, none)) ∨
    ∃ before r after t, rs = before ++ r :: after ∧ reminderTime r.time = some t ∧
      rs.foldl (nextReminderStep now) (none, none) =
        (some (NextReminder.ofReminder r (timeDiff t now)), some (timeDiff t now)) ∧
      (∀ x ∈ before, ∀ tx, reminderTime x.time = some tx →
        timeDiff t now < timeDiff tx now) ∧
      (∀ x ∈ after, ∀ tx, reminderTime x.time = some tx →
        timeDiff t now ≤ timeDiff tx now) := by
  induction rs using List.reverseRecOn with
  | nil => exact Or.inl ⟨rfl, rfl⟩
  | append_singleton l a ih =>
    right
    obtain ⟨ta, hta⟩ := hvalid a (by simp)
    have hl : ∀ r ∈ l, ∃ t, reminderTime r.time = some t :=
      fun r hr => hvalid r (List.mem_append_left _ hr)
    rw [List.foldl_append, List.foldl_cons, List.foldl_nil]
    rcases ih hl with ⟨hnil, hst⟩ | ⟨before, r, after, t, hrs, ht, hst, hb, ha⟩
    · subst hnil
      refine ⟨[], a, [], ta, rfl, hta, ?_, ?_, ?_⟩
      · rw [hst]
        simp [nextReminderStep, hta, NextReminder.ofReminder]
      · intro x hx
        cases hx
      · intro x hx
        cases hx
    · rw [hst]
      by_cases hlt : timeDiff ta now < timeDiff t now
      · refine ⟨before ++ r :: after, a, [], ta, by rw [hrs], hta, ?_, ?_, ?_⟩
        · simp [nextReminderStep, hta, hlt, NextReminder.ofReminder]
        · intro x hx tx htx
          rcases List.mem_append.mp hx with hx | hx
          · exact lt_trans hlt (hb x hx tx htx)
          · rcases List.mem_cons.mp hx with hx | hx
            · subst hx
              rw [ht] at htx
              injection htx with htx
              rw [← htx]
              exact hlt
            · exact lt_of_lt_of_le hlt (ha x hx tx htx)
        · intro x hx
          cases hx
      · refine ⟨before, r, after ++ [a], t, by rw [hrs]; simp, ht, ?_, hb, ?_⟩
        · simp [nextReminderStep, hta, hlt]
        · intro x hx tx htx
          rcases List.mem_append.mp hx with hx | hx
          · exact ha x hx tx htx
          · rw [List.mem_singleton] at hx
            subst hx
            rw [hta] at htx
            injection htx with htx
            rw [← htx]
            exact not_lt.mp hlt

/-- C21. For reminders with valid times and a current minute of the day, `getNextReminder`
returns `null` for the empty list; for a non-empty list it returns the reminder whose
forward distance `(reminderMinute - now) mod 1440` is least, the first one in input order
when several share it: every reminder before it is strictly farther and every reminder
after it is at least as far. -/
theorem getNextReminder_first_minimum (rs : List Reminder) (now : ℕ) (hnow : now < 1440)
    (hvalid : ∀ r ∈ rs, ∃ t, reminderTime r.time = some t ∧ t < 1440) :
    getNextReminder [] now = none ∧
    (rs ≠ [] →
      ∃ before r after t, rs = before ++ r :: after ∧ reminderTime r.time = some t ∧
        getNextReminder rs now = some (NextReminder.ofReminder r (forwardDistance t now)) ∧
        (∀ x ∈ before, ∀ tx, reminderTime x.time = some tx →
          forwardDistance t now < forwardDistance tx now) ∧
        (∀ x ∈ after, ∀ tx, reminderTime x.time = some tx →
          forwardDistance t now ≤ forwardDistance tx now)) := by
  refine ⟨rfl, fun hne => ?_⟩
  have hparse : ∀ r ∈ rs, ∃ t, reminderTime r.time = some t := by
    intro r hr
    obtain ⟨t, ht, _⟩ := hvalid r hr
    exact ⟨t, ht⟩
  have hbound : ∀ r ∈ rs, ∀ t, reminderTime r.time = some t → t < 1440 := by
    intro r hr t ht
    obtain ⟨t2, ht2, hlt⟩ := hvalid r hr
    rw [ht] at ht2
    injection ht2 with ht2
    rw [ht2]
    exact hlt
  rcases nextReminder_foldl now rs hparse with ⟨hnil, _⟩ | ⟨before, r, after, t, hrs, ht, hst, hb, ha⟩
  · exact absurd hnil hne
  · have hr : r ∈ rs := by
      rw [hrs]
      simp
    have htlt := hbound r hr t ht
    refine ⟨before, r, after, t, hrs, ht, ?_, ?_, ?_⟩
    · unfold getNextReminder
      rw [hst, timeDiff_eq_forwardDistance t now htlt hnow]
    · intro x hx tx htx
      have hxm : x ∈ rs := by
        rw [hrs]
        exact List.mem_append_left _ hx
      rw [← timeDiff_eq_forwardDistance t now htlt hnow,
        ← timeDiff_eq_forwardDistance tx now (hbound x hxm tx htx) hnow]
      exact hb x hx tx htx
    · intro x hx tx htx
      have hxm : x ∈ rs := by
        rw [hrs]
        exact List.mem_append_right _ (List.mem_cons_of_mem _ hx)
      rw [← timeDiff_eq_forwardDistance t now htlt hnow,
        ← timeDiff_eq_forwardDistance tx now (hbound x hxm tx htx) hnow]
      exact ha x hx tx htx

/-- Witness of C21: at 09:30 the reminders at 10:00, 09:00 and again 10:00 give the first
of the two at 10:00, 30 minutes ahead; the one at 09:00 is 1410 minutes ahead. -/
theorem getNextReminder_first_minimum_witness :
    getNextReminder [reminderAt 1 "10:00", reminderAt 2 "09:00", reminderAt 3 "10:00"] 570 =
      some { id := 1, title := "Makan", time := "10:00", type := "meal", hoursUntil := 0,
             minutesUntil := 30 } ∧
    forwardDistance 540 570 = 1410 ∧
    (∃ before r after t,
      [reminderAt 1 "10:00", reminderAt 2 "09:00", reminderAt 3 "10:00"] =
        before ++ r :: after ∧ reminderTime r.time = some t ∧
      getNextReminder [reminderAt 1 "10:00", reminderAt 2 "09:00", reminderAt 3 "10:00"]
          570 = some (NextReminder.ofReminder r (forwardDistance t 570)) ∧
      (∀ x ∈ before, ∀ tx, reminderTime x.time = some tx →
        forwardDistance t 570 < forwardDistance tx 570) ∧
      (∀ x ∈ after, ∀ tx, reminderTime x.time = some tx →
        forwardDistance t 570 ≤ forwardDistance tx 570)) :=
  ⟨by decide, by decide,
   (getNextReminder_first_minimum
      [reminderAt 1 "10:00", reminderAt 2 "09:00", reminderAt 3 "10:00"] 570 (by decide)
      (by
        intro r hr
        simp only [List.mem_cons, List.mem_singleton, List.not_mem_nil, or_false] at hr
        rcases hr with rfl | rfl | rfl
        · exact ⟨600, by decide, by decide⟩
        · exact ⟨540, by decide, by decide⟩
        · exact ⟨600, by decide, by decide⟩)).2 (by simp)⟩

/-- The keys of `nutritionByDay` after one more log. -/
theorem addToNutritionByDay_keys (getDate : ℤ → ℕ) (acc : List (ℕ × DayNutrition))
    (l : FoodLog) :
    (addToNutritionByDay getDate acc l).map Prod.fst =
      if getDate l.logDate ∈ acc.map Prod.fst then acc.map Prod.fst
      else acc.map Prod.fst ++ [getDate l.logDate] := by
  induction acc with
  | nil => simp [addToNutritionByDay]
  | cons e rest ih =>
    obtain ⟨d, data⟩ := e
    unfold addToNutritionByDay
    by_cases hd : d = getDate l.logDate
    · simp [hd]
    · have hne : ¬ getDate l.logDate = d := fun h => hd h.symm
      rw [if_neg hd, List.map_cons, ih]
      simp only [List.map_cons, List.mem_cons, hne, false_or]
      split_ifs <;> simp

/-- The sum of an additive quantity over `nutritionByDay` grows by the share of the log. -/
theorem addToNutritionByDay_sum (getDate : ℤ → ℕ) (φ : DayNutrition → ℚ) (g : FoodLog → ℚ)
    (hφ : ∀ d l, φ (d.addLog l) = φ d + g l) (h0 : φ DayNutrition.zero = 0)
    (acc : List (ℕ × DayNutrition)) (l : FoodLog) :
    ((addToNutritionByDay getDate acc l).map (fun e => φ e.2)).sum =
      (acc.map (fun e => φ e.2)).sum + g l := by
  induction acc with
  | nil => simp [addToNutritionByDay, hφ, h0]
  | cons e rest ih =>
    obtain ⟨d, data⟩ := e
    unfold addToNutritionByDay
    by_cases hd : d = getDate l.logDate
    · rw [if_pos hd]
      simp only [List.map_cons, List.sum_cons, hφ]
      ring
    · rw [if_neg hd]
      simp only [List.map_cons, List.sum_cons, ih]
      ring

/-- The object `nutritionByDay` has distinct keys, the days that have a log, and every
additive quantity summed over its entries is the same quantity summed over the logs. -/
theorem nutritionByDay_spec (getDate : ℤ → ℕ) (logs : List FoodLog) :
    ((nutritionByDay getDate logs).map Prod.fst).Nodup ∧
    (∀ d, d ∈ (nutritionByDay getDate logs).map Prod.fst ↔
      d ∈ logs.map (fun l => getDate l.logDate)) ∧
    (∀ (φ : DayNutrition → ℚ) (g : FoodLog → ℚ),
      (∀ d l, φ (d.addLog l) = φ d + g l) → φ DayNutrition.zero = 0 →
      ((nutritionByDay getDate logs).map (fun e => φ e.2)).sum = (logs.map g).sum) := by
  unfold nutritionByDay
  induction logs using List.reverseRecOn with
  | nil =>
    refine ⟨List.nodup_nil, fun d => by simp, fun φ g _ _ => by simp⟩
  | append_singleton ls l ih =>
    obtain ⟨hnd, hkeys, hsum⟩ := ih
    rw [List.foldl_append, List.foldl_cons, List.foldl_nil]
    refine ⟨?_, ?_, ?_⟩
    · rw [addToNutritionByDay_keys]
      split_ifs with hk
      · exact hnd
      · apply List.Nodup.append hnd (List.nodup_singleton _)
        intro d hd1 hd2
        rw [List.mem_singleton] at hd2
        rw [hd2] at hd1
        exact hk hd1
    · intro d
      rw [addToNutritionByDay_keys, List.map_append, List.mem_append, List.map_singleton,
        List.mem_singleton, ← hkeys d]
      split_ifs with hk
      · constructor
        · exact fun h => Or.inl h
        · rintro (h | h)
          · exact h
          · rw [h]
            exact hk
      · rw [List.mem_append, List.mem_singleton]
    · intro φ g hφ h0
      rw [addToNutritionByDay_sum getDate φ g hφ h0, hsum φ g hφ h0]
      simp

/-- The number of entries of `nutritionByDay` is the number of distinct days with a log. -/
theorem daysWithLogs_eq_distinctDays (getDate : ℤ → ℕ) (logs : List FoodLog) :
    daysWithLogs getDate logs = distinctDays getDate logs := by
  obtain ⟨hnd, hkeys, _⟩ := nutritionByDay_spec getDate logs
  unfold daysWithLogs distinctDays
  have hperm : ((nutritionByDay getDate logs).map Prod.fst).Perm
      ((logs.map (fun l => getDate l.logDate)).dedup) := by
    rw [List.perm_ext_iff_of_nodup hnd (List.nodup_dedup _)]
    intro d
    rw [hkeys d, List.mem_dedup]
  have := hperm.length_eq
  simpa using this

/-- One step of the loop on an object whose keys are distinct: the entry of the day is
updated in place, or a new entry is appended. -/
theorem addToNutritionByDay_eq (getDate : ℤ → ℕ) (acc : List (ℕ × DayNutrition))
    (l : FoodLog) (hnd : (acc.map Prod.fst).Nodup) :
    addToNutritionByDay getDate acc l =
      if getDate l.logDate ∈ acc.map Prod.fst then
        acc.map (fun e => if e.1 = getDate l.logDate then (e.1, e.2.addLog l) else e)
      else
        acc ++ [(getDate l.logDate, DayNutrition.zero.addLog l)] := by
  induction acc with
  | nil => simp [addToNutritionByDay]
  | cons e rest ih =>
    obtain ⟨d, data⟩ := e
    simp only [List.map_cons, List.nodup_cons] at hnd
    unfold addToNutritionByDay
    by_cases hd : d = getDate l.logDate
    · have hrest : rest.map
          (fun e => if e.1 = getDate l.logDate then (e.1, e.2.addLog l) else e) = rest := by
        refine (List.map_congr_left ?_).trans (List.map_id rest)
        intro e he
        have hne : e.1 ≠ getDate l.logDate := by
          intro h
          apply hnd.1
          rw [hd, ← h]
          exact List.mem_map_of_mem Prod.fst he
        simp [hne]
      simp [hd, hrest]
    · have hne : ¬ getDate l.logDate = d := fun h => hd h.symm
      rw [if_neg hd, ih hnd.2]
      simp only [List.map_cons, List.mem_cons, hne, false_or, hd, if_false]
      split_ifs <;> simp

/-- The exact total of a day after one more log: the log is added to its own day only. -/
theorem dayTotal_append (getDate : ℤ → ℕ) (g : FoodLog → ℚ) (logs : List FoodLog)
    (l : FoodLog) (d : ℕ) :
    dayTotal getDate g (logs ++ [l]) d =
      dayTotal getDate g logs d + (if getDate l.logDate = d then g l else 0) := by
  unfold dayTotal
  by_cases h : getDate l.logDate = d
  · simp [List.filter_append, List.filter_cons, h]
  · simp [List.filter_append, List.filter_cons, h]

/-- The exact total of a day without logs is zero. -/
theorem dayTotal_of_no_log (getDate : ℤ → ℕ) (g : FoodLog → ℚ) (logs : List FoodLog)
    (d : ℕ)
    (h : ∀ l ∈ logs, getDate l.logDate ≠ d) : dayTotal getDate g logs d = 0 := by
  have hf : logs.filter (fun l => getDate l.logDate = d) = [] := by
    rw [List.filter_eq_nil_iff]
    intro l hl
    simpa using h l hl
  unfold dayTotal
  simp [hf]

/-- The exact total of a day is not negative when the quantity is not. -/
theorem dayTotal_nonneg (getDate : ℤ → ℕ) (g : FoodLog → ℚ) (logs : List FoodLog)
    (d : ℕ)
    (hg : ∀ l ∈ logs, 0 ≤ g l) : 0 ≤ dayTotal getDate g logs d := by
  unfold dayTotal
  apply List.sum_nonneg
  intro x hx
  obtain ⟨l, hl, rfl⟩ := List.mem_map.mp hx
  exact hg l (List.mem_of_mem_filter hl)

/-- The exact totals of the days of a list of distinct days that covers the days of the
logs add up to the total over the logs. -/
theorem sum_dayTotal (getDate : ℤ → ℕ) (g : FoodLog → ℚ) (days : List ℕ)
    (hnd : days.Nodup) (logs : List FoodLog)
    (hcover : ∀ l ∈ logs, getDate l.logDate ∈ days) :
    (days.map (dayTotal getDate g logs)).sum = (logs.map g).sum := by
  induction logs using List.reverseRecOn with
  | nil =>
    have hz : dayTotal getDate g [] = fun _ => 0 := by
      funext d
      simp [dayTotal]
    rw [hz]
    simp
  | append_singleton ls l ih =>
    have hl : getDate l.logDate ∈ days := hcover l (by simp)
    have hrest := ih (fun x hx => hcover x (List.mem_append_left _ hx))
    have hsplit : days.map (dayTotal getDate g (ls ++ [l])) =
        days.map (fun d => dayTotal getDate g ls d +
          (if getDate l.logDate = d then g l else 0)) := by
      apply List.map_congr_left
      intro d _
      exact dayTotal_append getDate g ls l d
    rw [hsplit, List.sum_map_add, hrest, List.map_append, List.sum_append]
    congr 1
    rw [← List.sum_toFinset _ hnd, Finset.sum_ite_eq]
    simp [hl]

/-- Every entry of `nutritionByDay` holds, for a quantity that the loop adds with a rounding
to a double, the exact total of its day up to one rounding for each log. -/
theorem nutritionByDay_within (getDate : ℤ → ℕ) (φ : DayNutrition → ℚ)
    (g : FoodLog → ℚ)
    (hφ : ∀ d l, φ (d.addLog l) = fl64 (φ d + g l)) (h0 : φ DayNutrition.zero = 0)
    (logs : List FoodLog) (hg : ∀ l ∈ logs, 0 ≤ g l) :
    ∀ e ∈ nutritionByDay getDate logs,
      WithinRoundings logs.length (φ e.2) (dayTotal getDate g logs e.1) := by
  induction logs using List.reverseRecOn with
  | nil =>
    intro e he
    simp [nutritionByDay] at he
  | append_singleton ls l ih =>
    have hgl : 0 ≤ g l := hg l (by simp)
    have hgls : ∀ x ∈ ls, 0 ≤ g x := fun x hx => hg x (List.mem_append_left _ hx)
    have ih2 := ih hgls
    obtain ⟨hnd, hkeys, _⟩ := nutritionByDay_spec getDate ls
    have hstep : nutritionByDay getDate (ls ++ [l]) =
        addToNutritionByDay getDate (nutritionByDay getDate ls) l := by
      unfold nutritionByDay
      rw [List.foldl_append, List.foldl_cons, List.foldl_nil]
    rw [hstep, addToNutritionByDay_eq getDate _ l hnd, List.length_append,
      List.length_singleton]
    intro e he
    rw [dayTotal_append]
    by_cases hk : getDate l.logDate ∈ (nutritionByDay getDate ls).map Prod.fst
    · rw [if_pos hk] at he
      obtain ⟨e0, he0, rfl⟩ := List.mem_map.mp he
      have hw := ih2 e0 he0
      have hnn := dayTotal_nonneg getDate g ls e0.1 hgls
      by_cases hd : e0.1 = getDate l.logDate
      · simp only [hd, if_true]
        rw [hφ]
        apply withinRoundings_fl64 _ _ _ (add_nonneg (dayTotal_nonneg getDate g ls _ hgls) hgl)
        apply withinRoundings_add
        · rw [← hd]
          exact hw
        · exact withinRoundings_mono 0 _ _ _ (Nat.zero_le _) hgl (withinRoundings_refl _)
      · have hd2 : ¬ getDate l.logDate = e0.1 := fun h => hd h.symm
        simp only [hd, hd2, if_false, add_zero]
        exact withinRoundings_mono _ _ _ _ (Nat.le_succ _) hnn hw
    · rw [if_neg hk] at he
      rcases List.mem_append.mp he with he | he
      · have hd : ¬ getDate l.logDate = e.1 := by
          intro hd
          exact hk (hd ▸ List.mem_map_of_mem Prod.fst he)
        rw [if_neg hd, add_zero]
        exact withinRoundings_mono _ _ _ _ (Nat.le_succ _)
          (dayTotal_nonneg getDate g ls e.1 hgls) (ih2 e he)
      · rw [List.mem_singleton] at he
        subst he
        have hno : ∀ x ∈ ls, getDate x.logDate ≠ getDate l.logDate := by
          intro x hx hd
          apply hk
          rw [hkeys]
          exact List.mem_map.mpr ⟨x, hx, hd⟩
        simp only [if_true]
        rw [dayTotal_of_no_log getDate g ls _ hno, hφ, h0, zero_add]
        have h1 : WithinRoundings 1 (fl64 (g l)) (g l) := by
          have := withinRoundings_fl64 0 (g l) (g l) hgl (withinRoundings_refl _)
          simpa using this
        exact withinRoundings_mono 1 _ _ _ (by omega) hgl h1

/-- The running binary64 sum of approximations of non-negative numbers. -/
theorem foldl_fl64_add_approx (k : ℕ) (xs : List (ℚ × ℚ))
    (hxs : ∀ x ∈ xs, WithinRoundings k x.1 x.2 ∧ 0 ≤ x.2) (m : ℕ) (hkm : k ≤ m)
    (acc A : ℚ) (hA : 0 ≤ A) (h : WithinRoundings m acc A) :
    WithinRoundings (m + xs.length)
      ((xs.map Prod.fst).foldl (fun a x => fl64 (a + x)) acc)
      (A + (xs.map Prod.snd).sum) := by
  induction xs generalizing m acc A with
  | nil => simpa using h
  | cons x rest ih =>
    obtain ⟨hx1, hx2⟩ := hxs x (List.mem_cons_self _ _)
    have hstep : WithinRoundings (m + 1) (fl64 (acc + x.1)) (A + x.2) :=
      withinRoundings_fl64 m _ _ (add_nonneg hA hx2)
        (withinRoundings_add m _ _ _ _ h (withinRoundings_mono k m _ _ hkm hx2 hx1))
    have := ih (fun y hy => hxs y (List.mem_cons_of_mem _ hy)) (m + 1) (by omega)
      (fl64 (acc + x.1)) (A + x.2) (add_nonneg hA hx2) hstep
    rw [List.map_cons, List.map_cons, List.foldl_cons, List.length_cons, List.sum_cons]
    have he : m + (rest.length + 1) = m + 1 + rest.length := by omega
    rw [he, ← add_assoc]
    exact this

/-- The fields of the reduction over the days, started from any accumulator: each nutrient
is the running binary64 sum of the entries, the count of meals is their exact sum. -/
theorem monthTotals_foldl (entries : List (ℕ × DayNutrition)) (acc : DayNutrition) :
    let total := entries.foldl
      (fun acc day =>
        ({ calories := fl64 (acc.calories + day.2.calories)
           protein := fl64 (acc.protein + day.2.protein)
           carbs := fl64 (acc.carbs + day.2.carbs)
           fat := fl64 (acc.fat + day.2.fat)
           fiber := fl64 (acc.fiber + day.2.fiber)
           sugar := fl64 (acc.sugar + day.2.sugar)
           sodium := fl64 (acc.sodium + day.2.sodium)
           meals := acc.meals + day.2.meals } : DayNutrition))
      acc
    total.calories =
      (entries.map (fun e => e.2.calories)).foldl (fun a x => fl64 (a + x)) acc.calories ∧
    total.protein =
      (entries.map (fun e => e.2.protein)).foldl (fun a x => fl64 (a + x)) acc.protein ∧
    total.carbs =
      (entries.map (fun e => e.2.carbs)).foldl (fun a x => fl64 (a + x)) acc.carbs ∧
    total.fat =
      (entries.map (fun e => e.2.fat)).foldl (fun a x => fl64 (a + x)) acc.fat ∧
    total.fiber =
      (entries.map (fun e => e.2.fiber)).foldl (fun a x => fl64 (a + x)) acc.fiber ∧
    total.sugar =
      (entries.map (fun e => e.2.sugar)).foldl (fun a x => fl64 (a + x)) acc.sugar ∧
    total.sodium =
      (entries.map (fun e => e.2.sodium)).foldl (fun a x => fl64 (a + x)) acc.sodium ∧
    total.meals = acc.meals + (entries.map (fun e => e.2.meals)).sum := by
  induction entries generalizing acc with
  | nil => simp
  | cons e es ih =>
    simp only [List.foldl_cons, List.map_cons, List.sum_cons]
    have := ih
      { calories := fl64 (acc.calories + e.2.calories)
        protein := fl64 (acc.protein + e.2.protein)
        carbs := fl64 (acc.carbs + e.2.carbs)
        fat := fl64 (acc.fat + e.2.fat)
        fiber := fl64 (acc.fiber + e.2.fiber)
        sugar := fl64 (acc.sugar + e.2.sugar)
        sodium := fl64 (acc.sodium + e.2.sodium)
        meals := acc.meals + e.2.meals }
    simp only [] at this
    obtain ⟨h1, h2, h3, h4, h5, h6, h7, h8⟩ := this
    refine ⟨h1, h2, h3, h4, h5, h6, h7, ?_⟩
    rw [h8]
    ring

/-- The entries in the order of `Object.values` are the entries of `nutritionByDay` in
another order. -/
theorem nutritionDays_perm (getDate : ℤ → ℕ) (logs : List FoodLog) :
    (nutritionDays getDate logs).Perm (nutritionByDay getDate logs) :=
  List.perm_insertionSort _ _

/-- A nutrient of `avgNutrition` before the division is the exact total over the logs up to
one rounding for each log and one for each day. -/
theorem monthTotals_within (getDate : ℤ → ℕ) (φ : DayNutrition → ℚ) (g : FoodLog → ℚ)
    (hφ : ∀ d l, φ (d.addLog l) = fl64 (φ d + g l)) (h0 : φ DayNutrition.zero = 0)
    (logs : List FoodLog) (hg : ∀ l ∈ logs, 0 ≤ g l)
    (hfold : φ (monthTotals getDate logs) =
      ((nutritionDays getDate logs).map (fun e => φ e.2)).foldl (fun a x => fl64 (a + x)) 0) :
    WithinRoundings (logs.length + distinctDays getDate logs) (φ (monthTotals getDate logs))
      (logs.map g).sum := by
  have hperm := nutritionDays_perm getDate logs
  obtain ⟨hnd, hkeys, _⟩ := nutritionByDay_spec getDate logs
  have hin := nutritionByDay_within getDate φ g hφ h0 logs hg
  have hlen : (nutritionDays getDate logs).length = distinctDays getDate logs := by
    rw [hperm.length_eq]
    exact daysWithLogs_eq_distinctDays getDate logs
  have hnd2 : ((nutritionDays getDate logs).map Prod.fst).Nodup :=
    (hperm.map Prod.fst).nodup_iff.mpr hnd
  have hcover : ∀ l ∈ logs,
      getDate l.logDate ∈ (nutritionDays getDate logs).map Prod.fst := by
    intro l hl
    rw [(hperm.map Prod.fst).mem_iff, hkeys]
    exact List.mem_map.mpr ⟨l, hl, rfl⟩
  have hsum := sum_dayTotal getDate g _ hnd2 logs hcover
  have happ := foldl_fl64_add_approx logs.length
    ((nutritionDays getDate logs).map (fun e => (φ e.2, dayTotal getDate g logs e.1)))
    (by
      intro x hx
      obtain ⟨e, he, rfl⟩ := List.mem_map.mp hx
      exact ⟨hin e (hperm.mem_iff.mp he), dayTotal_nonneg getDate g logs e.1 hg⟩)
    logs.length (le_refl _) 0 0 (le_refl 0)
    (withinRoundings_mono 0 _ _ _ (Nat.zero_le _) (le_refl 0) (withinRoundings_refl 0))
  rw [List.map_map, List.map_map, List.length_map, hlen, zero_add] at happ
  rw [List.map_map] at hsum
  rw [hfold, ← hsum]
  exact happ

/-- For a month of 28 to 31 days the binary64 quotient and product of the compliance rate
do not change the rounded percentage: it is `round (d / t * 100)`. -/
theorem complianceRate_exact (d t : ℕ) (ht1 : 28 ≤ t) (ht2 : t ≤ 31) (hd : d ≤ t) :
    mathRound (fl64 (fl64 ((d : ℚ) / t) * 100)) = mathRound ((d : ℚ) / t * 100) := by
  have htpos : (0 : ℚ) < t := by
    have : 0 < t := by omega
    exact_mod_cast this
  have hdt : (d : ℚ) ≤ t := by exact_mod_cast hd
  have hd0 : (0 : ℚ) ≤ d := Nat.cast_nonneg d
  obtain ⟨hw1, hw2⟩ := percentage_within 0 (d : ℚ) (d : ℚ) t htpos hd0
    (withinRoundings_refl _)
  have hn1 := Int.floor_le ((d : ℚ) / t * 100 + 1 / 2)
  have hn2 := Int.lt_floor_add_one ((d : ℚ) / t * 100 + 1 / 2)
  unfold mathRound
  generalize hy : fl64 (fl64 ((d : ℚ) / t) * 100) = y at hw1 hw2 ⊢
  generalize hn : ⌊(d : ℚ) / t * 100 + 1 / 2⌋ = n at hn1 hn2 ⊢
  have hx : (d : ℚ) / t * 100 * (2 * t) = 200 * d := by
    field_simp
    ring
  have hi1 : (2 * (t : ℤ) * n : ℤ) ≤ 200 * d + t := by
    have : (2 * (t : ℚ) * n : ℚ) ≤ 200 * d + t := by
      have := mul_le_mul_of_nonneg_right hn1 (by positivity : (0 : ℚ) ≤ 2 * t)
      linarith
    exact_mod_cast this
  have hi2 : (200 * (d : ℤ) + t : ℤ) < 2 * t * n + 2 * t := by
    have : (200 * (d : ℚ) + t : ℚ) < 2 * t * n + 2 * t := by
      have := mul_lt_mul_of_pos_right hn2 (by positivity : (0 : ℚ) < 2 * t)
      linarith
    exact_mod_cast this
  have hj1 : (2 * (t : ℤ) * n : ℤ) + 1 ≤ 200 * d + t := by
    interval_cases t <;> omega
  have hj2 : (200 * (d : ℤ) + t : ℤ) + 1 ≤ 2 * t * n + 2 * t := by omega
  have hq1 : (2 * (t : ℚ) * n : ℚ) + 1 ≤ 200 * d + t := by exact_mod_cast hj1
  have hq2 : (200 * (d : ℚ) + t : ℚ) + 1 ≤ 2 * t * n + 2 * t := by exact_mod_cast hj2
  have ht31 : (t : ℚ) ≤ 31 := by exact_mod_cast ht2
  have hx100 : (d : ℚ) / t * 100 ≤ 100 := by
    have : (d : ℚ) / t ≤ 1 := (div_le_one htpos).mpr hdt
    linarith
  have hx0 : (0 : ℚ) ≤ (d : ℚ) / t * 100 := by positivity
  -- the gap of the exact percentage from the two rounding boundaries
  have hg1 : (n : ℚ) + 1 / 62 ≤ (d : ℚ) / t * 100 + 1 / 2 := by
    have h1 : (n : ℚ) + 1 / (2 * t) ≤ (d : ℚ) / t * 100 + 1 / 2 := by
      rw [← sub_nonneg]
      have : (d : ℚ) / t * 100 + 1 / 2 - ((n : ℚ) + 1 / (2 * t)) =
          (200 * d + t - (2 * t * n + 1)) / (2 * t) := by
        field_simp
        ring
      rw [this]
      apply div_nonneg _ (by positivity)
      linarith
    have h2 : (1 : ℚ) / 62 ≤ 1 / (2 * t) :=
      one_div_le_one_div_of_le (by positivity) (by linarith)
    linarith
  have hg2 : (d : ℚ) / t * 100 + 1 / 2 + 1 / 62 ≤ (n : ℚ) + 1 := by
    have h1 : (d : ℚ) / t * 100 + 1 / 2 + 1 / (2 * t) ≤ (n : ℚ) + 1 := by
      rw [← sub_nonneg]
      have : (n : ℚ) + 1 - ((d : ℚ) / t * 100 + 1 / 2 + 1 / (2 * t)) =
          (2 * t * n + 2 * t - (200 * d + t + 1)) / (2 * t) := by
        field_simp
        ring
      rw [this]
      apply div_nonneg _ (by positivity)
      linarith
    have h2 : (1 : ℚ) / 62 ≤ 1 / (2 * t) :=
      one_div_le_one_div_of_le (by positivity) (by linarith)
    linarith
  norm_num at hw1 hw2
  rw [Int.floor_eq_iff]
  constructor <;> linarith

/-- Distinct days of a month of `totalDays` days are at most `totalDays`. -/
theorem distinctDays_le (getDate : ℤ → ℕ) (totalDays : ℕ) (logs : List FoodLog)
    (hdays : ∀ l ∈ logs, 1 ≤ getDate l.logDate ∧ getDate l.logDate ≤ totalDays) :
    distinctDays getDate logs ≤ totalDays := by
  unfold distinctDays
  have hsub : ((logs.map (fun l => getDate l.logDate)).dedup).toFinset ⊆
      Finset.Icc 1 totalDays := by
    intro d hd
    rw [List.mem_toFinset, List.mem_dedup, List.mem_map] at hd
    obtain ⟨l, hl, rfl⟩ := hd
    exact Finset.mem_Icc.mpr (hdays l hl)
  have hcard := Finset.card_le_card hsub
  rw [List.toFinset_card_of_nodup (List.nodup_dedup _), Nat.card_Icc] at hcard
  omega

/-- C22, counterexample. Three logs of one day with 0.1 g, 0.1 g and 2.3 g of protein, the
doubles of the program: their exact total is below 2.5 and rounds to 2, the running binary64
sum is 2.5 and the average protein of the report is 3. Three logs of one day with 0.7 g,
1.4 g and 1.4 g: the decimal total 3.5 rounds to 4, the running binary64 sum is below 3.5
and the average protein of the report is 3. -/
theorem monthly_average_rounded_sum :
    (avgDailyNutrition januaryDate
      [mealOf 0 (fl64 (1 / 10)), mealOf 0 (fl64 (1 / 10)), mealOf 0 (fl64 (23 / 10))]).protein
      = 3 ∧
    distinctDays januaryDate
      [mealOf 0 (fl64 (1 / 10)), mealOf 0 (fl64 (1 / 10)), mealOf 0 (fl64 (23 / 10))] = 1 ∧
    fl64 (1 / 10) + fl64 (1 / 10) + fl64 (23 / 10) < 5 / 2 ∧
    mathRound ((fl64 (1 / 10) + fl64 (1 / 10) + fl64 (23 / 10)) / 1) = 2 ∧
    (avgDailyNutrition januaryDate
      [mealOf 0 (fl64 (7 / 10)), mealOf 0 (fl64 (14 / 10)), mealOf 0 (fl64 (14 / 10))]).protein
      = 3 ∧
    distinctDays januaryDate
      [mealOf 0 (fl64 (7 / 10)), mealOf 0 (fl64 (14 / 10)), mealOf 0 (fl64 (14 / 10))] = 1 ∧
    mathRound (((7 : ℚ) / 10 + 14 / 10 + 14 / 10) / 1) = 4 := by
  have e01 : fl64 (1 / 10) = 3602879701896397 / 36028797018963968 := by
    rw [fl64_eq_of_binade _ (-4) 7205759403792794 (by norm_num) (by norm_num)
      (by norm_num) (roundHalfEven_eq _ _ (by norm_num) (by norm_num))]
    norm_num
  have e23 : fl64 (23 / 10) = 2589569785738035 / 1125899906842624 := by
    rw [fl64_eq_of_binade _ 1 5179139571476070 (by norm_num) (by norm_num)
      (by norm_num) (roundHalfEven_eq _ _ (by norm_num) (by norm_num))]
    norm_num
  have s1 : fl64 (3602879701896397 / 36028797018963968) = 3602879701896397 / 36028797018963968 := by
    rw [fl64_eq_of_binade _ (-4) 7205759403792794 (by norm_num) (by norm_num)
      (by norm_num) (roundHalfEven_eq _ _ (by norm_num) (by norm_num))]
    norm_num
  have s2 :
      fl64 (3602879701896397 / 36028797018963968 + 3602879701896397 / 36028797018963968) =
        3602879701896397 / 18014398509481984 := by
    rw [fl64_eq_of_binade _ (-3) 7205759403792794 (by norm_num) (by norm_num)
      (by norm_num) (roundHalfEven_eq _ _ (by norm_num) (by norm_num))]
    norm_num
  have s3 :
      fl64 (3602879701896397 / 18014398509481984 + 2589569785738035 / 1125899906842624) =
        5 / 2 := by
    rw [fl64_eq_of_binade _ 1 5629499534213120 (by norm_num) (by norm_num)
      (by norm_num) (roundHalfEven_eq _ _ (by norm_num) (by norm_num))]
    norm_num
  have s5 : fl64 (5 / 2) = 5 / 2 := by simpa using fl64_dyadic 5 1 (by norm_num)
  have e07 : fl64 (7 / 10) = 3152519739159347 / 4503599627370496 := by
    rw [fl64_eq_of_binade _ (-1) 6305039478318694 (by norm_num) (by norm_num)
      (by norm_num) (roundHalfEven_eq _ _ (by norm_num) (by norm_num))]
    norm_num
  have e14 : fl64 (14 / 10) = 3152519739159347 / 2251799813685248 := by
    rw [fl64_eq_of_binade _ 0 6305039478318694 (by norm_num) (by norm_num)
      (by norm_num) (roundHalfEven_eq _ _ (by norm_num) (by norm_num))]
    norm_num
  have t1 : fl64 (3152519739159347 / 4503599627370496) = 3152519739159347 / 4503599627370496 := by
    rw [fl64_eq_of_binade _ (-1) 6305039478318694 (by norm_num) (by norm_num)
      (by norm_num) (roundHalfEven_eq _ _ (by norm_num) (by norm_num))]
    norm_num
  have t1b : fl64 (3152519739159347 / 2251799813685248) = 3152519739159347 / 2251799813685248 := by
    rw [fl64_eq_of_binade _ 0 6305039478318694 (by norm_num) (by norm_num)
      (by norm_num) (roundHalfEven_eq _ _ (by norm_num) (by norm_num))]
    norm_num
  have t2 :
      fl64 (3152519739159347 / 4503599627370496 + 3152519739159347 / 2251799813685248) =
        1182194902184755 / 562949953421312 := by
    rw [fl64_eq_of_binade _ 1 4728779608739020 (by norm_num) (by norm_num)
      (by norm_num) (by unfold roundHalfEven; norm_num)]
    norm_num
  have t3 :
      fl64 (1182194902184755 / 562949953421312 + 3152519739159347 / 2251799813685248) =
        7881299347898367 / 2251799813685248 := by
    rw [fl64_eq_of_binade _ 1 7881299347898367 (by norm_num) (by norm_num)
      (by norm_num) (roundHalfEven_eq _ _ (by norm_num) (by norm_num))]
    norm_num
  have t4 : fl64 (7881299347898367 / 2251799813685248) = 7881299347898367 / 2251799813685248 := by
    rw [fl64_eq_of_binade _ 1 7881299347898367 (by norm_num) (by norm_num)
      (by norm_num) (roundHalfEven_eq _ _ (by norm_num) (by norm_num))]
    norm_num
  have hday : januaryDate 0 = 1 := by decide
  refine ⟨?_, ?_, ?_, ?_, ?_, ?_, ?_⟩
  · simp only [avgDailyNutrition, monthTotals, nutritionDays, daysWithLogs, nutritionByDay,
      List.foldl_cons, List.foldl_nil, addToNutritionByDay, mealOf, hday, if_true,
      DayNutrition.addLog, DayNutrition.zero, fieldOrZero, e01, e23, List.insertionSort,
      List.orderedInsert, List.length_cons, List.length_nil]
    simp only [zero_add, add_zero, fl64_zero, s1, s2, s3, s5, Nat.cast_one, div_one,
      Nat.cast_ofNat, zero_lt_one, if_true, Nat.lt_one_iff, gt_iff_lt]
    have n1 : ¬ ((3602879701896397 : ℚ) / 36028797018963968 = 0) := by norm_num
    have n2 : ¬ ((2589569785738035 : ℚ) / 1125899906842624 = 0) := by norm_num
    simp only [if_neg n1, if_neg n2, s1, s2, s3, s5]
    unfold mathRound
    norm_num
  · simp only [distinctDays, List.map_cons, List.map_nil, mealOf, hday]
    decide
  · rw [e01, e23]
    norm_num
  · rw [e01, e23]
    unfold mathRound
    norm_num
  · simp only [avgDailyNutrition, monthTotals, nutritionDays, daysWithLogs, nutritionByDay,
      List.foldl_cons, List.foldl_nil, addToNutritionByDay, mealOf, hday, if_true,
      DayNutrition.addLog, DayNutrition.zero, fieldOrZero, e07, e14, List.insertionSort,
      List.orderedInsert, List.length_cons, List.length_nil]
    simp only [zero_add, add_zero, fl64_zero, t1, t1b, t2, t3, t4, Nat.cast_one, div_one,
      Nat.cast_ofNat, zero_lt_one, if_true, Nat.lt_one_iff, gt_iff_lt]
    have n3 : ¬ ((3152519739159347 : ℚ) / 4503599627370496 = 0) := by norm_num
    have n4 : ¬ ((3152519739159347 : ℚ) / 2251799813685248 = 0) := by norm_num
    simp only [if_neg n3, if_neg n4, t1, t1b, t2, t3, t4]
    unfold mathRound
    norm_num
  · simp only [distinctDays, List.map_cons, List.map_nil, mealOf, hday]
    decide
  · unfold mathRound
    norm_num

/-- C22, amended. In the monthly report, for food logs of the month of which there is at
least one and which have no negative nutrient (an absent value counting 0), each nutrient
of `avgDailyNutrition` is `Math.round` of the binary64 quotient of the accumulated total of
the nutrient by the number of distinct days that have a log, not by the number of days of
the month. The accumulated total is the running binary64 sum of the logs of each day and
then of the days in ascending order; it is the exact total over the logs up to one rounding
for each log and one for each day (`WithinRoundings k a b` says that `a` lies between
`b * (1 - 2 ^ (-53)) ^ k` and `b * (1 + 2 ^ (-53)) ^ k`). The field `meals` is `Math.round`
of the binary64 quotient of the number of logs by the number of days. For a month of 28 to
31 days `complianceRate` is `round (daysWithLogs / totalDays * 100)` and is at most 100. -/
theorem monthly_averages (getDate : ℤ → ℕ) (totalDays : ℕ) (logs : List FoodLog)
    (hne : logs ≠ [])
    (hdays : ∀ l ∈ logs, 1 ≤ getDate l.logDate ∧ getDate l.logDate ≤ totalDays)
    (hnn : ∀ l ∈ logs,
      0 ≤ fieldOrZero l.calories ∧
      0 ≤ fieldOrZero l.protein ∧
      0 ≤ fieldOrZero l.carbs ∧
      0 ≤ fieldOrZero l.fat ∧
      0 ≤ fieldOrZero l.fiber ∧
      0 ≤ fieldOrZero l.sugar ∧
      0 ≤ fieldOrZero l.sodium)
    (hmonth : 28 ≤ totalDays ∧ totalDays ≤ 31) :
    avgDailyNutrition getDate logs =
      {
        calories := mathRound
          (fl64 ((monthTotals getDate logs).calories / distinctDays getDate logs))
        protein := mathRound
          (fl64 ((monthTotals getDate logs).protein / distinctDays getDate logs))
        carbs := mathRound
          (fl64 ((monthTotals getDate logs).carbs / distinctDays getDate logs))
        fat := mathRound
          (fl64 ((monthTotals getDate logs).fat / distinctDays getDate logs))
        fiber := mathRound
          (fl64 ((monthTotals getDate logs).fiber / distinctDays getDate logs))
        sugar := mathRound
          (fl64 ((monthTotals getDate logs).sugar / distinctDays getDate logs))
        sodium := mathRound
          (fl64 ((monthTotals getDate logs).sodium / distinctDays getDate logs))
        meals := mathRound (fl64 ((logs.length : ℚ) / distinctDays getDate logs)) } ∧
    WithinRoundings (logs.length + distinctDays getDate logs)
      (monthTotals getDate logs).calories (logs.map (fun l => fieldOrZero l.calories)).sum ∧
    WithinRoundings (logs.length + distinctDays getDate logs)
      (monthTotals getDate logs).protein (logs.map (fun l => fieldOrZero l.protein)).sum ∧
    WithinRoundings (logs.length + distinctDays getDate logs)
      (monthTotals getDate logs).carbs (logs.map (fun l => fieldOrZero l.carbs)).sum ∧
    WithinRoundings (logs.length + distinctDays getDate logs)
      (monthTotals getDate logs).fat (logs.map (fun l => fieldOrZero l.fat)).sum ∧
    WithinRoundings (logs.length + distinctDays getDate logs)
      (monthTotals getDate logs).fiber (logs.map (fun l => fieldOrZero l.fiber)).sum ∧
    WithinRoundings (logs.length + distinctDays getDate logs)
      (monthTotals getDate logs).sugar (logs.map (fun l => fieldOrZero l.sugar)).sum ∧
    WithinRoundings (logs.length + distinctDays getDate logs)
      (monthTotals getDate logs).sodium (logs.map (fun l => fieldOrZero l.sodium)).sum ∧
    daysWithLogs getDate logs = distinctDays getDate logs ∧
    0 < distinctDays getDate logs ∧
    distinctDays getDate logs ≤ totalDays ∧
    complianceRate getDate totalDays logs =
      mathRound ((distinctDays getDate logs : ℚ) / totalDays * 100) ∧
    complianceRate getDate totalDays logs ≤ 100 := by
  have hn := daysWithLogs_eq_distinctDays getDate logs
  have hle := distinctDays_le getDate totalDays logs hdays
  have hpos : 0 < distinctDays getDate logs := by
    unfold distinctDays
    rw [List.length_pos]
    intro h
    have hmem : ∀ d, d ∉ (logs.map (fun l => getDate l.logDate)).dedup := by
      rw [h]
      simp
    obtain ⟨l, ls, rfl⟩ := List.exists_cons_of_ne_nil hne
    exact hmem (getDate l.logDate) (List.mem_dedup.mpr (by simp))
  have hfold := monthTotals_foldl (nutritionDays getDate logs) DayNutrition.zero
  simp only [] at hfold
  have hmeals : (monthTotals getDate logs).meals = (logs.length : ℚ) := by
    obtain ⟨_, _, hsum⟩ := nutritionByDay_spec getDate logs
    have h1 := hsum (fun d => d.meals) (fun _ => 1) (fun _ _ => rfl) rfl
    have h2 : ((nutritionDays getDate logs).map (fun e => e.2.meals)).sum =
        ((nutritionByDay getDate logs).map (fun e => e.2.meals)).sum :=
      ((nutritionDays_perm getDate logs).map _).sum_eq
    unfold monthTotals
    rw [hfold.2.2.2.2.2.2.2, h2, h1]
    simp [DayNutrition.zero]
  have hw0 : WithinRoundings (logs.length + distinctDays getDate logs)
      (monthTotals getDate logs).calories (logs.map (fun l => fieldOrZero l.calories)).sum :=
    monthTotals_within getDate (fun d => d.calories) (fun l => fieldOrZero l.calories)
      (fun _ _ => rfl) rfl logs (fun l hl => (hnn l hl).1) hfold.1
  have hw1 : WithinRoundings (logs.length + distinctDays getDate logs)
      (monthTotals getDate logs).protein (logs.map (fun l => fieldOrZero l.protein)).sum :=
    monthTotals_within getDate (fun d => d.protein) (fun l => fieldOrZero l.protein)
      (fun _ _ => rfl) rfl logs (fun l hl => (hnn l hl).2.1) hfold.2.1
  have hw2 : WithinRoundings (logs.length + distinctDays getDate logs)
      (monthTotals getDate logs).carbs (logs.map (fun l => fieldOrZero l.carbs)).sum :=
    monthTotals_within getDate (fun d => d.carbs) (fun l => fieldOrZero l.carbs)
      (fun _ _ => rfl) rfl logs (fun l hl => (hnn l hl).2.2.1) hfold.2.2.1
  have hw3 : WithinRoundings (logs.length + distinctDays getDate logs)
      (monthTotals getDate logs).fat (logs.map (fun l => fieldOrZero l.fat)).sum :=
    monthTotals_within getDate (fun d => d.fat) (fun l => fieldOrZero l.fat)
      (fun _ _ => rfl) rfl logs (fun l hl => (hnn l hl).2.2.2.1) hfold.2.2.2.1
  have hw4 : WithinRoundings (logs.length + distinctDays getDate logs)
      (monthTotals getDate logs).fiber (logs.map (fun l => fieldOrZero l.fiber)).sum :=
    monthTotals_within getDate (fun d => d.fiber) (fun l => fieldOrZero l.fiber)
      (fun _ _ => rfl) rfl logs (fun l hl => (hnn l hl).2.2.2.2.1) hfold.2.2.2.2.1
  have hw5 : WithinRoundings (logs.length + distinctDays getDate logs)
      (monthTotals getDate logs).sugar (logs.map (fun l => fieldOrZero l.sugar)).sum :=
    monthTotals_within getDate (fun d => d.sugar) (fun l => fieldOrZero l.sugar)
      (fun _ _ => rfl) rfl logs (fun l hl => (hnn l hl).2.2.2.2.2.1) hfold.2.2.2.2.2.1
  have hw6 : WithinRoundings (logs.length + distinctDays getDate logs)
      (monthTotals getDate logs).sodium (logs.map (fun l => fieldOrZero l.sodium)).sum :=
    monthTotals_within getDate (fun d => d.sodium) (fun l => fieldOrZero l.sodium)
      (fun _ _ => rfl) rfl logs (fun l hl => (hnn l hl).2.2.2.2.2.2) hfold.2.2.2.2.2.2.1
  have hrate : complianceRate getDate totalDays logs =
      mathRound ((distinctDays getDate logs : ℚ) / totalDays * 100) := by
    unfold complianceRate
    rw [hn]
    exact complianceRate_exact _ _ hmonth.1 hmonth.2 hle
  refine ⟨?_, hw0, hw1, hw2, hw3, hw4, hw5, hw6, hn, hpos, hle, hrate, ?_⟩
  · unfold avgDailyNutrition
    simp only []
    rw [hn, if_pos hpos, hmeals]
  · rw [hrate]
    unfold mathRound
    have hT : (0 : ℚ) < totalDays := by
      have : 0 < totalDays := lt_of_lt_of_le hpos hle
      exact_mod_cast this
    have hx : (distinctDays getDate logs : ℚ) / totalDays * 100 ≤ 100 := by
      have h1 : (distinctDays getDate logs : ℚ) ≤ totalDays := by exact_mod_cast hle
      have h2 : (distinctDays getDate logs : ℚ) / totalDays ≤ 1 := (div_le_one hT).mpr h1
      linarith
    have hfl : ⌊(distinctDays getDate logs : ℚ) / totalDays * 100 + 1 / 2⌋ < 101 := by
      rw [Int.floor_lt]
      push_cast
      linarith
    omega

/-- Witness of C22 (amended): two lunches of 100 kcal on 1 January and one on 3 January, in
a month of 31 days: every binary64 sum is exact, the average is 150 kcal over the 2 days
with logs (not 10 over the 31 days of the month) and the compliance rate is 6. -/
theorem monthly_averages_witness :
    distinctDays januaryDate
      [sampleLunch 0, sampleLunch 3600000, sampleLunch (2 * msPerDay)] = 2 ∧
    (avgDailyNutrition januaryDate
      [sampleLunch 0, sampleLunch 3600000, sampleLunch (2 * msPerDay)]).calories = 150 ∧
    (avgDailyNutrition januaryDate
      [sampleLunch 0, sampleLunch 3600000, sampleLunch (2 * msPerDay)]).meals = 2 ∧
    complianceRate januaryDate 31
      [sampleLunch 0, sampleLunch 3600000, sampleLunch (2 * msPerDay)] = 6 ∧
    mathRound ((300 : ℚ) / 31) = 10 := by
  have hd : distinctDays januaryDate
      [sampleLunch 0, sampleLunch 3600000, sampleLunch (2 * msPerDay)] = 2 := by decide
  have ht := monthly_averages januaryDate 31
    [sampleLunch 0, sampleLunch 3600000, sampleLunch (2 * msPerDay)] (by simp) (by
      intro l hl
      simp only [List.mem_cons, List.mem_singleton, List.not_mem_nil, or_false] at hl
      rcases hl with rfl | rfl | rfl <;> decide) (by
      intro l hl
      simp only [List.mem_cons, List.mem_singleton, List.not_mem_nil, or_false] at hl
      rcases hl with rfl | rfl | rfl <;> norm_num [sampleLunch, fieldOrZero])
    (by norm_num)
  have e100 : fl64 100 = 100 := by simpa using fl64_natCast 100 (by norm_num)
  have e200 : fl64 200 = 200 := by simpa using fl64_natCast 200 (by norm_num)
  have e300 : fl64 300 = 300 := by simpa using fl64_natCast 300 (by norm_num)
  have e150 : fl64 150 = 150 := by simpa using fl64_natCast 150 (by norm_num)
  have e32 : fl64 (3 / 2) = 3 / 2 := by simpa using fl64_dyadic 3 1 (by norm_num)
  have hday0 : januaryDate 0 = 1 := by decide
  have hday1 : januaryDate 3600000 = 1 := by decide
  have hday2 : januaryDate (2 * msPerDay) = 3 := by decide
  have hcal : (monthTotals januaryDate
      [sampleLunch 0, sampleLunch 3600000, sampleLunch (2 * msPerDay)]).calories = 300 := by
    have n100 : ¬ ((100 : ℚ) = 0) := by norm_num
    have h13 : ¬ ((1 : ℕ) = 3) := by decide
    have h31 : (1 : ℕ) ≤ 3 := by decide
    simp only [monthTotals, nutritionDays, nutritionByDay, List.foldl_cons, List.foldl_nil,
      addToNutritionByDay, sampleLunch, hday0, hday1, hday2, if_true, h13, if_false,
      DayNutrition.addLog, DayNutrition.zero, fieldOrZero, if_neg n100, List.insertionSort,
      List.orderedInsert, h31, zero_add, e100, if_true, show (100 : ℚ) + 100 = 200 by norm_num,
      e200, show (200 : ℚ) + 100 = 300 by norm_num, e300]
  refine ⟨hd, ?_, ?_, ?_, ?_⟩
  · rw [ht.1, hd, hcal]
    show ((mathRound (fl64 (300 / ((2 : ℕ) : ℚ))) : ℤ) : ℚ) = 150
    rw [show (300 : ℚ) / ((2 : ℕ) : ℚ) = 150 by norm_num, e150]
    unfold mathRound
    norm_num
  · rw [ht.1, hd]
    show ((mathRound (fl64 (((3 : ℕ) : ℚ) / ((2 : ℕ) : ℚ))) : ℤ) : ℚ) = 2
    rw [show ((3 : ℕ) : ℚ) / ((2 : ℕ) : ℚ) = 3 / 2 by norm_num, e32]
    unfold mathRound
    norm_num
  · rw [ht.2.2.2.2.2.2.2.2.2.2.2.1, hd]
    unfold mathRound
    norm_num
  · unfold mathRound
    norm_num

/-- The value of `Math.round` on an integer is the integer. -/
theorem mathRound_intCast (n : ℤ) : mathRound (n : ℚ) = n := by
  unfold mathRound
  rw [Int.floor_eq_iff]
  constructor <;> norm_num

/-- The value of `Math.round` is monotone. -/
theorem mathRound_mono (x y : ℚ) (h : x ≤ y) : mathRound x ≤ mathRound y := by
  unfold mathRound
  exact Int.floor_mono (by linarith)

/-- C23. For an age `a` in months and a calorie target `c` the derived needs are
`carbs = round (c * 0.6 / 4)` and `fat = round (c * 0.25 / 9)`, each the integer within one
half of the quotient; `fiber = 5` and `water = 800` below 12 months, and
`fiber = round (a / 12 + 5)` and `water = a * 50` from 12 months on; the fiber target is
never below 5. -/
theorem nutritionNeeds_derived (a : ℤ) (c p : ℚ) :
    (nutritionNeeds a c p).carbs = mathRound (c * (6 / 10) / 4) ∧
    (nutritionNeeds a c p).fat = mathRound (c * (25 / 100) / 9) ∧
    |(nutritionNeeds a c p).carbs - c * (6 / 10) / 4| ≤ 1 / 2 ∧
    |(nutritionNeeds a c p).fat - c * (25 / 100) / 9| ≤ 1 / 2 ∧
    (a < 12 → (nutritionNeeds a c p).fiber = 5 ∧ (nutritionNeeds a c p).water = 800) ∧
    (12 ≤ a →
      (nutritionNeeds a c p).fiber = mathRound ((a : ℚ) / 12 + 5) ∧
      (nutritionNeeds a c p).water = (a : ℚ) * 50) ∧
    5 ≤ (nutritionNeeds a c p).fiber ∧
    (nutritionNeeds 24 1250 25).carbs = 188 ∧ (nutritionNeeds 24 1250 25).fat = 35 ∧
    (nutritionNeeds 24 1250 25).fiber = 7 ∧ (nutritionNeeds 24 1250 25).water = 1200 := by
  have hfib : ∀ x : ℚ, 12 ≤ x → (6 : ℤ) ≤ mathRound (x / 12 + 5) := by
    intro x hx
    unfold mathRound
    rw [Int.le_floor]
    push_cast
    linarith
  refine ⟨rfl, rfl, ?_, ?_, ?_, ?_, ?_, ?_, ?_, ?_, ?_⟩
  · have h := mathRound_bounds (c * (6 / 10) / 4)
    show |((mathRound (c * (6 / 10) / 4) : ℤ) : ℚ) - c * (6 / 10) / 4| ≤ 1 / 2
    rw [abs_le]
    constructor <;> linarith [h.1, h.2]
  · have h := mathRound_bounds (c * (25 / 100) / 9)
    show |((mathRound (c * (25 / 100) / 9) : ℤ) : ℚ) - c * (25 / 100) / 9| ≤ 1 / 2
    rw [abs_le]
    constructor <;> linarith [h.1, h.2]
  · intro ha
    have ha2 : (a : ℚ) < 12 := by exact_mod_cast ha
    simp [nutritionNeeds, ha2]
  · intro ha
    have ha2 : ¬ (a : ℚ) < 12 := by
      rw [not_lt]
      exact_mod_cast ha
    simp only [nutritionNeeds, if_neg ha2, true_and]
    have h50 : (a : ℚ) * 50 = ((a * 50 : ℤ) : ℚ) := by push_cast; ring
    rw [h50, mathRound_intCast]
  · by_cases ha : (a : ℚ) < 12
    · simp [nutritionNeeds, ha]
    · simp only [nutritionNeeds, if_neg ha]
      have h6 := hfib (a : ℚ) (not_lt.mp ha)
      have h6q : ((6 : ℤ) : ℚ) ≤ (mathRound ((a : ℚ) / 12 + 5) : ℚ) := by exact_mod_cast h6
      push_cast at h6q
      linarith
  · simp [nutritionNeeds, mathRound]
    norm_num
  · simp [nutritionNeeds, mathRound]
    norm_num
  · simp [nutritionNeeds, mathRound]
    norm_num
  · simp [nutritionNeeds, mathRound]
    norm_num

/-- Witness of C23: a child of 30 months with a target of 1250 kcal. -/
theorem nutritionNeeds_derived_witness :
    (nutritionNeeds ((30 : ℤ) : ℚ) 1250 25).fiber = mathRound (((30 : ℤ) : ℚ) / 12 + 5) ∧
    (nutritionNeeds ((30 : ℤ) : ℚ) 1250 25).water = ((30 : ℤ) : ℚ) * 50 :=
  (nutritionNeeds_derived 30 1250 25).2.2.2.2.2.1 (by norm_num)

/-- The stats handler for a child without any growth record. -/
theorem dashboardStats_no_growth (birthDate today : ℤ) (gender : String)
    (logs : List FoodLog) (rems : List Reminder) (currentTime : ℕ) (k : ℚ) :
    dashboardStats birthDate today gender none logs [] rems currentTime k =
      .ok
        { ageInMonths := calculateAge birthDate today
          trend := .stable
          daysSinceLastRecord := none
          needsUpdate := false
          consumed := todayNutrition logs
          targetCalories := 0
          targetProtein := 0
          complianceCalories := 0
          complianceProtein := 0
          upcoming := upcomingReminders rems currentTime
          nextReminder := getNextReminder rems currentTime
          overallStatus := getOverallStatus 0 0 k none } := by
  have h0 : mathRound 0 = 0 := by
    unfold mathRound
    norm_num
  have hc : calorieCompliance logs 0 = 0 := by
    unfold calorieCompliance
    simp
  have hp : proteinCompliance logs 0 = 0 := by
    unfold proteinCompliance
    simp
  have ht : growthTrend [] = .ok .stable := by
    unfold growthTrend
    simp
    rfl
  unfold dashboardStats
  simp only [ht, hc, hp, h0, Int.cast_zero]

/-- C25, counterexample. For a child without growth records, born 10 days ago, with a
breakfast logged today, the stats handler answers with targets 0 and compliance 0; it does
not report an error. -/
theorem dashboardStats_no_growth_answers :
    dashboardStats 0 (10 * msPerDay) "male" none [sampleBreakfast] [] [] 600 50 =
      .ok
        { ageInMonths := 0
          trend := .stable
          daysSinceLastRecord := none
          needsUpdate := false
          consumed := { calories := 300, protein := 10, carbs := 0, fat := 0 }
          targetCalories := 0
          targetProtein := 0
          complianceCalories := 0
          complianceProtein := 0
          upcoming := []
          nextReminder := none
          overallStatus :=
            { status := .needs_improvement,
              message := "Perlu lebih konsisten dalam tracking", priority := .medium } } := by
  rw [dashboardStats_no_growth]
  have ha : calculateAge 0 (10 * msPerDay) = 0 := by
    unfold calculateAge mathFloor msPerMonth msPerDay
    norm_num
  have hn : todayNutrition [sampleBreakfast] =
      { calories := 300, protein := 10, carbs := 0, fat := 0 } := by
    have e300 : fl64 300 = 300 := by simpa using fl64_natCast 300 (by norm_num)
    have e10 : fl64 10 = 10 := by simpa using fl64_natCast 10 (by norm_num)
    simp [todayNutrition, fieldOrZero, sampleBreakfast, e300, e10, fl64_zero]
  have ho : getOverallStatus 0 0 50 none =
      { status := .needs_improvement, message := "Perlu lebih konsisten dalam tracking",
        priority := .medium } := by
    simp [getOverallStatus, fl64_zero]
    norm_num
  rw [ha, hn, ho]
  rfl

/-- C25, amended. For a child without growth records the needs endpoint and the N-day
compliance report answer 404 with the message `No growth records found` and produce no
figures; the stats handler of the dashboard reports no error and answers with both targets
and both compliance values 0. -/
theorem no_growth_record_answers (birthDate today : ℤ) (gender : String)
    (logs : List FoodLog) (rems : List Reminder) (currentTime : ℕ) (k : ℚ) :
    nutritionNeedsHandler birthDate today gender none =
      .error (404, "No growth records found") ∧
    nutritionComplianceHandler birthDate today gender none logs =
      .error (404, "No growth records found") ∧
    ∃ s : DashboardStats,
      dashboardStats birthDate today gender none logs [] rems currentTime k = .ok s ∧
      s.targetCalories = 0 ∧ s.targetProtein = 0 ∧
      s.complianceCalories = 0 ∧ s.complianceProtein = 0 :=
  ⟨rfl, rfl, _, dashboardStats_no_growth birthDate today gender logs rems currentTime k,
    rfl, rfl, rfl, rfl⟩

/-- C28. For a child without any growth record, whatever food logs and reminders exist and
whatever the tracking consistency is, the stats handler answers with both targets and both
compliance values 0, `daysSinceLastRecord` null, `needsUpdate` false and the overall status
`needs_improvement` with priority `medium`. -/
theorem dashboard_without_growth_record (birthDate today : ℤ) (gender : String)
    (logs : List FoodLog) (rems : List Reminder) (currentTime : ℕ) (k : ℚ) :
    ∃ s : DashboardStats,
      dashboardStats birthDate today gender none logs [] rems currentTime k = .ok s ∧
      s.targetCalories = 0 ∧ s.targetProtein = 0 ∧
      s.complianceCalories = 0 ∧ s.complianceProtein = 0 ∧
      calorieCompliance logs 0 = 0 ∧ proteinCompliance logs 0 = 0 ∧
      s.daysSinceLastRecord = none ∧ s.needsUpdate = false ∧
      s.overallStatus.status = .needs_improvement ∧
      s.overallStatus.priority = .medium ∧
      s.overallStatus.status ≠ .needs_attention := by
  have ho : getOverallStatus 0 0 k none =
      { status := .needs_improvement, message := "Perlu lebih konsisten dalam tracking",
        priority := .medium } := by
    simp [getOverallStatus, fl64_zero]
    norm_num
  refine ⟨_, dashboardStats_no_growth birthDate today gender logs rems currentTime k,
    rfl, rfl, rfl, rfl, ?_, ?_, rfl, rfl, ?_, ?_, ?_⟩
  · unfold calorieCompliance
    simp
  · unfold proteinCompliance
    simp
  · show (getOverallStatus 0 0 k none).status = .needs_improvement
    rw [ho]
  · show (getOverallStatus 0 0 k none).priority = .medium
    rw [ho]
  · show (getOverallStatus 0 0 k none).status ≠ .needs_attention
    rw [ho]
    decide

/-- C26. A successful update with any combination of weight, height, head circumference
and notes leaves `ageInMonths`, `recordDate` and `childId` of the record as they were;
every supplied field takes the value of the request, every field that is not supplied
keeps its previous value, and `bmi` and `nutritionStatus` are derived anew. -/
theorem update_frame (record s : GrowthRecord) (w h hc : Option ℚ) (notes : Option String)
    (hs : updateGrowthRecord record w h hc notes = .ok s) :
    s.ageInMonths = record.ageInMonths ∧
    s.recordDate = record.recordDate ∧
    s.childId = record.childId ∧
    s.weight = (match w with
      | some v => v
      | none => record.weight) ∧
    s.height = (match h with
      | some v => v
      | none => record.height) ∧
    s.headCircumference = (match hc with
      | some v => some v
      | none => record.headCircumference) ∧
    s.notes = (match notes with
      | some v => some v
      | none => record.notes) ∧
    s.bmi = some (calculateBMI s.weight s.height) ∧
    s.nutritionStatus = some (GrowthRecord.preSaveStatus (calculateBMI s.weight s.height)) := by
  rw [updateGrowthRecord_eq, save_eq_ok_iff] at hs
  obtain ⟨_, rfl⟩ := hs
  refine ⟨rfl, rfl, rfl, ?_, ?_, ?_, ?_, rfl, rfl⟩
  · cases w <;> rfl
  · cases h <;> rfl
  · cases hc <;> rfl
  · cases notes <;> rfl

/-- Witness of C26: the stored record of 12 kg at 85 cm and 18 months, of which only the
weight is updated to 13 kg. -/
theorem update_frame_witness :
    updateGrowthRecord storedRecord18 (some 13) none none none =
      .ok (GrowthRecord.preSave { storedRecord18 with weight := 13 }) ∧
    (GrowthRecord.preSave { storedRecord18 with weight := 13 }).ageInMonths = 18 ∧
    (GrowthRecord.preSave { storedRecord18 with weight := 13 }).recordDate = 0 ∧
    (GrowthRecord.preSave { storedRecord18 with weight := 13 }).weight = 13 ∧
    (GrowthRecord.preSave { storedRecord18 with weight := 13 }).height = 85 := by
  have hu : updateGrowthRecord storedRecord18 (some 13) none none none =
      .ok (GrowthRecord.preSave { storedRecord18 with weight := 13 }) := by
    rw [updateGrowthRecord_eq, save_eq_ok_iff]
    refine ⟨?_, rfl⟩
    simp only [GrowthRecord.validationErrors, GrowthRecord.weightErrors,
      GrowthRecord.heightErrors, GrowthRecord.optionalErrors, storedRecord18, Option.getD,
      Option.map]
    norm_num
  have ht := update_frame storedRecord18 _ (some 13) none none none hu
  exact ⟨hu, ht.1, ht.2.1, ht.2.2.2.1, ht.2.2.2.2.1⟩

/-- C27, counterexample. At 6 months and the least validated weight of 0.5 kg the calorie
target is `round (98 * 0.5) = 49`, below 54. -/
theorem calorieNeeds_least_is_49 :
    calculateCalorieNeeds 6 "male" (1 / 2) = 49 ∧ calculateCalorieNeeds 6 "female" (1 / 2) = 49 ∧
    calculateCalorieNeeds 11 "male" (1 / 2) = 49 := by
  refine ⟨?_, ?_, ?_⟩ <;>
    (unfold calculateCalorieNeeds mathRound
     norm_num)

/-- C27, amended. For a weight of at least 0.5 kg, the lower end of the validated range,
every age (negative ages included) and every gender, the calorie target is at least 49 (at
least 54 outside the bracket from 6 to 12 months) and the protein target at least 1; both are
positive, so the per-day values of the N-day compliance report, which divide by them, are
finite numbers. -/
theorem needs_positive (a w : ℚ) (g : String) (hw1 : 1 / 2 ≤ w) :
    49 ≤ calculateCalorieNeeds a g w ∧
    1 ≤ calculateProteinNeeds a w ∧
    (¬ (6 ≤ a ∧ a < 12) → 54 ≤ calculateCalorieNeeds a g w) ∧
    (∀ intake : ℚ,
      (∃ v : ℚ, dayCompliance intake (calculateCalorieNeeds a g w) = .fin v) ∧
      (∃ v : ℚ, dayCompliance intake (calculateProteinNeeds a w) = .fin v)) := by
  have hr : ∀ (x : ℚ) (n : ℤ), (n : ℚ) ≤ x + 1 / 2 → (n : ℚ) ≤ (mathRound x : ℚ) := by
    intro x n hx
    have : n ≤ mathRound x := by
      unfold mathRound
      rw [Int.le_floor]
      exact hx
    exact_mod_cast this
  have h108 : (54 : ℚ) ≤ (mathRound (108 * w) : ℚ) := by
    have := hr (108 * w) 54 (by push_cast; linarith)
    exact_mod_cast this
  have h98 : (49 : ℚ) ≤ (mathRound (98 * w) : ℚ) := by
    have := hr (98 * w) 49 (by push_cast; linarith)
    exact_mod_cast this
  have h22 : (1 : ℚ) ≤ (mathRound (22 / 10 * w) : ℚ) := by
    have := hr (22 / 10 * w) 1 (by push_cast; linarith)
    exact_mod_cast this
  have h16 : (1 : ℚ) ≤ (mathRound (16 / 10 * w) : ℚ) := by
    have := hr (16 / 10 * w) 1 (by push_cast; linarith)
    exact_mod_cast this
  have hcal54 : ¬ (6 ≤ a ∧ a < 12) → 54 ≤ calculateCalorieNeeds a g w := by
    intro hno
    unfold calculateCalorieNeeds
    by_cases h1 : a < 6
    · rw [if_pos h1]
      exact h108
    · rw [if_neg h1]
      by_cases h2 : a < 12
      · exact absurd ⟨not_lt.mp h1, h2⟩ hno
      · rw [if_neg h2]
        split_ifs <;> norm_num
  have hcal : 49 ≤ calculateCalorieNeeds a g w := by
    by_cases hb : 6 ≤ a ∧ a < 12
    · unfold calculateCalorieNeeds
      rw [if_neg (not_lt.mpr hb.1), if_pos hb.2]
      exact h98
    · linarith [hcal54 hb]
  have hprot : 1 ≤ calculateProteinNeeds a w := by
    unfold calculateProteinNeeds
    by_cases h1 : a < 6
    · rw [if_pos h1]
      exact h22
    · rw [if_neg h1]
      by_cases h2 : a < 12
      · rw [if_pos h2]
        exact h16
      · rw [if_neg h2]
        split_ifs <;> norm_num
  refine ⟨hcal, hprot, hcal54, fun intake => ⟨⟨_, dayCompliance_of_ne_zero _ _ ?_⟩,
    ⟨_, dayCompliance_of_ne_zero _ _ ?_⟩⟩⟩
  · linarith
  · linarith

/-- Witness of C27 (amended): 0.5 kg at 6 months. -/
theorem needs_positive_witness :
    ((1 : ℚ) / 2 ≤ 1 / 2) ∧
    49 ≤ calculateCalorieNeeds 6 "male" (1 / 2) ∧
    1 ≤ calculateProteinNeeds 6 (1 / 2) :=
  ⟨le_refl _,
   (needs_positive 6 (1 / 2) "male" (le_refl _)).1,
   (needs_positive 6 (1 / 2) "male" (le_refl _)).2.1⟩

/-- The reduction of the export summary is the sum of the fields. -/
theorem foldl_add_eq_sum (f : FoodLog → ℚ) (logs : List FoodLog) (a : ℚ) :
    logs.foldl (fun sum log => sum + f log) a = a + (logs.map f).sum := by
  induction logs generalizing a with
  | nil => simp
  | cons l ls ih =>
    rw [List.foldl_cons, ih]
    simp only [List.map_cons, List.sum_cons, add_assoc]

/-- C29, the code at the failing input. The export summary divides the totals by the number
of logs: two lunches of 100 kcal and 5 g on the same day, the only day with a log, give
`avgCaloriesPerDay = 100` and `avgProteinPerDay = 5`, where the average per day is 200 and
10; in general both fields are the total over `max 1 (number of logs)`, and 0 without
logs. -/
theorem export_average_is_per_log :
    isoDate (sampleLunch 0).logDate = 0 ∧ isoDate (sampleLunch 3600000).logDate = 0 ∧
    avgCaloriesPerDay [sampleLunch 0, sampleLunch 3600000] = 100 ∧
    avgProteinPerDay [sampleLunch 0, sampleLunch 3600000] = 5 ∧
    (∀ logs : List FoodLog,
      avgCaloriesPerDay logs =
        (logs.map (fun l => fieldOrZero l.calories)).sum / (max 1 logs.length : ℕ) ∧
      avgProteinPerDay logs =
        (logs.map (fun l => fieldOrZero l.protein)).sum / (max 1 logs.length : ℕ)) ∧
    avgCaloriesPerDay [] = 0 ∧ avgProteinPerDay [] = 0 := by
  have hgen : ∀ logs : List FoodLog,
      avgCaloriesPerDay logs =
        (logs.map (fun l => fieldOrZero l.calories)).sum / (max 1 logs.length : ℕ) ∧
      avgProteinPerDay logs =
        (logs.map (fun l => fieldOrZero l.protein)).sum / (max 1 logs.length : ℕ) := by
    intro logs
    unfold avgCaloriesPerDay avgProteinPerDay
    rw [foldl_add_eq_sum, foldl_add_eq_sum, zero_add, zero_add]
    exact ⟨rfl, rfl⟩
  refine ⟨by decide, by decide, ?_, ?_, hgen, ?_, ?_⟩
  · rw [(hgen _).1]
    norm_num [sampleLunch, fieldOrZero]
  · rw [(hgen _).2]
    norm_num [sampleLunch, fieldOrZero]
  · rw [(hgen _).1]
    simp
  · rw [(hgen _).2]
    simp

/-- The status `needs_attention` depends on the age of the last growth record alone. -/
theorem getOverallStatus_attention_iff (c p k : ℚ) (d : Option ℚ) :
    (getOverallStatus c p k d).status = .needs_attention ↔
      60 < (match d with
        | some v => v
        | none => 0) := by
  unfold getOverallStatus
  simp only []
  split_ifs <;> simp_all

/-- C30. For a fixed `daysSinceLastGrowth`, raising calorie compliance, protein compliance
or tracking consistency never lowers the overall status: `needs_attention` is returned for
both triples or for neither, and otherwise the rank under
`needs_improvement < good < excellent` does not decrease. -/
theorem getOverallStatus_monotone (d : Option ℚ) (c1 p1 k1 c2 p2 k2 : ℚ)
    (hc : c1 ≤ c2) (hp : p1 ≤ p2) (hk : k1 ≤ k2) :
    ((getOverallStatus c1 p1 k1 d).status = .needs_attention ↔
      (getOverallStatus c2 p2 k2 d).status = .needs_attention) ∧
    overallRank (getOverallStatus c1 p1 k1 d).status ≤
      overallRank (getOverallStatus c2 p2 k2 d).status := by
  refine ⟨by rw [getOverallStatus_attention_iff, getOverallStatus_attention_iff], ?_⟩
  have havg : fl64 (fl64 (c1 + p1) / 2) ≤ fl64 (fl64 (c2 + p2) / 2) := by
    apply fl64_mono
    have := fl64_mono (c1 + p1) (c2 + p2) (by linarith)
    linarith
  unfold getOverallStatus
  simp only []
  by_cases hd : (match d with
      | some v => v
      | none => 0) > 60
  · rw [if_pos hd, if_pos hd]
  · rw [if_neg hd, if_neg hd]
    by_cases h80 : fl64 (fl64 (c1 + p1) / 2) ≥ 80 ∧ k1 ≥ 80
    · have h80b : fl64 (fl64 (c2 + p2) / 2) ≥ 80 ∧ k2 ≥ 80 :=
        ⟨le_trans h80.1 havg, le_trans h80.2 hk⟩
      rw [if_pos h80, if_pos h80b]
    · rw [if_neg h80]
      by_cases h60 : fl64 (fl64 (c1 + p1) / 2) ≥ 60 ∧ k1 ≥ 60
      · have h60b : fl64 (fl64 (c2 + p2) / 2) ≥ 60 ∧ k2 ≥ 60 :=
          ⟨le_trans h60.1 havg, le_trans h60.2 hk⟩
        rw [if_pos h60]
        split_ifs <;> simp [overallRank]
      · rw [if_neg h60]
        split_ifs <;> simp [overallRank]

/-- Witness of C30: a tracking consistency raised from 50 to 90 at full compliance lifts
the status from `needs_improvement` to `excellent`. -/
theorem getOverallStatus_monotone_witness :
    overallRank (getOverallStatus 100 100 50 (some 10)).status ≤
      overallRank (getOverallStatus 100 100 90 (some 10)).status ∧
    (getOverallStatus 100 100 50 (some 10)).status = .needs_improvement ∧
    (getOverallStatus 100 100 90 (some 10)).status = .excellent := by
  have e200 : fl64 200 = 200 := by simpa using fl64_natCast 200 (by norm_num)
  have e100 : fl64 100 = 100 := by simpa using fl64_natCast 100 (by norm_num)
  have havg : fl64 (fl64 (100 + 100) / 2) = 100 := by
    rw [show (100 : ℚ) + 100 = 200 by norm_num, e200, show (200 : ℚ) / 2 = 100 by norm_num,
      e100]
  have hgen : ∀ c p k d : ℚ,
      (getOverallStatus c p k (some d)).status =
        if 60 < d then .needs_attention
        else if 80 ≤ fl64 (fl64 (c + p) / 2) ∧ 80 ≤ k then .excellent
        else if 60 ≤ fl64 (fl64 (c + p) / 2) ∧ 60 ≤ k then .good
        else .needs_improvement := by
    intro c p k d
    unfold getOverallStatus
    simp only [gt_iff_lt, ge_iff_le]
    split_ifs <;> rfl
  refine ⟨(getOverallStatus_monotone (some 10) 100 100 50 100 100 90 (le_refl _) (le_refl _)
    (by norm_num)).2, ?_, ?_⟩
  · rw [hgen, havg]
    norm_num
  · rw [hgen, havg]
    norm_num

/-- The first step of the split of a text that is not empty. -/
theorem splitOnChar_cons (sep c : Char) (cs : List Char) :
    splitOnChar sep (c :: cs) =
      if c = sep then [] :: splitOnChar sep cs
      else
        match splitOnChar sep cs with
        | [] => [[c]]
        | p :: ps => (c :: p) :: ps := by
  rw [splitOnChar]

/-- A text without the separator is a single piece. -/
theorem splitOnChar_of_not_mem (sep : Char) (x : List Char) (h : sep ∉ x) :
    splitOnChar sep x = [x] := by
  induction x with
  | nil => rfl
  | cons c cs ih =>
    have hc : c ≠ sep := fun hc => h (hc ▸ List.mem_cons_self c cs)
    have hcs : sep ∉ cs := fun hm => h (List.mem_cons_of_mem c hm)
    rw [splitOnChar_cons, if_neg hc, ih hcs]

/-- A text without the separator, followed by the separator, is the first piece. -/
theorem splitOnChar_append (sep : Char) (x rest : List Char) (h : sep ∉ x) :
    splitOnChar sep (x ++ sep :: rest) = x :: splitOnChar sep rest := by
  induction x with
  | nil =>
    show splitOnChar sep (sep :: rest) = [] :: splitOnChar sep rest
    rw [splitOnChar_cons, if_pos rfl]
  | cons c cs ih =>
    have hc : c ≠ sep := fun hc => h (hc ▸ List.mem_cons_self c cs)
    have hcs : sep ∉ cs := fun hm => h (List.mem_cons_of_mem c hm)
    show splitOnChar sep (c :: (cs ++ sep :: rest)) = (c :: cs) :: splitOnChar sep rest
    rw [splitOnChar_cons, if_neg hc, ih hcs]

/-- Splitting the join of texts that do not contain the separator gives the texts back. -/
theorem splitOnChar_joinWith (sep : Char) (parts : List (List Char)) (hne : parts ≠ [])
    (h : ∀ p ∈ parts, sep ∉ p) : splitOnChar sep (joinWith sep parts) = parts := by
  induction parts with
  | nil => exact absurd rfl hne
  | cons x rest ih =>
    cases rest with
    | nil =>
      show splitOnChar sep x = [x]
      exact splitOnChar_of_not_mem sep x (h x (List.mem_cons_self _ _))
    | cons y more =>
      show splitOnChar sep (x ++ sep :: joinWith sep (y :: more)) = x :: y :: more
      rw [splitOnChar_append sep x _ (h x (List.mem_cons_self _ _)),
        ih (by simp) (fun p hp => h p (List.mem_cons_of_mem _ hp))]

/-- A digit character is a decimal digit. -/
theorem digitChar_isDigit (n : ℕ) : (digitChar n).isDigit = true := by
  have h : n % 10 < 10 := Nat.mod_lt n (by norm_num)
  unfold digitChar
  interval_cases n % 10 <;> decide

/-- Every character of a padded number is a decimal digit. -/
theorem padDigits_isDigit (width n : ℕ) : ∀ c ∈ padDigits width n, c.isDigit = true := by
  intro c hc
  unfold padDigits at hc
  obtain ⟨i, _, rfl⟩ := List.mem_map.mp hc
  exact digitChar_isDigit _

/-- Every character of the date part is a decimal digit, a hyphen or a plus sign. -/
theorem isoDatePart_chars (t : ℤ) :
    ∀ c ∈ isoDatePart t, c.isDigit = true ∨ c = '-' ∨ c = '+' := by
  intro c hc
  unfold isoDatePart at hc
  simp only [] at hc
  rcases List.mem_append.mp hc with hc | hc
  swap
  · rcases List.mem_cons.mp hc with rfl | hd
    · exact Or.inr (Or.inl rfl)
    · exact Or.inl (padDigits_isDigit _ _ c hd)
  rcases List.mem_append.mp hc with hy | hc
  swap
  · rcases List.mem_cons.mp hc with rfl | hm
    · exact Or.inr (Or.inl rfl)
    · exact Or.inl (padDigits_isDigit _ _ c hm)
  split_ifs at hy
  · exact Or.inl (padDigits_isDigit _ _ c hy)
  · rcases List.mem_cons.mp hy with rfl | hy
    · exact Or.inr (Or.inl rfl)
    · exact Or.inl (padDigits_isDigit _ _ c hy)
  · rcases List.mem_cons.mp hy with rfl | hy
    · exact Or.inr (Or.inr rfl)
    · exact Or.inl (padDigits_isDigit _ _ c hy)

/-- The date part contains neither a comma nor a line feed. -/
theorem isoDatePart_no_separator (t : ℤ) : ',' ∉ isoDatePart t ∧ '\n' ∉ isoDatePart t := by
  constructor <;> intro h <;> rcases isoDatePart_chars t _ h with h | h | h <;>
    exact absurd h (by decide)

/-- The text of a status contains neither a comma nor a line feed. -/
theorem statusText_no_separator (s : Option NutritionStatus) :
    ',' ∉ statusText s ∧ '\n' ∉ statusText s := by
  rcases s with _ | s
  · decide
  · cases s <;> decide

/-- The month and the day of a calendar date are in range. -/
theorem civilFromDays_bounds (z : ℤ) :
    1 ≤ (civilFromDays z).2.1 ∧ (civilFromDays z).2.1 ≤ 12 ∧
    1 ≤ (civilFromDays z).2.2 ∧ (civilFromDays z).2.2 ≤ 31 := by
  unfold civilFromDays
  simp only []
  split_ifs <;> omega

/-- The line of a record is its six texts joined with commas. -/
theorem csvRow_eq_joinWith (numberText : ℚ → List Char) (r : GrowthRecord) :
    csvRow numberText r =
      joinWith ','
        [isoDatePart r.recordDate, numberText r.weight, numberText r.height,
          optionalNumberText numberText r.bmi, statusText r.nutritionStatus,
          numberText r.ageInMonths] := by
  simp [csvRow, joinWith]

/-- The line of a record contains no line feed when the texts of numbers contain none. -/
theorem csvRow_no_newline (numberText : ℚ → List Char)
    (hnum : ∀ q, ',' ∉ numberText q ∧ '\n' ∉ numberText q) (r : GrowthRecord) :
    '\n' ∉ csvRow numberText r := by
  have hopt : '\n' ∉ optionalNumberText numberText r.bmi := by
    unfold optionalNumberText
    cases r.bmi with
    | none =>
      show '\n' ∉ "undefined".toList
      decide
    | some v => exact (hnum v).2
  unfold csvRow
  simp only [List.mem_append, List.mem_cons, not_or]
  exact ⟨⟨⟨⟨⟨(isoDatePart_no_separator _).2, by decide, (hnum _).2⟩, by decide,
    (hnum _).2⟩, by decide, hopt⟩, by decide, (statusText_no_separator _).2⟩, by decide,
    (hnum _).2⟩

/-- C24. For `n` growth records in the export range the CSV text splits at the line feeds
into exactly `n + 1` lines: the header with the six columns `Date`, `Weight(kg)`,
`Height(cm)`, `BMI`, `Status`, `Age(months)`, then one line per record in the order of the
query, which is ascending in the record date; each record line splits at the commas into
exactly six fields, the date (`YYYY-MM-DD` for the years 0 to 9999), the weight, the
height, the BMI, the nutrition status and the age in months of the record, in that order.
The text of a number, made by the runtime, contains neither a comma nor a line feed. -/
theorem csv_export_lines (numberText : ℚ → List Char)
    (hnum : ∀ q, ',' ∉ numberText q ∧ '\n' ∉ numberText q) (records : List GrowthRecord) :
    splitOnChar '\n' (growthCsv numberText records).toList =
      csvHeader :: records.map (csvRow numberText) ∧
    (splitOnChar '\n' (growthCsv numberText records).toList).length = records.length + 1 ∧
    splitOnChar ',' csvHeader =
      ["Date".toList, "Weight(kg)".toList, "Height(cm)".toList, "BMI".toList,
        "Status".toList, "Age(months)".toList] ∧
    (∀ r ∈ records,
      splitOnChar ',' (csvRow numberText r) =
        [isoDatePart r.recordDate, numberText r.weight, numberText r.height,
          optionalNumberText numberText r.bmi, statusText r.nutritionStatus,
          numberText r.ageInMonths]) ∧
    (∀ (all : List GrowthRecord) (start finish : ℤ),
      (exportGrowthRecords all start finish).Sorted
        (fun a b => a.recordDate ≤ b.recordDate) ∧
      (exportGrowthRecords all start finish).Perm
        (all.filter (fun r => start ≤ r.recordDate ∧ r.recordDate ≤ finish))) ∧
    (∀ t : ℤ, 0 ≤ (civilFromDays (t / msPerDay)).1 → (civilFromDays (t / msPerDay)).1 ≤ 9999 →
      isoDatePart t =
        padDigits 4 (civilFromDays (t / msPerDay)).1.toNat ++
          '-' :: padDigits 2 (civilFromDays (t / msPerDay)).2.1.toNat ++
          '-' :: padDigits 2 (civilFromDays (t / msPerDay)).2.2.toNat ∧
      (isoDatePart t).length = 10 ∧
      1 ≤ (civilFromDays (t / msPerDay)).2.1 ∧ (civilFromDays (t / msPerDay)).2.1 ≤ 12 ∧
      1 ≤ (civilFromDays (t / msPerDay)).2.2 ∧ (civilFromDays (t / msPerDay)).2.2 ≤ 31) := by
  have hlines : splitOnChar '\n' (growthCsv numberText records).toList =
      csvHeader :: records.map (csvRow numberText) := by
    unfold growthCsv
    apply splitOnChar_joinWith
    · simp
    · intro p hp
      rcases List.mem_cons.mp hp with rfl | hp
      · decide
      · obtain ⟨r, _, rfl⟩ := List.mem_map.mp hp
        exact csvRow_no_newline numberText hnum r
  refine ⟨hlines, by rw [hlines]; simp, by decide, ?_, ?_, ?_⟩
  · intro r _
    rw [csvRow_eq_joinWith]
    apply splitOnChar_joinWith
    · simp
    · intro p hp
      have hopt : ',' ∉ optionalNumberText numberText r.bmi := by
        unfold optionalNumberText
        cases r.bmi with
        | none =>
          show ',' ∉ "undefined".toList
          decide
        | some v => exact (hnum v).1
      simp only [List.mem_cons, List.mem_singleton, List.not_mem_nil, or_false] at hp
      rcases hp with rfl | rfl | rfl | rfl | rfl | rfl
      · exact (isoDatePart_no_separator _).1
      · exact (hnum _).1
      · exact (hnum _).1
      · exact hopt
      · exact (statusText_no_separator _).1
      · exact (hnum _).1
  · intro all start finish
    haveI : IsTotal GrowthRecord (fun a b => a.recordDate ≤ b.recordDate) :=
      ⟨fun a b => le_total _ _⟩
    haveI : IsTrans GrowthRecord (fun a b => a.recordDate ≤ b.recordDate) :=
      ⟨fun a b c hab hbc => le_trans hab hbc⟩
    exact ⟨List.sorted_insertionSort _ _, List.perm_insertionSort _ _⟩
  · intro t h0 h9
    have hb := civilFromDays_bounds (t / msPerDay)
    refine ⟨?_, ?_, hb⟩
    · unfold isoDatePart
      simp only []
      rw [if_pos ⟨h0, h9⟩]
    · unfold isoDatePart
      simp only []
      rw [if_pos ⟨h0, h9⟩]
      simp [padDigits]

/-- The sample text of a number contains neither a comma nor a line feed. -/
theorem integerText_no_separator (q : ℚ) :
    ',' ∉ integerText q ∧ '\n' ∉ integerText q := by
  have hd : ∀ c ∈ integerText q, c.isDigit = true := by
    intro c hc
    unfold integerText at hc
    split_ifs at hc
    · rw [List.mem_singleton] at hc
      rw [hc]
      decide
    · exact padDigits_isDigit _ _ c ((List.dropWhile_sublist _).subset hc)
  constructor <;> intro h <;> exact absurd (hd _ h) (by decide)

/-- Witness of C24: two stored records of 1 and 2 March 2021 give three lines, and the
date of the first is written `2021-03-01`. -/
theorem csv_export_lines_witness :
    String.mk (isoDatePart (dateUTC 2021 3 1 0)) = "2021-03-01" ∧
    String.mk (integerText 100) = "100" ∧
    (splitOnChar '\n'
      (growthCsv integerText
        [growthSample 10 (dateUTC 2021 3 1 0),
          growthSample 11 (dateUTC 2021 3 2 0)]).toList).length = 3 :=
  ⟨by decide, by decide,
   (csv_export_lines integerText integerText_no_separator
    [growthSample 10 (dateUTC 2021 3 1 0), growthSample 11 (dateUTC 2021 3 2 0)]).2.1⟩

end GiziApp
